import Mathlib

/-!
# PN532 / Wake-on-LAN / Windows login: a shallow embedding

The development models the C sources of the repository

* `components/wol_client/wol_client.c`   (magic packet, reachability probe),
* `components/hid_keyboard/hid_keyboard.c` (USB HID typing),
* `components/wifi_manager/wifi_manager.c` (link check),
* `main/main.c`                           (the login orchestrator).

Conventions.

* A C string is the list of its bytes before the terminating NUL (`CStr`);
  a possibly-null `const char *` is an `Option CStr`.
* Machine integers are `Nat`/`Int`; truncation is written out where the C
  code truncates.
* Everything the code obtains from the operating system, the network stack
  or the USB stack (results of `socket`, `connect`, `select`, the readiness
  flag, the clock, ...) is an explicit parameter: an environment record or a
  stream indexed by the number of the call.
* Every externally visible action is recorded as an `Event`; functions
  return the list of events they caused, in order.
-/

namespace PN532WoL

/-! ## Basic types -/

/-- The ESP-IDF error type `esp_err_t` is a C `int`. -/
abbrev esp_err_t := Int

/-- Value of `ESP_OK` in ESP-IDF `esp_err.h`. -/
abbrev ESP_OK : esp_err_t := 0

/-- Value of `ESP_FAIL` in ESP-IDF `esp_err.h`. -/
abbrev ESP_FAIL : esp_err_t := -1

/-- Value of `ESP_ERR_INVALID_ARG` in ESP-IDF `esp_err.h`. -/
abbrev ESP_ERR_INVALID_ARG : esp_err_t := 0x102

/-- Value of `ESP_ERR_TIMEOUT` in ESP-IDF `esp_err.h`. -/
abbrev ESP_ERR_TIMEOUT : esp_err_t := 0x107

/-- A C string: its bytes before the terminating NUL. -/
abbrev CStr := List Nat

/-- Externally visible actions, in the order the code performs them.
The three `*_call` constructors are call records: they are written by the
caller and carry the arguments and the result of the call; the events of the
callee follow them. -/
inductive Event where
  /-- A `socket(AF_INET, ...)` call (`tcp = false` for `SOCK_DGRAM`) and its result. -/
  | socket (tcp : Bool) (fd : Int)
  /-- A `setsockopt(sock, SOL_SOCKET, SO_BROADCAST, ...)` call and its result. -/
  | setsockopt (result : Int)
  /-- A `sendto` call: destination address, port, payload and result. -/
  | sendto (addr : Nat) (port : Nat) (payload : List Nat) (result : Int)
  /-- A `connect` call on a TCP socket: destination address and port. -/
  | connect (addr : Nat) (port : Nat)
  /-- A `select` call waiting for writability with the given timeout. -/
  | select (timeout_ms : Int)
  /-- A `close` call on the socket. -/
  | close
  /-- A call `tud_hid_keyboard_report(0, modifier, keycode)`; a `NULL` key
  array is recorded as six zero bytes, which is what TinyUSB sends for it. -/
  | report (modifier : Nat) (keycode : List Nat)
  /-- A `vTaskDelay` of the number of milliseconds written in the source. -/
  | delay (ms : Nat)
  /-- A call of `led_pc_connect()`. -/
  | led_pc_connect
  /-- A call of `wol_send_magic_packet(mac, ip, port)` and its result. -/
  | send_call (ip : Option CStr) (port : Nat) (result : esp_err_t)
  /-- A call of `wol_send_magic_packet_all` and its result. -/
  | send_all_call (result : esp_err_t)
  /-- A call of `wol_check_host_reachable(ip, timeout_ms)` and its result. -/
  | reachable_call (timeout_ms : Nat) (result : Bool)
  deriving DecidableEq, Repr

/-! ## `wol_client.c`: parsing the MAC address

`wol_send_magic_packet` parses its argument with
`sscanf(mac_address, "%02hhx:%02hhx:%02hhx:%02hhx:%02hhx:%02hhx", ...)`.
`sscanf` belongs to the C library: a `%2hhx` directive skips white space,
then reads at most two characters forming an optionally signed hexadecimal
integer, and stores the value converted to `unsigned char`; a `:` in the
format must be matched by the next input character.  C libraries differ in
one case, a field that starts with `0x` or `0X`: the width of 2 ends the
field before any digit of the prefixed number.  The GNU C library stores 0
and consumes both characters, and the model does the same.  (ISO C 7.21.6.2
reads this item as a matching failure; BSD-derived libraries store 0 and
leave the `x` unread.) -/

/-- The C `isspace` in the "C" locale: space, `\t`, `\n`, `\v`, `\f`, `\r`. -/
def isspace (c : Nat) : Bool := c == 32 || (9 ≤ c && c ≤ 13)

/-- Value of a hexadecimal digit character, if it is one. -/
def hexDigitVal (c : Nat) : Option Nat :=
  if 48 ≤ c ∧ c ≤ 57 then some (c - 48)
  else if 65 ≤ c ∧ c ≤ 70 then some (c - 55)
  else if 97 ≤ c ∧ c ≤ 102 then some (c - 87)
  else none

/-- The C `isxdigit`. -/
def isxdigit (c : Nat) : Bool := (hexDigitVal c).isSome

/-- Skip leading white space, as every `%x` directive does. -/
def skip_ws : CStr → CStr
  | [] => []
  | c :: cs => if isspace c then skip_ws cs else c :: cs

/-- Outcome of one conversion directive. -/
inductive ScanResult where
  /-- Input failure: the input ended before any character of the item. -/
  | eof
  /-- Matching failure. -/
  | nomatch
  /-- Success: the stored value and the unread input. -/
  | ok (value : Nat) (rest : CStr)
  deriving DecidableEq, Repr

/-- One `%02hhx` directive: field width 2 (the `0` is part of the width).
After white space, the item is at most two characters long: a sign (`+`,
code 43, or `-`, code 45) and one digit, or one or two digits.  The
two-character item `0x` (or `0X`) is the start of a prefixed number whose
digits no longer fit in the width: both characters are consumed and 0 is
stored.  A negative value is stored modulo 256 (`unsigned char`). -/
def scan_hhx2 (inp : CStr) : ScanResult :=
  match skip_ws inp with
  | [] => .eof
  | c :: cs =>
    if c = 43 ∨ c = 45 then
      match cs with
      | [] => .nomatch
      | d :: ds =>
        match hexDigitVal d with
        | none => .nomatch
        | some v => .ok (if c = 45 then (256 - v) % 256 else v) ds
    else
      match hexDigitVal c with
      | none => .nomatch
      | some v =>
        match cs with
        | [] => .ok v []
        | d :: ds =>
          if c = 48 ∧ (d = 120 ∨ d = 88) then .ok 0 ds
          else
            match hexDigitVal d with
            | none => .ok v (d :: ds)
            | some w => .ok (16 * v + w) ds

/-- The directives of the format that are still to be processed: `n`
conversions, separated by `:` (code 58).  `acc` holds the values assigned so
far.  The result is the return value of `sscanf` (the number of assignments,
or `EOF = -1` when the input ends before the first conversion) and the
values assigned. -/
def sscanf_mac_loop : Nat → CStr → List Nat → Int × List Nat
  | 0, _, acc => (acc.length, acc)
  | n + 1, inp, acc =>
    match scan_hhx2 inp with
    | .eof => (if acc.length = 0 then -1 else acc.length, acc)
    | .nomatch => (acc.length, acc)
    | .ok v rest =>
      if n = 0 then (acc.length + 1, acc ++ [v])
      else
        match rest with
        | [] => (acc.length + 1, acc ++ [v])
        | c :: rest' =>
          if c = 58 then sscanf_mac_loop n rest' (acc ++ [v])
          else (acc.length + 1, acc ++ [v])

/-- The call `sscanf(mac_address, "%02hhx:%02hhx:%02hhx:%02hhx:%02hhx:%02hhx",
&mac[0], ..., &mac[5])`: return value and the bytes stored into `mac`. -/
def sscanf_mac (mac_address : CStr) : Int × List Nat :=
  sscanf_mac_loop 6 mac_address []

/-! ## `wol_client.c`: building and sending the magic packet -/

/-- The C `memset(dst + off, v, n)` on a buffer. -/
def memset (dst : List Nat) (off v : Nat) : Nat → List Nat
  | 0 => dst
  | n + 1 => (memset dst off v n).set (off + n) v

/-- The C `memcpy(dst + off, src, n)` on a buffer. -/
def memcpy (dst : List Nat) (off : Nat) (src : List Nat) : Nat → List Nat
  | 0 => dst
  | n + 1 => (memcpy dst off src n).set (off + n) (src.getD n 0)

/-- Lines 32-37 of `wol_client.c`: `uint8_t magic_packet[102]` (its
indeterminate initial bytes are `uninit 0 .. uninit 101`), then
`memset(magic_packet, 0xFF, 6)` and sixteen times
`memcpy(magic_packet + 6 + (i * 6), mac, 6)`. -/
def build_magic_packet (uninit : Nat → Nat) (mac : List Nat) : List Nat :=
  let magic_packet := (List.range 102).map uninit
  let magic_packet := memset magic_packet 0 0xFF 6
  (List.range 16).foldl (fun buf i => memcpy buf (6 + i * 6) mac 6) magic_packet

/-- Value of `INADDR_BROADCAST`. -/
abbrev INADDR_BROADCAST : Nat := 0xFFFFFFFF

/-- What one call of `wol_send_magic_packet` obtains from its environment. -/
structure SendEnv where
  /-- Indeterminate initial contents of the local array `magic_packet`. -/
  uninit : Nat → Nat
  /-- Result of `socket(AF_INET, SOCK_DGRAM, IPPROTO_UDP)`. -/
  socket_fd : Int
  /-- Result of `setsockopt(..., SO_BROADCAST, ...)`. -/
  setsockopt_result : Int
  /-- The lwIP function `inet_aton`: `none` when it returns 0. -/
  inet_aton : CStr → Option Nat
  /-- Result of `sendto`. -/
  sendto_result : Int

/-- The datagram that `wol_send_magic_packet` has built when it reaches
line 39, or the error with which it returned before. -/
def wol_magic_packet (env : SendEnv) (mac_address : Option CStr) : Except esp_err_t (List Nat) :=
  match mac_address with
  | none => .error ESP_ERR_INVALID_ARG
  | some mac_str =>
    let r := sscanf_mac mac_str
    if r.1 ≠ 6 then .error ESP_ERR_INVALID_ARG
    else .ok (build_magic_packet env.uninit r.2)

/-- The function `wol_send_magic_packet` of `wol_client.c`: its result and
the socket calls it makes. -/
def wol_send_magic_packet (env : SendEnv) (mac_address ip_address : Option CStr) (port : Nat) :
    esp_err_t × List Event :=
  match wol_magic_packet env mac_address with
  | .error e => (e, [])
  | .ok magic_packet =>
    let sock := env.socket_fd
    if sock < 0 then (ESP_FAIL, [.socket false sock])
    else if env.setsockopt_result < 0 then
      (ESP_FAIL, [.socket false sock, .setsockopt env.setsockopt_result, .close])
    else
      let dest : Option Nat :=
        match ip_address with
        | none => some INADDR_BROADCAST
        | some ip => if ip.length > 0 then env.inet_aton ip else some INADDR_BROADCAST
      match dest with
      | none =>
        (ESP_ERR_INVALID_ARG, [.socket false sock, .setsockopt env.setsockopt_result, .close])
      | some addr =>
        let sent := env.sendto_result
        let evs : List Event :=
          [.socket false sock, .setsockopt env.setsockopt_result,
           .sendto addr port (magic_packet.take 102) sent, .close]
        if sent < 0 then (ESP_FAIL, evs) else (ESP_OK, evs)


/-! ## `wol_client.c`: `wol_send_magic_packet_all` -/

/-- What `esp_netif_get_ip_info` stores in `esp_netif_ip_info_t`: three
32-bit addresses in network byte order. -/
structure IpInfo where
  /-- The field `ip.addr`. -/
  ip : Nat
  /-- The field `netmask.addr`. -/
  netmask : Nat
  /-- The field `gw.addr`. -/
  gw : Nat
  deriving DecidableEq, Repr

/-- What the code learns about the station interface. -/
structure NetifEnv where
  /-- Whether `esp_netif_get_handle_from_ifkey("WIFI_STA_DEF")` is non-NULL. -/
  handle : Bool
  /-- The data of `esp_netif_get_ip_info` when it returns `ESP_OK`. -/
  ip_info : Option IpInfo
  deriving DecidableEq, Repr

/-- Decimal text of a byte, as lwIP prints one octet of an address. -/
def dec_octet (n : Nat) : CStr :=
  if n < 10 then [48 + n]
  else if n < 100 then [48 + n / 10, 48 + n % 10]
  else [48 + n / 100, 48 + n / 10 % 10, 48 + n % 10]

/-- The lwIP function `inet_ntoa_r(addr, buf, buflen)`: the dotted text of
the four bytes of `addr` in memory order (the target is little-endian), or
`none` (NULL) when text and terminating NUL do not fit into `buflen` bytes. -/
def inet_ntoa_r (addr : Nat) (buflen : Nat) : Option CStr :=
  let s := dec_octet (addr % 256) ++ [46] ++ dec_octet (addr / 256 % 256) ++ [46] ++
    dec_octet (addr / 65536 % 256) ++ [46] ++ dec_octet (addr / 16777216 % 256)
  if s.length + 1 ≤ buflen then some s else none

/-- The expression `(ip_info.ip.addr & ip_info.netmask.addr) | (~ip_info.netmask.addr)`
on `uint32_t`. -/
def bcast_addr (ip netmask : Nat) : Nat :=
  ((ip &&& netmask) ||| (netmask ^^^ 0xFFFFFFFF)) % 2 ^ 32

/-- The string literal `"255.255.255.255"`. -/
def bcast_any : CStr :=
  [50, 53, 53, 46, 50, 53, 53, 46, 50, 53, 53, 46, 50, 53, 53]

/-- Local state of `wol_send_magic_packet_all`: the variable `ok`, the number
of `wol_send_magic_packet` calls made so far, and the events so far. -/
structure AllSt where
  /-- The local variable `ok`. -/
  ok : esp_err_t
  /-- Number of calls of `wol_send_magic_packet` made so far. -/
  calls : Nat
  /-- Events so far. -/
  events : List Event

/-- One statement
`if (wol_send_magic_packet(mac_address, ip, port) == ESP_OK) ok = ESP_OK;`.
The environment of the call is `send st.calls`. -/
def AllSt.call (send : Nat → SendEnv) (mac_address : Option CStr) (st : AllSt)
    (ip : CStr) (port : Nat) : AllSt :=
  let r := wol_send_magic_packet (send st.calls) mac_address (some ip) port
  { ok := if r.1 = ESP_OK then ESP_OK else st.ok
    calls := st.calls + 1
    events := st.events ++ Event.send_call (some ip) port r.1 :: r.2 }

/-- The function `wol_send_magic_packet_all` of `wol_client.c`.  `send k` is
the environment of the `k`-th call of `wol_send_magic_packet` it makes. -/
def wol_send_magic_packet_all (send : Nat → SendEnv) (netif : NetifEnv)
    (mac_address ip_address : Option CStr) : esp_err_t × List Event :=
  match mac_address with
  | none => (ESP_ERR_INVALID_ARG, [])
  | some _ =>
    let st : AllSt := { ok := ESP_FAIL, calls := 0, events := [] }
    -- directed unicast to the PC
    let st :=
      match ip_address with
      | none => st
      | some ip =>
        if ip.length > 0 then
          (st.call send mac_address ip 9).call send mac_address ip 7
        else st
    -- subnet broadcast computed from the station address and netmask
    let st :=
      if netif.handle then
        match netif.ip_info with
        | none => st
        | some info =>
          match inet_ntoa_r (bcast_addr info.ip info.netmask) 16 with
          | none => st
          | some bcast_str =>
            (st.call send mac_address bcast_str 9).call send mac_address bcast_str 7
      else st
    -- limited broadcast
    let st := (st.call send mac_address bcast_any 9).call send mac_address bcast_any 7
    (st.ok, st.events)

/-! ## `wol_client.c`: `wol_check_host_reachable` -/

/-- Value of `EINPROGRESS` in newlib `sys/errno.h`. -/
abbrev EINPROGRESS : Int := 119

/-- Value of `EALREADY` in newlib `sys/errno.h`. -/
abbrev EALREADY : Int := 120

/-- Value of `EWOULDBLOCK` (`EAGAIN`) in newlib `sys/errno.h`. -/
abbrev EWOULDBLOCK : Int := 11

/-- Value of `ECONNREFUSED` in newlib `sys/errno.h`. -/
abbrev ECONNREFUSED : Int := 111

/-- What one iteration of the port loop of `wol_check_host_reachable`
obtains from its environment. -/
structure ProbeEnv where
  /-- Result of `socket(AF_INET, SOCK_STREAM, IPPROTO_TCP)`. -/
  socket_fd : Int
  /-- The lwIP function `inet_aton`: `none` when it returns 0. -/
  inet_aton : CStr → Option Nat
  /-- Result of the non-blocking `connect`. -/
  connect_result : Int
  /-- Value of `errno` after `connect`. -/
  connect_errno : Int
  /-- Result of `select`. -/
  select_result : Int
  /-- Value of `FD_ISSET(tcp_sock, &writefds)` after `select`. -/
  fd_isset : Bool
  /-- Result of `getsockopt(..., SO_ERROR, ...)`. -/
  getsockopt_result : Int
  /-- Value stored into `so_error`. -/
  so_error : Int

/-- Conversion of a `uint32_t` to `int` (the cast `(int)timeout_ms`). -/
def to_int32 (x : Int) : Int := (x + 2 ^ 31) % 2 ^ 32 - 2 ^ 31

/-- The per-port budget: `(int)timeout_ms / num_ports`, raised to 150 when
smaller. -/
def per_port_timeout_ms (timeout_ms : Nat) (num_ports : Nat) : Int :=
  let t := Int.tdiv (to_int32 timeout_ms) (if num_ports > 0 then num_ports else 1)
  if t < 150 then 150 else t

/-- The body of the port loop for one port.  The Boolean is `true` when the
body executes `return true`, and `false` when it falls through (or executes
`continue`) to the next port. -/
def probe_port (env : ProbeEnv) (ip : CStr) (port : Nat) (tmo : Int) : Bool × List Event :=
  if env.socket_fd < 0 then (false, [.socket true env.socket_fd])
  else
    match env.inet_aton ip with
    | none => (false, [.socket true env.socket_fd, .close])
    | some addr =>
      let evs : List Event := [.socket true env.socket_fd, .connect addr port]
      if env.connect_result = 0 then (true, evs ++ [.close])
      else if env.connect_errno ≠ EINPROGRESS ∧ env.connect_errno ≠ EALREADY ∧
          env.connect_errno ≠ EWOULDBLOCK then
        if env.connect_errno = ECONNREFUSED then (true, evs ++ [.close])
        else (false, evs ++ [.close])
      else
        let evs := evs ++ [.select tmo]
        if env.select_result > 0 ∧ env.fd_isset = true then
          if env.getsockopt_result = 0 then
            if env.so_error = 0 then (true, evs ++ [.close])
            else if env.so_error = ECONNREFUSED then (true, evs ++ [.close])
            else (false, evs ++ [.close])
          else (false, evs ++ [.close])
        else (false, evs ++ [.close])

/-- The port loop, from the `i`-th port on; `env i` is the environment of
the iteration for the `i`-th port. -/
def probe_ports (env : Nat → ProbeEnv) (ip : CStr) (tmo : Int) :
    List Nat → Nat → Bool × List Event
  | [], _ => (false, [])
  | port :: rest, i =>
    let r := probe_port (env i) ip port tmo
    if r.1 then (true, r.2)
    else
      let r' := probe_ports env ip tmo rest (i + 1)
      (r'.1, r.2 ++ r'.2)

/-- The array `ports` of `wol_check_host_reachable`. -/
def ports : List Nat := [3389, 135, 445]

/-- The function `wol_check_host_reachable` of `wol_client.c`. -/
def wol_check_host_reachable (env : Nat → ProbeEnv) (ip_address : Option CStr)
    (timeout_ms : Nat) : Bool × List Event :=
  match ip_address with
  | none => (false, [])
  | some ip =>
    let num_ports := ports.length
    probe_ports env ip (per_port_timeout_ms timeout_ms num_ports) ports 0

/-! ## `hid_keyboard.c` -/

/-- The parts of TinyUSB that `hid_keyboard.c` uses as data. -/
structure HidLib where
  /-- The table `ascii_to_keycode[128][2] = { HID_ASCII_TO_KEYCODE }`: for a
  character code below 128, the shift flag and the key code. -/
  ascii_to_keycode : Nat → Nat × Nat
  /-- The constant `KEYBOARD_MODIFIER_LEFTSHIFT`. -/
  KEYBOARD_MODIFIER_LEFTSHIFT : Nat

/-- The key code `HID_KEY_ENTER` defined in `hid_keyboard.c`. -/
abbrev HID_KEY_ENTER : Nat := 0x28

/-- The loop of `hid_wait_ready`.  `ready t` is the value of
`s_usb_mounted && tud_hid_ready()` at the `t`-th evaluation since the start
of the run, `elapsed` is the local counter.  The first argument bounds the
number of iterations; `hid_wait_ready` passes a bound that the loop never
exhausts (`hid_wait_ready_loop_fuel`).  The result is the return value, the
index of the next evaluation and the delays performed. -/
def hid_wait_ready_loop (ready : Nat → Bool) (timeout_ms : Nat) :
    Nat → Nat → Nat → Bool × Nat × List Event
  | 0, _, t => (false, t, [])
  | fuel + 1, elapsed, t =>
    if ready t then (true, t + 1, [])
    else if elapsed + 1 ≥ timeout_ms then (false, t + 1, [.delay 1])
    else
      let r := hid_wait_ready_loop ready timeout_ms fuel (elapsed + 1) (t + 1)
      (r.1, r.2.1, .delay 1 :: r.2.2)

/-- The function `hid_wait_ready` of `hid_keyboard.c`. -/
def hid_wait_ready (ready : Nat → Bool) (timeout_ms : Nat) (t : Nat) :
    Bool × Nat × List Event :=
  hid_wait_ready_loop ready timeout_ms (max 1 timeout_ms) 0 t

/-- The six zero bytes TinyUSB sends for a `NULL` key array. -/
def no_keys : List Nat := [0, 0, 0, 0, 0, 0]

/-- The local variables `modifier` and `key` of `hid_keyboard_type_string`
for the character `text[i]`. -/
def lookup_key (lib : HidLib) (ch : Nat) : Nat × Nat :=
  let c := ch % 256
  if c < 128 then
    (if (lib.ascii_to_keycode c).1 ≠ 0 then lib.KEYBOARD_MODIFIER_LEFTSHIFT else 0,
     (lib.ascii_to_keycode c).2)
  else (0, 0)

/-- The `for` loop of `hid_keyboard_type_string` over the remaining
characters.  `t` is the index of the next readiness evaluation, `evs` the
events so far. -/
def type_loop (lib : HidLib) (ready : Nat → Bool) (delay_ms : Nat) :
    CStr → Nat → List Event → esp_err_t × Nat × List Event
  | [], t, evs => (ESP_OK, t, evs)
  | ch :: rest, t, evs =>
    let modifier := (lookup_key lib ch).1
    let key := (lookup_key lib ch).2
    if key = 0 then type_loop lib ready delay_ms rest t evs
    else
      let w := hid_wait_ready ready 2000 t
      if w.1 = false then (ESP_ERR_TIMEOUT, w.2.1, evs ++ w.2.2)
      else
        let evs := evs ++ w.2.2 ++
          [.report modifier [key, 0, 0, 0, 0, 0], .delay 30, .report 0 no_keys]
        let evs := if delay_ms > 0 then evs ++ [.delay delay_ms] else evs
        type_loop lib ready delay_ms rest w.2.1 evs

/-- The function `hid_keyboard_type_string` of `hid_keyboard.c`: result,
index of the next readiness evaluation, events. -/
def hid_keyboard_type_string (lib : HidLib) (ready : Nat → Bool) (text : Option CStr)
    (delay_ms : Nat) (t : Nat) : esp_err_t × Nat × List Event :=
  match text with
  | none => (ESP_ERR_INVALID_ARG, t, [])
  | some text =>
    let w := hid_wait_ready ready 4000 t
    if w.1 = false then (ESP_ERR_TIMEOUT, w.2.1, w.2.2)
    else type_loop lib ready delay_ms text w.2.1 w.2.2

/-- The function `hid_keyboard_press_key` of `hid_keyboard.c`. -/
def hid_keyboard_press_key (ready : Nat → Bool) (key_code : Nat) (t : Nat) :
    esp_err_t × Nat × List Event :=
  let w := hid_wait_ready ready 2000 t
  if w.1 = false then (ESP_ERR_TIMEOUT, w.2.1, w.2.2)
  else
    (ESP_OK, w.2.1,
      w.2.2 ++ [.report 0 [key_code, 0, 0, 0, 0, 0], .delay 50, .report 0 no_keys])

/-- The function `hid_keyboard_press_enter` of `hid_keyboard.c`. -/
def hid_keyboard_press_enter (ready : Nat → Bool) (t : Nat) : esp_err_t × Nat × List Event :=
  hid_keyboard_press_key ready HID_KEY_ENTER t

/-! ## `wifi_manager.c`: the link check -/

/-- The function `wifi_manager_check_connection` of `wifi_manager.c`; it
reads the flag `s_wifi_connected` and the interface data and sends nothing. -/
def wifi_manager_check_connection (s_wifi_connected : Bool) (netif : NetifEnv) : esp_err_t :=
  if s_wifi_connected = false then ESP_FAIL
  else if netif.handle then
    match netif.ip_info with
    | some _ => ESP_OK
    | none => ESP_FAIL
  else ESP_FAIL

/-! ## `main.c`: `perform_windows_login` -/

/-- The configuration macros of `main.c` that the login uses. -/
structure Config where
  /-- The macro `PC_MAC_ADDRESS`. -/
  PC_MAC_ADDRESS : CStr
  /-- The macro `PC_IP_ADDRESS`. -/
  PC_IP_ADDRESS : CStr
  /-- The macro `WINDOWS_PASSWORD`. -/
  WINDOWS_PASSWORD : CStr

/-- Everything one run of `perform_windows_login` obtains from outside. -/
structure World where
  /-- The configuration macros. -/
  cfg : Config
  /-- The TinyUSB data. -/
  hid : HidLib
  /-- The flag `s_wifi_connected` when the link is checked. -/
  s_wifi_connected : Bool
  /-- The interface data seen by `wifi_manager_check_connection`. -/
  check_netif : NetifEnv
  /-- Environment of the `j`-th call of `wol_check_host_reachable`, per port index. -/
  probe : Nat → Nat → ProbeEnv
  /-- The interface data seen by the `k`-th call of `wol_send_magic_packet_all`. -/
  wake_netif : Nat → NetifEnv
  /-- Environment of the `k`-th call of `wol_send_magic_packet_all`, per send. -/
  send : Nat → Nat → SendEnv
  /-- The `j`-th value returned by `esp_timer_get_time()` (microseconds, `int64_t`). -/
  clock : Nat → Int
  /-- The `t`-th value of `s_usb_mounted && tud_hid_ready()`. -/
  ready : Nat → Bool

/-- Progress of one run: how many calls of each kind have been made, and the
events so far. -/
structure St where
  /-- Number of calls of `wol_check_host_reachable` so far. -/
  probes : Nat
  /-- Number of calls of `wol_send_magic_packet_all` so far. -/
  wakes : Nat
  /-- Number of calls of `esp_timer_get_time` so far. -/
  reads : Nat
  /-- Number of readiness evaluations so far. -/
  polls : Nat
  /-- Events so far. -/
  trace : List Event

/-- A call `wol_check_host_reachable(PC_IP_ADDRESS, timeout_ms)`. -/
def St.check_host (w : World) (st : St) (timeout_ms : Nat) : Bool × St :=
  let r := wol_check_host_reachable (w.probe st.probes) (some w.cfg.PC_IP_ADDRESS) timeout_ms
  (r.1, { st with
    probes := st.probes + 1
    trace := st.trace ++ Event.reachable_call timeout_ms r.1 :: r.2 })

/-- A call `wol_send_magic_packet_all(PC_MAC_ADDRESS, PC_IP_ADDRESS)`. -/
def St.send_all (w : World) (st : St) : esp_err_t × St :=
  let r := wol_send_magic_packet_all (w.send st.wakes) (w.wake_netif st.wakes)
    (some w.cfg.PC_MAC_ADDRESS) (some w.cfg.PC_IP_ADDRESS)
  (r.1, { st with
    wakes := st.wakes + 1
    trace := st.trace ++ Event.send_all_call r.1 :: r.2 })

/-- The expression `esp_timer_get_time() / 1000` (64-bit, truncating). -/
def St.now_ms (w : World) (st : St) : Int × St :=
  (Int.tdiv (w.clock st.reads) 1000, { st with reads := st.reads + 1 })

/-- A call `hid_keyboard_press_enter()`. -/
def St.press_enter (w : World) (st : St) : esp_err_t × St :=
  let r := hid_keyboard_press_enter w.ready st.polls
  (r.1, { st with polls := r.2.1, trace := st.trace ++ r.2.2 })

/-- A call `hid_keyboard_type_string(WINDOWS_PASSWORD, 50)`. -/
def St.type_password (w : World) (st : St) : esp_err_t × St :=
  let r := hid_keyboard_type_string w.hid w.ready (some w.cfg.WINDOWS_PASSWORD) 50 st.polls
  (r.1, { st with polls := r.2.1, trace := st.trace ++ r.2.2 })

/-- A call `vTaskDelay(ms / portTICK_PERIOD_MS)`. -/
def St.delay (st : St) (ms : Nat) : St :=
  { st with trace := st.trace ++ [Event.delay ms] }

/-- A call `led_pc_connect()`. -/
def St.led_pc_connect (st : St) : St :=
  { st with trace := st.trace ++ [Event.led_pc_connect] }

/-- The statements that both branches of `perform_windows_login` share
(lines 438-457 and 506-525): Enter, 500 ms, the password, Enter.  The
results of the two `hid_keyboard_press_enter` calls are discarded, as in the
source.  The result is the value with which `perform_windows_login` returns:
the error of `hid_keyboard_type_string` (`return ret`), or `ESP_OK` after the
second Enter (the `return ESP_OK` that ends the function). -/
def type_and_submit (w : World) (st : St) : esp_err_t × St :=
  let st := (st.press_enter w).2
  let st := st.delay 500
  let r := st.type_password w
  if r.1 ≠ ESP_OK then (r.1, r.2)
  else
    let st := (r.2.press_enter w).2
    (ESP_OK, st)

/-- The loop `for (int probe = 1; probe <= 3; probe++)` with `n` iterations
left: the value of `pc_is_on` after it. -/
def probe_up_to (w : World) : Nat → St → Bool × St
  | 0, st => (false, st)
  | n + 1, st =>
    let r := st.check_host w 1000
    if r.1 then (true, r.2) else probe_up_to w n r.2

/-- The `while` loop of `perform_windows_login` (lines 467-490), entered with
`pc_is_on = false`; the result is the value of `pc_is_on` after the loop.
The first argument bounds the number of iterations; `none` means that the
bound was too small. -/
def wake_loop (w : World) (start_time : Int) : Nat → St → Option (Bool × St)
  | 0, _ => none
  | fuel + 1, st =>
    let c := st.now_ms w
    if c.1 - start_time < 30000 then
      -- attempt++; ret = wol_send_magic_packet_all(...)
      let s := c.2.send_all w
      let p := probe_up_to w 3 s.2
      if p.1 then some (true, p.2)
      else
        let c' := p.2.now_ms w
        if c'.1 - start_time ≥ 30000 then some (false, c'.2)
        else wake_loop w start_time fuel c'.2
    else some (false, c.2)

/-- The state in which a run starts. -/
def St.init : St := { probes := 0, wakes := 0, reads := 0, polls := 0, trace := [] }

/-- The function `perform_windows_login` of `main.c` (with
`WOL_ALWAYS_SEND_FOR_TEST` equal to 0, as in the source).  `fuel` bounds the
number of iterations of the wake loop; `none` means that it was too small. -/
def perform_windows_login (w : World) (fuel : Nat) : Option (esp_err_t × St) :=
  let st := St.init
  let wifi_check := wifi_manager_check_connection w.s_wifi_connected w.check_netif
  if wifi_check ≠ ESP_OK then some (ESP_FAIL, st)
  else
    let r := st.check_host w 600
    if r.1 then
      let st := r.2.led_pc_connect
      some (type_and_submit w st)
    else
      -- int start_time = esp_timer_get_time() / 1000;
      let c := r.2.now_ms w
      let start_time := to_int32 c.1
      match wake_loop w start_time fuel c.2 with
      | none => none
      | some l =>
        let f := if l.1 = false then l.2.check_host w 3000 else (true, l.2)
        if f.1 then
          let st := f.2.led_pc_connect
          let st := st.delay 7000
          some (type_and_submit w st)
        else some (ESP_FAIL, f.2)
/-- A textual MAC address of the form `XX:XX:XX:XX:XX:XX`: seventeen
characters, a colon at the positions 2, 5, 8, 11, 14 and a hexadecimal digit
at every other position. -/
def well_formed_mac (s : CStr) : Bool :=
  s.length == 17 &&
    (List.range 17).all fun i =>
      if i % 3 = 2 then s.getD i 0 == 58 else isxdigit (s.getD i 0)

/-- The `j`-th address byte written in a well-formed textual MAC address: the
value of its `j`-th pair of hexadecimal digits. -/
def mac_byte (s : CStr) (j : Nat) : Nat :=
  16 * (hexDigitVal (s.getD (3 * j) 0)).getD 0 + (hexDigitVal (s.getD (3 * j + 1) 0)).getD 0


/-- The strings that `wol_send_magic_packet` rejects, by class:
the scan assigns fewer than six fields; or the string is shorter than 11
characters; or it has 17 characters with hexadecimal digits at the digit
positions and a character other than `:` at a separator position; or it has
17 characters with colons at the separator positions and hexadecimal digits
at the digit positions except one position `p` before the last, which holds a
character that is no hexadecimal digit and, when `p` starts a pair, is
neither white space nor a sign and, when `p` ends a pair, does not make the
pair `0x` or `0X`. -/
def rejected_mac (s : CStr) : Prop :=
  (sscanf_mac s).1 ≠ 6 ∨
  s.length < 11 ∨
  (s.length = 17 ∧ (∀ i, i < 17 → i % 3 ≠ 2 → isxdigit (s.getD i 0) = true) ∧
    ∃ i, i < 17 ∧ i % 3 = 2 ∧ s.getD i 0 ≠ 58) ∨
  (s.length = 17 ∧ (∀ i, i < 17 → i % 3 = 2 → s.getD i 0 = 58) ∧
    ∃ p, p < 16 ∧ p % 3 ≠ 2 ∧
      (∀ i, i < 17 → i % 3 ≠ 2 → i ≠ p → isxdigit (s.getD i 0) = true) ∧
      isxdigit (s.getD p 0) = false ∧
      (p % 3 = 0 → isspace (s.getD p 0) = false ∧ s.getD p 0 ≠ 43 ∧ s.getD p 0 ≠ 45) ∧
      (p % 3 = 1 → ¬ (s.getD (p - 1) 0 = 48 ∧ (s.getD p 0 = 120 ∨ s.getD p 0 = 88))))

/-- The text `0x:BB:CC:DD:EE:FF`: the first field is the prefix `0x`. -/
def mac_hex_prefix : CStr :=
  [48, 120, 58, 66, 66, 58, 67, 67, 58, 68, 68, 58, 69, 69, 58, 70, 70]

/-- The text `A:B:C:D:E:F`: one digit in every field. -/
def mac_one_digit : CStr := [65, 58, 66, 58, 67, 58, 68, 58, 69, 58, 70]

/-- The text `AA:BG:CC:DD:EE:FF`: the letter `G` at a digit position. -/
def mac_bad_digit : CStr :=
  [65, 65, 58, 66, 71, 58, 67, 67, 58, 68, 68, 58, 69, 69, 58, 70, 70]

/-- The text `AA:BB:CC:DD:EE:FF:00`: a well-formed address followed by three
more characters. -/
def mac_too_long : CStr :=
  [65, 65, 58, 66, 66, 58, 67, 67, 58, 68, 68, 58, 69, 69, 58, 70, 70, 58, 48, 48]

/-- The text `AA-BB:CC:DD:EE:FF`: a dash instead of the first colon. -/
def mac_bad_separator : CStr :=
  [65, 65, 45, 66, 66, 58, 67, 67, 58, 68, 68, 58, 69, 69, 58, 70, 70]

/-- An environment in which every socket call succeeds. -/
def send_env_ok : SendEnv :=
  { uninit := fun _ => 0, socket_fd := 3, setsockopt_result := 0,
    inet_aton := fun _ => some 0x0100A8C0, sendto_result := 102 }

/-! ## The invariant of `wol_send_magic_packet_all` -/

/-- What `wol_send_magic_packet_all` maintains between its statements: `ok`
is `ESP_OK` exactly when some call made so far returned `ESP_OK`, it is
`ESP_FAIL` otherwise, and every call record carries the result of the call
it records. -/
def AllSt.Inv (send : Nat → SendEnv) (mac : Option CStr) (st : AllSt) : Prop :=
  (st.ok = ESP_OK ↔ ∃ dest q, Event.send_call dest q ESP_OK ∈ st.events) ∧
  (st.ok = ESP_OK ∨ st.ok = ESP_FAIL) ∧
  (∀ dest q res, Event.send_call dest q res ∈ st.events →
    ∃ k, k < st.calls ∧ res = (wol_send_magic_packet (send k) mac dest q).1)

/-! ## Outcomes of one port probe (used to state the reachability claims) -/

/-- A connection attempt is made on the port: the socket was created and the
host address was parsed, so `connect` is called. -/
def ProbeEnv.attempted (env : ProbeEnv) (ip : CStr) : Prop :=
  0 ≤ env.socket_fd ∧ (env.inet_aton ip).isSome = true

/-- The non-blocking `connect` did not finish at once: it returned non-zero
with `EINPROGRESS`, `EALREADY` or `EWOULDBLOCK`. -/
def ProbeEnv.in_progress (env : ProbeEnv) : Prop :=
  env.connect_result ≠ 0 ∧
    (env.connect_errno = EINPROGRESS ∨ env.connect_errno = EALREADY ∨
      env.connect_errno = EWOULDBLOCK)

/-- The TCP handshake completes: `connect` returns 0, or the socket becomes
writable within the budget and `SO_ERROR` is 0. -/
def ProbeEnv.handshake_completes (env : ProbeEnv) : Prop :=
  env.connect_result = 0 ∨
    (env.in_progress ∧ 0 < env.select_result ∧ env.fd_isset = true ∧
      env.getsockopt_result = 0 ∧ env.so_error = 0)

/-- The remote actively refuses the connection: `ECONNREFUSED` is reported
by `connect` at once or through `SO_ERROR`. -/
def ProbeEnv.refused (env : ProbeEnv) : Prop :=
  (env.connect_result ≠ 0 ∧ env.connect_errno = ECONNREFUSED) ∨
    (env.in_progress ∧ 0 < env.select_result ∧ env.fd_isset = true ∧
      env.getsockopt_result = 0 ∧ env.so_error = ECONNREFUSED)

/-- The port times out: the connection is in progress and `select` returns 0. -/
def ProbeEnv.times_out (env : ProbeEnv) : Prop :=
  env.in_progress ∧ env.select_result = 0

/-- A port on which the handshake completes at once. -/
def probe_env_open : ProbeEnv :=
  { socket_fd := 4, inet_aton := fun _ => some 0x0100A8C0, connect_result := 0,
    connect_errno := 0, select_result := 0, fd_isset := false, getsockopt_result := 0,
    so_error := 0 }

/-- A port on which nothing answers within the budget. -/
def probe_env_silent : ProbeEnv :=
  { socket_fd := 4, inet_aton := fun _ => some 0x0100A8C0, connect_result := -1,
    connect_errno := EINPROGRESS, select_result := 0, fd_isset := false,
    getsockopt_result := 0, so_error := 0 }

/-- A port that the remote refuses, reported through `SO_ERROR`. -/
def probe_env_refused : ProbeEnv :=
  { socket_fd := 4, inet_aton := fun _ => some 0x0100A8C0, connect_result := -1,
    connect_errno := EINPROGRESS, select_result := 1, fd_isset := true,
    getsockopt_result := 0, so_error := ECONNREFUSED }

/-- The text `192.168.0.1`. -/
def sample_ip : CStr := [49, 57, 50, 46, 49, 54, 56, 46, 48, 46, 49]

/-! ## Expected keyboard reports (used to state the typing claims) -/

/-- Whether an event is a keyboard report. -/
def Event.is_report : Event → Bool
  | .report _ _ => true
  | _ => false

/-- The keyboard reports among the events, in order. -/
def reports (evs : List Event) : List Event := evs.filter Event.is_report

/-- A character is supported when its code (as `unsigned char`) is below 128
and the table maps it to a non-zero key code. -/
def supported (lib : HidLib) (ch : Nat) : Bool :=
  decide (ch % 256 < 128) && decide ((lib.ascii_to_keycode (ch % 256)).2 ≠ 0)

/-- The reports expected for one character: for a supported character a
press report (left shift or no modifier, the key code in slot 0, the other
slots zero) followed by an all-zero release report; nothing otherwise. -/
def key_reports (lib : HidLib) (ch : Nat) : List Event :=
  if supported lib ch = true then
    [Event.report
        (if (lib.ascii_to_keycode (ch % 256)).1 ≠ 0 then lib.KEYBOARD_MODIFIER_LEFTSHIFT else 0)
        [(lib.ascii_to_keycode (ch % 256)).2, 0, 0, 0, 0, 0],
     Event.report 0 [0, 0, 0, 0, 0, 0]]
  else []

/-- The reports expected for a text: those of its characters, in text order. -/
def expected_reports (lib : HidLib) (text : CStr) : List Event :=
  text.flatMap (key_reports lib)

/-- A sample key table: lower-case letters map to the key codes 4..29
without shift, upper-case letters to the same codes with shift, everything
else is unsupported. -/
def sample_lib : HidLib :=
  { ascii_to_keycode := fun c =>
      if 97 ≤ c ∧ c ≤ 122 then (0, c - 93)
      else if 65 ≤ c ∧ c ≤ 90 then (1, c - 61)
      else (0, 0)
    KEYBOARD_MODIFIER_LEFTSHIFT := 2 }

/-- A channel that is ready at the first `n` evaluations and never after. -/
def ready_first (n : Nat) : Nat → Bool := fun t => decide (t < n)

/-! ## Views of a trace (used to state the orchestrator claims) -/

/-- The events below the level of `perform_windows_login`: the socket calls
made inside the probe and inside the wake broadcast, and the records of the
single sends. -/
def Event.is_net_detail : Event → Bool
  | .socket _ _ => true
  | .setsockopt _ => true
  | .sendto _ _ _ _ => true
  | .connect _ _ => true
  | .select _ => true
  | .close => true
  | .send_call _ _ _ => true
  | _ => false

/-- The trace at the level of `perform_windows_login`: its calls of the
probe and of the wake broadcast, the LED call, the delays and the keyboard
reports, in order. -/
def outline (evs : List Event) : List Event := evs.filter fun e => !e.is_net_detail

/-- The events that belong to waking the host: a wake broadcast, a single
send, a datagram. -/
def Event.is_wake : Event → Bool
  | .send_all_call _ => true
  | .send_call _ _ _ => true
  | .sendto _ _ _ _ => true
  | _ => false

/-- The events that are network activity of any kind. -/
def Event.is_network : Event → Bool
  | .reachable_call _ _ => true
  | .send_all_call _ => true
  | e => e.is_net_detail

/-- The events of one `hid_keyboard_press_enter()` on a ready channel. -/
def enter_events : List Event :=
  [Event.report 0 [HID_KEY_ENTER, 0, 0, 0, 0, 0], Event.delay 50, Event.report 0 no_keys]

/-- Result of the `j`-th call of `wol_check_host_reachable` in a run. -/
def World.reach (w : World) (j : Nat) (timeout_ms : Nat) : Bool :=
  (wol_check_host_reachable (w.probe j) (some w.cfg.PC_IP_ADDRESS) timeout_ms).1

/-- Result of the `k`-th call of `wol_send_magic_packet_all` in a run. -/
def World.wake_result (w : World) (k : Nat) : esp_err_t :=
  (wol_send_magic_packet_all (w.send k) (w.wake_netif k)
    (some w.cfg.PC_MAC_ADDRESS) (some w.cfg.PC_IP_ADDRESS)).1

/-- The start time stored by `perform_windows_login`:
`int start_time = esp_timer_get_time() / 1000`, taken from the first clock
reading of the run. -/
def World.start_time (w : World) : Int := to_int32 (Int.tdiv (w.clock 0) 1000)

/-- The budget test `(esp_timer_get_time() / 1000) - start_time >= 30000` at
the `k`-th clock reading of the run. -/
def World.expired (w : World) (k : Nat) : Prop :=
  30000 ≤ Int.tdiv (w.clock k) 1000 - w.start_time

/-- The outline of one unsuccessful iteration of the wake loop: the wake
broadcast and three failed probes of 1000 ms. -/
def wake_round (w : World) (k : Nat) : List Event :=
  [Event.send_all_call (w.wake_result k), Event.reachable_call 1000 false,
   Event.reachable_call 1000 false, Event.reachable_call 1000 false]

/-- The text `AA:BB:CC:DD:EE:FF`. -/
def sample_mac : CStr :=
  [65, 65, 58, 66, 66, 58, 67, 67, 58, 68, 68, 58, 69, 69, 58, 70, 70]

/-- A sample world: the given link flag, probe outcomes, clock and readiness;
address `AA:BB:CC:DD:EE:FF`, host `192.168.0.1`, password `Pass`. -/
def sample_world (s_wifi_connected : Bool) (probe : Nat → ProbeEnv) (clock : Nat → Int)
    (ready : Nat → Bool) : World :=
  { cfg := { PC_MAC_ADDRESS := sample_mac, PC_IP_ADDRESS := sample_ip,
             WINDOWS_PASSWORD := [80, 97, 115, 115] }
    hid := sample_lib
    s_wifi_connected := s_wifi_connected
    check_netif := { handle := true, ip_info := some ⟨0x6400A8C0, 0x00FFFFFF, 0x0100A8C0⟩ }
    probe := fun j _ => probe j
    wake_netif := fun _ =>
      { handle := true, ip_info := some ⟨0x6400A8C0, 0x00FFFFFF, 0x0100A8C0⟩ }
    send := fun _ _ => send_env_ok
    clock := clock
    ready := ready }

/-- The events of the keyboard channel: reports and delays. -/
def Event.is_hid : Event → Bool
  | .report _ _ => true
  | .delay _ => true
  | _ => false

/-- A world in which the link is up, the host answers the first probe and
the keyboard channel is ready. -/
def quick_world : World :=
  sample_world true (fun _ => probe_env_open) (fun _ => 0) (fun _ => true)

/-- A world in which the link is down. -/
def no_link_world : World :=
  sample_world false (fun _ => probe_env_open) (fun _ => 0) (fun _ => true)

/-- A world in which the link is up, no probe is ever answered and every
clock reading is 20 s after the previous one. -/
def dead_world : World :=
  sample_world true (fun _ => probe_env_silent) (fun k => 20000000 * (k : Int)) (fun _ => true)

/-- A world in which the link is up, the host first answers the sixth probe
(the second probe of the second iteration of the wake loop), clock readings
are 4 s apart and the keyboard channel is ready. -/
def waking_world : World :=
  sample_world true (fun j => if j = 5 then probe_env_open else probe_env_silent)
    (fun k => 4000000 * (k : Int)) (fun _ => true)

/-- The state in which the wake loop is entered: after the failed initial
probe and the clock reading that gives `start_time`. -/
def St.at_loop (w : World) : St := ((St.init.check_host w 600).2.now_ms w).2

/-! ## `wifi_manager.c`: the link supervisor

The static variables of `wifi_manager.c` and the two bits of its event group
form the state; `event_handler` and the public functions change it.  The
calls `esp_wifi_connect()` and the successful `xTaskCreate` calls are
counted. -/

/-- The macro `MAX_RETRY`. -/
abbrev MAX_RETRY : Int := 5

/-- The state of the link supervisor. -/
structure WifiState where
  /-- The static `int s_retry_num`. -/
  s_retry_num : Int
  /-- The static `bool s_wifi_connected`. -/
  s_wifi_connected : Bool
  /-- Whether `WIFI_CONNECTED_BIT` is set in `s_wifi_event_group`. -/
  connected_bit : Bool
  /-- Whether `WIFI_FAIL_BIT` is set in `s_wifi_event_group`. -/
  fail_bit : Bool
  /-- Whether the static `s_wifi_keepalive_task` is non-NULL. -/
  s_wifi_keepalive_task : Bool
  /-- Number of `esp_wifi_connect()` calls made so far. -/
  connect_calls : Nat
  /-- Number of keepalive tasks created so far (`xTaskCreate` returned `pdPASS`). -/
  tasks_created : Nat
  deriving DecidableEq, Repr

/-- The state after program start: the statics have their initialisers, no
bit is set. -/
def WifiState.init : WifiState :=
  { s_retry_num := 0, s_wifi_connected := false, connected_bit := false, fail_bit := false,
    s_wifi_keepalive_task := false, connect_calls := 0, tasks_created := 0 }

/-- The events delivered to `event_handler`. -/
inductive WifiEvent where
  /-- The event `WIFI_EVENT` / `WIFI_EVENT_STA_START`. -/
  | sta_start
  /-- The event `WIFI_EVENT` / `WIFI_EVENT_STA_DISCONNECTED` with its reason code. -/
  | sta_disconnected (reason : Nat)
  /-- The event `IP_EVENT` / `IP_EVENT_STA_GOT_IP`; the Boolean says whether
  `xTaskCreate`, if it is called, returns `pdPASS`. -/
  | got_ip (task_create_pass : Bool)
  /-- Any other event. -/
  | other
  deriving DecidableEq, Repr

/-- The function `event_handler` of `wifi_manager.c`. -/
def event_handler (st : WifiState) : WifiEvent → WifiState
  | .sta_start => { st with connect_calls := st.connect_calls + 1 }
  | .sta_disconnected _ =>
    let st :=
      if st.s_retry_num < MAX_RETRY then
        { st with connect_calls := st.connect_calls + 1, s_retry_num := st.s_retry_num + 1 }
      else
        { st with fail_bit := true }
    { st with s_wifi_connected := false }
  | .got_ip task_create_pass =>
    let st := { st with s_retry_num := 0, connected_bit := true, s_wifi_connected := true }
    if st.s_wifi_keepalive_task = false then
      if task_create_pass then
        { st with s_wifi_keepalive_task := true, tasks_created := st.tasks_created + 1 }
      else st
    else st
  | .other => st

/-- What can happen to the link supervisor: an event is handled, or one of
the public functions is called. -/
inductive WifiAction where
  /-- The event loop calls `event_handler`. -/
  | event (e : WifiEvent)
  /-- A call of `wifi_manager_init`. -/
  | init
  /-- A call of `wifi_manager_connect`. -/
  | connect
  /-- A call of `wifi_manager_disconnect`. -/
  | disconnect
  /-- A call of `wifi_manager_is_connected`. -/
  | is_connected
  /-- A call of `wifi_manager_get_ip`. -/
  | get_ip
  /-- A call of `wifi_manager_check_connection`. -/
  | check_connection
  deriving DecidableEq, Repr

/-- The effect of an action on the state.  `wifi_manager_init` creates a
fresh event group (no bit set); `wifi_manager_connect` itself writes none of
the variables (the events that arrive while it waits are actions of their
own); `wifi_manager_disconnect` clears `s_wifi_connected`; the other public
functions only read. -/
def WifiState.step (st : WifiState) : WifiAction → WifiState
  | .event e => event_handler st e
  | .init => { st with connected_bit := false, fail_bit := false }
  | .connect => st
  | .disconnect => { st with s_wifi_connected := false }
  | .is_connected => st
  | .get_ip => st
  | .check_connection => st

/-- The state after a sequence of actions. -/
def WifiState.run (st : WifiState) (actions : List WifiAction) : WifiState :=
  actions.foldl WifiState.step st

/-- The state after a sequence of consecutive disconnect notifications with
the given reason codes. -/
def WifiState.disconnects (st : WifiState) (reasons : List Nat) : WifiState :=
  reasons.foldl (fun s r => event_handler s (.sta_disconnected r)) st

/-! ## `main.c`: the authorization check -/

/-- The C `tolower` in the "C" locale, applied to `(unsigned char)c`. -/
def tolower (c : Nat) : Nat :=
  if 65 ≤ c % 256 ∧ c % 256 ≤ 90 then c % 256 + 32 else c % 256

/-- The inner `while` loop of `strcasestr_simple` at the position `p`:
whether it ends with `i == nlen`.  The characters `p[i]` are compared with
`needle[i]` until the needle is used up (true), the haystack ends
(`p[i]` is the terminating NUL: false) or two characters differ (false). -/
def match_at : CStr → CStr → Bool
  | _, [] => true
  | [], _ :: _ => false
  | c :: p, d :: needle => if tolower c = tolower d then match_at p needle else false

/-- The `for` loop of `strcasestr_simple` over the positions `p` of the
haystack with `*p` not NUL. -/
def strcasestr_loop (needle : CStr) : CStr → Bool
  | [] => false
  | c :: rest => if match_at (c :: rest) needle then true else strcasestr_loop needle rest

/-- The function `strcasestr_simple` of `main.c`. -/
def strcasestr_simple (haystack needle : Option CStr) : Bool :=
  match haystack, needle with
  | some h, some n => if n.length = 0 then true else strcasestr_loop n h
  | _, _ => false

/-- The function `authenticate_url` of `main.c`; the macro `AUTH_URL` is a
parameter. -/
def authenticate_url (AUTH_URL : CStr) (extracted_url : Option CStr) : Bool :=
  strcasestr_simple extracted_url (some AUTH_URL)

/-- The test for the NDEF header `03 13 d1 01 0f 55` at `data[i .. i+5]`. -/
def header_at (data : List Nat) (i : Nat) : Bool :=
  data.getD i 0 == 0x03 && data.getD (i + 1) 0 == 0x13 && data.getD (i + 2) 0 == 0xd1 &&
    data.getD (i + 3) 0 == 0x01 && data.getD (i + 4) 0 == 0x0f && data.getD (i + 5) 0 == 0x55

/-- The outer loop of `extract_url_from_ndef` from the index `i`, with
`n = (data_len - 8) - i` iterations left: the first index at which the header
is found. -/
def find_header (data : List Nat) : Nat → Nat → Option Nat
  | 0, _ => none
  | n + 1, i => if header_at data i then some i else find_header data n (i + 1)

/-- The inner loop of `extract_url_from_ndef` from the index `j`, with
`n = data_len - j` positions left; `url` holds the bytes written so far
(`url_len` is its length). -/
def copy_url (data : List Nat) (url_max_len : Nat) : Nat → Nat → List Nat → List Nat
  | 0, _, url => url
  | n + 1, j, url =>
    if url.length < url_max_len - 1 then
      if data.getD j 0 = 0xfe then url
      else copy_url data url_max_len n (j + 1) (url ++ [data.getD j 0])
    else url

/-- The function `extract_url_from_ndef` of `main.c`.  `data` is the buffer
(`none` for NULL), `url_present` says whether `url` is non-NULL.  The result
is `none` when the function returns false, and otherwise the bytes stored
into `url` before the terminating zero. -/
def extract_url_from_ndef (data : Option (List Nat)) (data_len : Int) (url_present : Bool)
    (url_max_len : Int) : Option (List Nat) :=
  match data with
  | none => none
  | some d =>
    if data_len ≤ 0 ∨ url_present = false ∨ url_max_len ≤ 1 then none
    else
      match find_header d (data_len - 8).toNat 0 with
      | none => none
      | some i =>
        let url_start := i + 7
        some (copy_url d url_max_len.toNat (data_len.toNat - url_start) url_start [])

/-- The C string held by a buffer: its bytes before the first zero. -/
def c_string (buf : List Nat) : CStr := buf.takeWhile (· ≠ 0)

/-- What one iteration of the card loop of `app_main` obtains from the reader. -/
structure CardEnv where
  /-- Whether `pn532_read_passive_target_id` returns `ESP_OK`. -/
  target_found : Bool
  /-- Whether `pn532_in_list_passive_target` returns `ESP_OK`. -/
  in_list_ok : Bool
  /-- Whether `ntag2xx_get_model` returns `ESP_OK`. -/
  get_model_ok : Bool
  /-- The value given to `page_max` by the `switch` (45, 135 or 231), or
  `none` for an unknown model. -/
  page_max : Option Nat
  /-- The 16 bytes read by `ntag2xx_read_page(&pn532_io, page, buf, 16)`, or
  `none` when it fails. -/
  read_page : Nat → Option (List Nat)

/-- The actions of one iteration of the card loop. -/
inductive AppEvent where
  /-- A call of `led_read_fail()`. -/
  | led_read_fail
  /-- A call of `led_auth_success()`. -/
  | led_auth_success
  /-- A call of `led_auth_fail()`. -/
  | led_auth_fail
  /-- A call of `perform_windows_login()`. -/
  | perform_windows_login
  /-- A `vTaskDelay` of the given number of milliseconds. -/
  | delay (ms : Nat)
  deriving DecidableEq, Repr

/-- The loop `for (page = 0; page < 16 && page < page_max; page += 4)` that
collects `ndef_data`, from `page` on with `n` iterations left. -/
def collect_ndef (env : CardEnv) (page_max : Nat) : Nat → Nat → List Nat → List Nat
  | 0, _, ndef_data => ndef_data
  | n + 1, page, ndef_data =>
    if page < 16 ∧ page < page_max then
      match env.read_page page with
      | none => ndef_data
      | some buf =>
        let ndef_data :=
          if (ndef_data.length : Int) ≤ 256 - 16 then
            ndef_data ++ (List.range 16).map (fun k => buf.getD k 0)
          else ndef_data
        collect_ndef env page_max n (page + 4) ndef_data
    else ndef_data

/-- The part of the iteration that authenticates the card (lines 734-768 of
`main.c`), for the `ndef_len > 0` bytes collected. -/
def authenticate_card (AUTH_URL : CStr) (ndef_data : List Nat) : List AppEvent :=
  match extract_url_from_ndef (some ndef_data) ndef_data.length true 256 with
  | some url =>
    if authenticate_url AUTH_URL (some (c_string url)) then
      [.led_auth_success, .perform_windows_login]
    else [.led_auth_fail]
  | none => [.led_auth_fail]

/-- One iteration of the `while (1)` loop of `app_main`: the actions it
performs (LED calls, the login call, the final delay). -/
def card_iteration (AUTH_URL : CStr) (env : CardEnv) : List AppEvent :=
  if env.target_found then
    if env.in_list_ok = false then [.led_read_fail]
    else if env.get_model_ok = false then [.led_read_fail]
    else
      match env.page_max with
      | none => []
      | some page_max =>
        let ndef_data := collect_ndef env page_max 4 0 []
        if ndef_data.length = 0 then [.led_read_fail]
        else authenticate_card AUTH_URL ndef_data ++ [.delay 1000]
  else [.led_read_fail]

/-! ## Sample inputs for the later claims -/

/-- A world in which the link is up, the host answers the first probe, and
the keyboard channel is ready at its first six evaluations (the first Enter,
the initial wait and the four characters of the password) and never after. -/
def submit_timeout_world : World :=
  sample_world true (fun _ => probe_env_open) (fun _ => 0) (ready_first 6)

/-! ## Statements about the authorization check -/

/-- The needle occurs in the text as a contiguous substring when the case of
ASCII letters is ignored: the text is `pre ++ mid ++ post` with `mid` equal
to the needle up to `tolower`. -/
def occurs_ignoring_case (needle text : CStr) : Prop :=
  ∃ pre mid post, text = pre ++ mid ++ post ∧ mid.map tolower = needle.map tolower

/-- The text `MyCard` (a sample authorization string). -/
def sample_auth : CStr := [77, 121, 67, 97, 114, 100]

/-- A card whose four page reads give the NDEF header `03 13 d1 01 0f 55`,
the URI code 4, the text `xmycardx`, the terminator `fe` and zero bytes. -/
def sample_card : CardEnv :=
  { target_found := true, in_list_ok := true, get_model_ok := true, page_max := some 45,
    read_page := fun page =>
      if page = 0 then
        some [0x03, 0x13, 0xd1, 0x01, 0x0f, 0x55, 4, 120, 109, 121, 99, 97, 114, 100, 120, 0xfe]
      else some (List.replicate 16 0) }

/-! ## Statements about the port loop and the wake broadcast -/

/-- The ports of the `connect` calls among the events, in order. -/
def connect_ports (evs : List Event) : List Nat :=
  evs.filterMap fun e =>
    match e with
    | .connect _ port => some port
    | _ => none

/-- The number of `socket` calls among the events. -/
def socket_calls (evs : List Event) : Nat :=
  (evs.filter fun e =>
    match e with
    | .socket _ _ => true
    | _ => false).length

/-- The ports, in the order of the array `ports`, for which the socket can be
created and the host address can be parsed, so that `connect` is called. -/
def attempted_ports (env : Nat → ProbeEnv) (ip : CStr) : List Nat :=
  ((List.range ports.length).filter fun i =>
      decide (0 ≤ (env i).socket_fd) && ((env i).inet_aton ip).isSome).map
    fun i => ports.getD i 0

/-- A port for which `socket()` fails. -/
def probe_env_no_socket : ProbeEnv :=
  { socket_fd := -1, inet_aton := fun _ => some 0x0100A8C0, connect_result := -1,
    connect_errno := EINPROGRESS, select_result := 0, fd_isset := false,
    getsockopt_result := 0, so_error := 0 }

/-- The destinations of the calls of `wol_send_magic_packet` recorded among
the events, in order: address text and port. -/
def send_records (evs : List Event) : List (Option CStr × Nat) :=
  evs.filterMap fun e =>
    match e with
    | .send_call ip port _ => some (ip, port)
    | _ => none

/-- The destinations that `wol_send_magic_packet_all` goes through: the host
(when its text is non-null and non-empty), the subnet broadcast address (when
the interface data is available and its text fits), `255.255.255.255`; each
with port 9, then port 7. -/
def wake_destinations (netif : NetifEnv) (ip_address : Option CStr) :
    List (Option CStr × Nat) :=
  (match ip_address with
    | some ip => if ip.length > 0 then [(some ip, 9), (some ip, 7)] else []
    | none => []) ++
  (if netif.handle then
    match netif.ip_info with
    | some info =>
      match inet_ntoa_r (bcast_addr info.ip info.netmask) 16 with
      | some bcast_str => [(some bcast_str, 9), (some bcast_str, 7)]
      | none => []
    | none => []
   else []) ++
  [(some bcast_any, 9), (some bcast_any, 7)]

/-- An interface with address 192.168.0.100 and netmask 255.255.255.0. -/
def sample_netif : NetifEnv :=
  { handle := true, ip_info := some ⟨0x6400A8C0, 0x00FFFFFF, 0x0100A8C0⟩ }

/-! ## `wifi_manager.c`: `wifi_manager_connect` -/

/-- The FreeRTOS block time `portMAX_DELAY`.  A block time is `some n` for
`n` ticks and `none` for `portMAX_DELAY`, with which FreeRTOS blocks the
calling task without a timeout (ESP-IDF builds FreeRTOS with
`INCLUDE_vTaskSuspend` set). -/
abbrev portMAX_DELAY : Option Nat := none

/-- The value of type `EventBits_t` returned by the wait: the two bits of
`s_wifi_event_group`. -/
structure EventBits where
  /-- The bit `WIFI_CONNECTED_BIT`. -/
  connected : Bool
  /-- The bit `WIFI_FAIL_BIT`. -/
  fail : Bool
  deriving DecidableEq, Repr

/-- The call `xEventGroupWaitBits(s_wifi_event_group,
WIFI_CONNECTED_BIT | WIFI_FAIL_BIT, pdFALSE, pdFALSE, xTicksToWait)`: it
returns at once when one of the two bits is set, and otherwise blocks tick
by tick, while the event loop task delivers the events `events tick` to
`event_handler`, until a bit is set or the block time is used up; no bit is
cleared on exit (`pdFALSE`).  The first argument after the block time bounds
the number of ticks looked at; `none` means that the call has not returned
within that many ticks. -/
def xEventGroupWaitBits (events : Nat → List WifiEvent) :
    Option Nat → Nat → Nat → WifiState → Option (EventBits × WifiState)
  | _, 0, _, _ => none
  | xTicksToWait, fuel + 1, tick, st =>
    if st.connected_bit || st.fail_bit then some (⟨st.connected_bit, st.fail_bit⟩, st)
    else
      match xTicksToWait with
      | some 0 => some (⟨false, false⟩, st)
      | some (n + 1) =>
        xEventGroupWaitBits events (some n) fuel (tick + 1)
          ((events tick).foldl event_handler st)
      | none =>
        xEventGroupWaitBits events none fuel (tick + 1)
          ((events tick).foldl event_handler st)

/-- What one call of `wifi_manager_connect` obtains from outside. -/
structure ConnectEnv where
  /-- Result of `esp_wifi_set_config`. -/
  esp_wifi_set_config : esp_err_t
  /-- Result of `esp_wifi_start`. -/
  esp_wifi_start : esp_err_t
  /-- The events handled by `event_handler` between `esp_wifi_start` and the
  wait (while the power mode and the bandwidth are set and the scan runs). -/
  before_wait : List WifiEvent
  /-- The events handled by `event_handler` during each tick of the wait. -/
  events : Nat → List WifiEvent

/-- The function `wifi_manager_connect` of `wifi_manager.c`.  The results of
`esp_wifi_set_ps`, `esp_wifi_set_bandwidth` and the scan are only logged.
`fuel` bounds the number of ticks of the wait that are looked at; `none`
means that the function has not returned within them. -/
def wifi_manager_connect (env : ConnectEnv) (fuel : Nat) (st : WifiState) :
    Option (esp_err_t × WifiState) :=
  if env.esp_wifi_set_config ≠ ESP_OK then some (env.esp_wifi_set_config, st)
  else if env.esp_wifi_start ≠ ESP_OK then some (env.esp_wifi_start, st)
  else
    let st := env.before_wait.foldl event_handler st
    match xEventGroupWaitBits env.events portMAX_DELAY fuel 0 st with
    | none => none
    | some (bits, st) =>
      if bits.connected then some (ESP_OK, st)
      else if bits.fail then some (ESP_FAIL, st)
      else some (ESP_FAIL, st)

/-! ## Statements about `wifi_manager_connect` and the keepalive task -/

/-- The state of the link supervisor after `n` ticks of a wait that starts in
the tick `tick` with the state `st`. -/
def wait_state (events : Nat → List WifiEvent) : Nat → Nat → WifiState → WifiState
  | 0, _, st => st
  | n + 1, tick, st => wait_state events n (tick + 1) ((events tick).foldl event_handler st)

/-- One of the two outcomes has been signalled: `WIFI_CONNECTED_BIT` or
`WIFI_FAIL_BIT` is set. -/
def WifiState.signalled (st : WifiState) : Bool := st.connected_bit || st.fail_bit

/-- The state in which the wait of `wifi_manager_connect` starts. -/
def ConnectEnv.wait_start (env : ConnectEnv) (st : WifiState) : WifiState :=
  env.before_wait.foldl event_handler st

/-- A call in which both driver calls succeed and no event ever arrives. -/
def quiet_env : ConnectEnv :=
  { esp_wifi_set_config := ESP_OK, esp_wifi_start := ESP_OK, before_wait := [],
    events := fun _ => [] }

/-- A call in which both driver calls succeed and the address is acquired in
the tick `n` of the wait. -/
def got_ip_env (n : Nat) : ConnectEnv :=
  { esp_wifi_set_config := ESP_OK, esp_wifi_start := ESP_OK, before_wait := [.sta_start],
    events := fun k => if k = n then [.got_ip true] else [] }

/-- The state after program start and six consecutive disconnect
notifications: the retries are used up and the failure is signalled. -/
def failed_state : WifiState := WifiState.init.disconnects [0, 0, 0, 0, 0, 0]

/-- The action is the handling of an address-acquired event. -/
def WifiAction.is_got_ip : WifiAction → Bool
  | .event (.got_ip _) => true
  | _ => false

/-- The action is a call of `wifi_manager_init`. -/
def WifiAction.is_init : WifiAction → Bool
  | .init => true
  | _ => false

/-! ## Statements about the final probe and the start of the wake loop -/

/-- The event is a call `wol_check_host_reachable(PC_IP_ADDRESS, 3000)`: the
final probe of `perform_windows_login`. -/
def Event.is_final_probe : Event → Bool
  | .reachable_call timeout_ms _ => timeout_ms == 3000
  | _ => false

/-- The number of final probes in a trace. -/
def final_probes (evs : List Event) : Nat := evs.countP Event.is_final_probe

/-- A world in which the link is up, no probe is ever answered, the keyboard
channel is ready, and the uptime at entry is `2^31` ms (about 24.9 days);
every clock reading is 1 ms after the previous one. -/
def long_uptime_world : World :=
  sample_world true (fun _ => probe_env_silent)
    (fun k => 2147483648000 + 1000 * (k : Int)) (fun _ => true)

/-- A world in which the link is up, the host answers the first probe, and
the keyboard channel is ready for the first Enter only. -/
def typing_timeout_world : World :=
  sample_world true (fun _ => probe_env_open) (fun _ => 0) (ready_first 1)

/-- A world in which the link is up, the host first answers the sixth probe,
clock readings are 4 s apart, and the keyboard channel is ready for the first
Enter only. -/
def waking_typing_timeout_world : World :=
  sample_world true (fun j => if j = 5 then probe_env_open else probe_env_silent)
    (fun k => 4000000 * (k : Int)) (ready_first 1)

/-- The call `hid_keyboard_type_string(WINDOWS_PASSWORD, 50)` of the typing
sequence that starts in the state `st`: it follows the first Enter. -/
def St.typing (w : World) (st : St) : esp_err_t × Nat × List Event :=
  hid_keyboard_type_string w.hid w.ready (some w.cfg.WINDOWS_PASSWORD) 50
    (hid_keyboard_press_enter w.ready st.polls).2.1

/-- The state of the typing sequence that starts in the state `st` when its
call of `hid_keyboard_type_string` has returned: the first Enter, the 500 ms
delay and the events of the typing have been added, and nothing else. -/
def St.after_typing (w : World) (st : St) : St :=
  { st with
    polls := (st.typing w).2.1
    trace := st.trace ++ (hid_keyboard_press_enter w.ready st.polls).2.2 ++ [Event.delay 500] ++
      (st.typing w).2.2 }

/-! ## `main.c`: `extract_url_from_ndef` with its buffer accesses

The same function as above, with the two buffers as lists of their real
sizes: every read `data[k]` and every write `url[k] = v` is checked against
the size of its buffer, and an access outside a buffer ends the run with
`none`. -/

/-- The comparisons `data[i] == b0 && data[i+1] == b1 && ...` of a chain of
`&&`: the bytes are read one by one, and the first one that differs ends the
chain.  `none` is a read outside the buffer. -/
def bytes_match_checked (data : List Nat) : Nat → List Nat → Option Bool
  | _, [] => some true
  | i, b :: rest =>
    match data[i]? with
    | none => none
    | some x => if x = b then bytes_match_checked data (i + 1) rest else some false

/-- The bytes of the NDEF header that `extract_url_from_ndef` looks for. -/
def ndef_header : List Nat := [0x03, 0x13, 0xd1, 0x01, 0x0f, 0x55]

/-- The outer loop of `extract_url_from_ndef` from the index `i`, with `n`
iterations left: `some (some i)` for the first index with the header,
`some none` when the loop ends without one, `none` for a read outside the
buffer. -/
def find_header_checked (data : List Nat) : Nat → Nat → Option (Option Nat)
  | 0, _ => some none
  | n + 1, i =>
    match bytes_match_checked data i ndef_header with
    | none => none
    | some true => some (some i)
    | some false => find_header_checked data n (i + 1)

/-- The write `url[k] = v`: `none` when `k` is outside the buffer. -/
def write_byte (url : List Nat) (k : Nat) (v : Nat) : Option (List Nat) :=
  if k < url.length then some (url.set k v) else none

/-- The inner loop of `extract_url_from_ndef` from the index `j`, with
`n = data_len - j` positions left, `url_len` bytes written so far: the final
`url_len` and the buffer `url`, or `none` for an access outside a buffer. -/
def copy_url_checked (data : List Nat) (url_max_len : Int) :
    Nat → Nat → Nat → List Nat → Option (Nat × List Nat)
  | 0, _, url_len, url => some (url_len, url)
  | n + 1, j, url_len, url =>
    if (url_len : Int) < url_max_len - 1 then
      match data[j]? with
      | none => none
      | some b =>
        if b = 0xfe then some (url_len, url)
        else
          match write_byte url url_len b with
          | none => none
          | some url => copy_url_checked data url_max_len n (j + 1) (url_len + 1) url
    else some (url_len, url)

/-- The function `extract_url_from_ndef` of `main.c` on buffers of known
size.  `data` and `url` are the buffers (`none` for NULL).  The result is
`none` when an access falls outside a buffer, `some none` when the function
returns false, and `some (some url)` with the final contents of the buffer
`url` when it returns true. -/
def extract_url_from_ndef_checked (data : Option (List Nat)) (data_len : Int)
    (url : Option (List Nat)) (url_max_len : Int) : Option (Option (List Nat)) :=
  match data, url with
  | some d, some u =>
    if data_len ≤ 0 ∨ url_max_len ≤ 1 then some none
    else
      match find_header_checked d (data_len - 8).toNat 0 with
      | none => none
      | some none => some none
      | some (some i) =>
        let url_start := i + 7
        match copy_url_checked d url_max_len (data_len.toNat - url_start) url_start 0 u with
        | none => none
        | some (url_len, u) =>
          match write_byte u url_len 0 with
          | none => none
          | some u => some (some u)
  | _, _ => some none

/-! ## Statements about `extract_url_from_ndef` -/

/-- The 6-byte header `03 13 D1 01 0F 55` occurs in `data` at the index `i`. -/
def header_occurs (data : List Nat) (i : Nat) : Prop :=
  (data.drop i).take 6 = ndef_header

instance (data : List Nat) (i : Nat) : Decidable (header_occurs data i) := by
  unfold header_occurs
  infer_instance

/-- The URL bytes for a header at the index `i`: the bytes from the index
`i + 7` up to but not including the first `0xFE` (or the end of the data), at
most `url_max_len - 1` of them. -/
def url_bytes (data : List Nat) (i : Nat) (url_max_len : Nat) : List Nat :=
  (((data.drop (i + 7)).takeWhile (· ≠ 0xfe)).take (url_max_len - 1))

/-- A card memory image: capability container, the header at index 4, the URI
code 4, the text `abc`, the terminator `FE` and padding. -/
def sample_ndef : List Nat :=
  [0xe1, 0x10, 0x12, 0x00, 0x03, 0x13, 0xd1, 0x01, 0x0f, 0x55, 0x04, 97, 98, 99, 0xfe, 0, 0,
   0, 0, 0]
/-! ## Theorems: the magic packet (C1) -/

theorem isxdigit_iff (c : Nat) :
    isxdigit c = true ↔ (48 ≤ c ∧ c ≤ 57) ∨ (65 ≤ c ∧ c ≤ 70) ∨ (97 ≤ c ∧ c ≤ 102) := by
  unfold isxdigit hexDigitVal
  split_ifs <;> simp <;> omega

theorem isxdigit_val {c : Nat} (h : isxdigit c = true) : ∃ v, hexDigitVal c = some v ∧ v < 16 := by
  have hc := (isxdigit_iff c).1 h
  unfold hexDigitVal
  split_ifs <;> first | exact ⟨_, rfl, by omega⟩ | omega

theorem isspace_of_isxdigit {c : Nat} (h : isxdigit c = true) : isspace c = false := by
  have hc := (isxdigit_iff c).1 h
  unfold isspace
  simp
  omega

/-- Two hexadecimal digits are read as one byte. -/
theorem scan_hhx2_pair {a b : Nat} (rest : CStr) (ha : isxdigit a = true) (hb : isxdigit b = true) :
    scan_hhx2 (a :: b :: rest) =
      .ok (16 * (hexDigitVal a).getD 0 + (hexDigitVal b).getD 0) rest := by
  obtain ⟨va, hva, _⟩ := isxdigit_val ha
  obtain ⟨vb, hvb, _⟩ := isxdigit_val hb
  have ha' := (isxdigit_iff a).1 ha
  have hb' := (isxdigit_iff b).1 hb
  have h1 : ¬ (a = 43 ∨ a = 45) := by omega
  have h2 : ¬ (a = 48 ∧ (b = 120 ∨ b = 88)) := by omega
  simp [scan_hhx2, skip_ws, isspace_of_isxdigit ha, h1, h2, hva, hvb]

theorem list_length_17 {s : CStr} (h : s.length = 17) :
    ∃ x0 x1 x2 x3 x4 x5 x6 x7 x8 x9 x10 x11 x12 x13 x14 x15 x16,
      s = [x0, x1, x2, x3, x4, x5, x6, x7, x8, x9, x10, x11, x12, x13, x14, x15, x16] := by
  rcases s with _ | ⟨x0, s⟩ <;> try simp at h
  rcases s with _ | ⟨x1, s⟩ <;> try simp at h
  rcases s with _ | ⟨x2, s⟩ <;> try simp at h
  rcases s with _ | ⟨x3, s⟩ <;> try simp at h
  rcases s with _ | ⟨x4, s⟩ <;> try simp at h
  rcases s with _ | ⟨x5, s⟩ <;> try simp at h
  rcases s with _ | ⟨x6, s⟩ <;> try simp at h
  rcases s with _ | ⟨x7, s⟩ <;> try simp at h
  rcases s with _ | ⟨x8, s⟩ <;> try simp at h
  rcases s with _ | ⟨x9, s⟩ <;> try simp at h
  rcases s with _ | ⟨x10, s⟩ <;> try simp at h
  rcases s with _ | ⟨x11, s⟩ <;> try simp at h
  rcases s with _ | ⟨x12, s⟩ <;> try simp at h
  rcases s with _ | ⟨x13, s⟩ <;> try simp at h
  rcases s with _ | ⟨x14, s⟩ <;> try simp at h
  rcases s with _ | ⟨x15, s⟩ <;> try simp at h
  rcases s with _ | ⟨x16, s⟩ <;> try simp at h
  rcases s with _ | ⟨x17, s⟩
  · exact ⟨_, _, _, _, _, _, _, _, _, _, _, _, _, _, _, _, _, rfl⟩
  · simp at h

/-- The scanner reads a well-formed address completely: six assignments, the
six bytes written in the text. -/
theorem sscanf_mac_well_formed {s : CStr} (h : well_formed_mac s = true) :
    sscanf_mac s = (6, (List.range 6).map (mac_byte s)) := by
  unfold well_formed_mac at h
  simp only [Bool.and_eq_true, beq_iff_eq] at h
  obtain ⟨hlen, hall⟩ := h
  obtain ⟨x0, x1, x2, x3, x4, x5, x6, x7, x8, x9, x10, x11, x12, x13, x14, x15, x16, rfl⟩ :=
    list_length_17 hlen
  simp [List.range, List.range.loop] at hall
  obtain ⟨h0, h1, h2, h3, h4, h5, h6, h7, h8, h9, h10, h11, h12, h13, h14, h15, h16⟩ := hall
  subst h2 h5 h8 h11 h14
  simp [sscanf_mac, sscanf_mac_loop, scan_hhx2_pair, h0, h1, h3, h4, h6, h7, h9, h10, h12, h13,
    h15, h16, mac_byte, List.range, List.range.loop]

theorem build_magic_packet_eq (uninit : Nat → Nat) (m0 m1 m2 m3 m4 m5 : Nat) :
    build_magic_packet uninit [m0, m1, m2, m3, m4, m5] =
      List.replicate 6 0xFF ++ (List.replicate 16 [m0, m1, m2, m3, m4, m5]).flatten := by
  simp [build_magic_packet, memset, memcpy, List.range, List.range.loop, List.replicate]

theorem flatten_replicate_getElem? (m : List Nat) :
    ∀ n k j, k < n → j < m.length →
      (List.replicate n m).flatten[m.length * k + j]? = m[j]? := by
  intro n
  induction n with
  | zero => intro k j hk; omega
  | succ n ih =>
    intro k j hk hj
    rw [List.replicate_succ, List.flatten_cons]
    cases k with
    | zero => simp [List.getElem?_append_left hj]
    | succ k =>
      have hle : m.length ≤ m.length * (k + 1) + j := by
        rw [Nat.mul_succ]; omega
      rw [List.getElem?_append_right hle]
      have : m.length * (k + 1) + j - m.length = m.length * k + j := by
        rw [Nat.mul_succ]; omega
      rw [this]
      exact ih k j (by omega) hj

theorem range6_map (f : Nat → Nat) : (List.range 6).map f = [f 0, f 1, f 2, f 3, f 4, f 5] := by
  simp [List.range, List.range.loop]

/-- C1: for every well-formed textual address `XX:XX:XX:XX:XX:XX`, the
datagram built by `wol_send_magic_packet` has exactly 102 bytes, its bytes
0..5 are 0xFF, for every `k < 16` the bytes at the offsets `6+6k .. 11+6k` are
the six address bytes in order, and this buffer is the payload of every
`sendto` the function performs. -/
theorem wol_magic_packet_layout (env : SendEnv) (s : CStr) (ip : Option CStr) (port : Nat)
    (h : well_formed_mac s = true) :
    ∃ pkt, wol_magic_packet env (some s) = .ok pkt ∧ pkt.length = 102 ∧
      (∀ i, i < 6 → pkt[i]? = some 0xFF) ∧
      (∀ k j, k < 16 → j < 6 → pkt[6 + 6 * k + j]? = some (mac_byte s j)) ∧
      (∀ a p pl r,
        Event.sendto a p pl r ∈ (wol_send_magic_packet env (some s) ip port).2 → pl = pkt) := by
  have hpkt : wol_magic_packet env (some s) =
      .ok (List.replicate 6 0xFF ++ (List.replicate 16 ((List.range 6).map (mac_byte s))).flatten) := by
    simp only [wol_magic_packet, sscanf_mac_well_formed h, range6_map, build_magic_packet_eq]
    simp
  refine ⟨_, hpkt, ?_, ?_, ?_, ?_⟩
  · simp [range6_map]
  · intro i hi
    interval_cases i <;> simp [List.replicate]
  · intro k j hk hj
    have hlen : ((List.range 6).map (mac_byte s)).length = 6 := by simp
    have hidx := flatten_replicate_getElem? ((List.range 6).map (mac_byte s)) 16 k j hk
      (by rw [hlen]; exact hj)
    rw [hlen] at hidx
    have hle : (List.replicate 6 255).length ≤ 6 + 6 * k + j := by simp; omega
    rw [List.getElem?_append_right hle]
    have : 6 + 6 * k + j - (List.replicate 6 255).length = 6 * k + j := by simp; omega
    rw [this, hidx]
    simp [List.getElem?_range hj]
  · intro a p pl r hmem
    unfold wol_send_magic_packet at hmem
    rw [hpkt] at hmem
    have hlen : (List.replicate 6 255 ++
        (List.replicate 16 ((List.range 6).map (mac_byte s))).flatten).length ≤ 102 := by
      simp [range6_map]
    simp only [List.take_of_length_le hlen] at hmem
    by_cases h1 : env.socket_fd < 0
    · simp [h1] at hmem
    by_cases h2 : env.setsockopt_result < 0
    · simp [h1, h2] at hmem
    simp only [h1, h2, if_false] at hmem
    split at hmem
    · simp at hmem
    · by_cases h3 : env.sendto_result < 0
      · simp [h3] at hmem
        exact hmem.2.2.1
      · simp [h3] at hmem
        exact hmem.2.2.1

theorem wol_magic_packet_layout_witness :
    well_formed_mac [65, 65, 58, 66, 66, 58, 67, 67, 58, 68, 68, 58, 69, 69, 58, 70, 70] = true ∧
    ∃ pkt, wol_magic_packet ⟨fun _ => 0, 3, 0, fun _ => some 1, 102⟩
        (some [65, 65, 58, 66, 66, 58, 67, 67, 58, 68, 68, 58, 69, 69, 58, 70, 70]) = .ok pkt ∧
      pkt.length = 102 ∧
      (∀ i, i < 6 → pkt[i]? = some 0xFF) ∧
      (∀ k j, k < 16 → j < 6 → pkt[6 + 6 * k + j]? =
        some (mac_byte [65, 65, 58, 66, 66, 58, 67, 67, 58, 68, 68, 58, 69, 69, 58, 70, 70] j)) ∧
      (∀ a p pl r,
        Event.sendto a p pl r ∈ (wol_send_magic_packet ⟨fun _ => 0, 3, 0, fun _ => some 1, 102⟩
          (some [65, 65, 58, 66, 66, 58, 67, 67, 58, 68, 68, 58, 69, 69, 58, 70, 70])
          none 9).2 → pl = pkt) :=
  ⟨by decide, wol_magic_packet_layout _ _ _ _ (by decide)⟩

/-! ## Theorems: rejected addresses (C2) -/

theorem skip_ws_length (inp : CStr) : (skip_ws inp).length ≤ inp.length := by
  induction inp with
  | nil => simp [skip_ws]
  | cons c cs ih =>
    unfold skip_ws
    split_ifs
    · simp; omega
    · simp

/-- A successful conversion consumes at least one character. -/
theorem scan_hhx2_ok_length {inp rest : CStr} {v : Nat} (h : scan_hhx2 inp = .ok v rest) :
    rest.length + 1 ≤ inp.length := by
  have hs := skip_ws_length inp
  unfold scan_hhx2 at h
  split at h
  · simp at h
  · rename_i c cs hsk
    rw [hsk] at hs
    simp only [List.length_cons] at hs
    repeat' split at h
    all_goals first
      | (simp at h; done)
      | (simp only [ScanResult.ok.injEq] at h
         obtain ⟨-, rfl⟩ := h
         simp only [List.length_cons, List.length_nil] at hs ⊢
         omega)

/-- Assigning all `n` remaining fields needs at least `2 n - 1` characters. -/
theorem sscanf_mac_loop_full_length :
    ∀ (n : Nat) (inp : CStr) (acc : List Nat), 0 < n →
      (sscanf_mac_loop n inp acc).1 = ((acc.length + n : Nat) : Int) →
      2 * n ≤ inp.length + 1 := by
  intro n
  induction n with
  | zero => intro inp acc h; omega
  | succ n ih =>
    intro inp acc _ h
    unfold sscanf_mac_loop at h
    split at h
    · exfalso
      split_ifs at h <;> simp only [] at h <;> push_cast at h <;> omega
    · exfalso
      simp only [] at h
      push_cast at h
      omega
    · rename_i v rest hscan
      have hl := scan_hhx2_ok_length hscan
      split_ifs at h with hn
      · omega
      · split at h
        · exfalso
          simp only [] at h
          push_cast at h
          omega
        · rename_i c rest'
          split_ifs at h
          · have hn' : 0 < n := Nat.pos_of_ne_zero hn
            have := ih rest' (acc ++ [v]) hn' (by
              rw [h]; simp only [List.length_append, List.length_singleton]; push_cast; omega)
            simp only [List.length_cons] at hl
            omega
          · exfalso
            simp only [] at h
            push_cast at h
            omega

theorem sscanf_mac_short {s : CStr} (h : s.length < 11) : (sscanf_mac s).1 ≠ 6 := by
  intro h6
  have := sscanf_mac_loop_full_length 6 s [] (by omega) (by
    unfold sscanf_mac at h6
    rw [h6]; simp)
  omega

/-- A hexadecimal digit followed by a character that is none, the pair not
being `0x` or `0X`: the field is the one digit. -/
theorem scan_hhx2_single {a b : Nat} (rest : CStr) (ha : isxdigit a = true)
    (hb : isxdigit b = false) (hx : ¬ (a = 48 ∧ (b = 120 ∨ b = 88))) :
    scan_hhx2 (a :: b :: rest) = .ok ((hexDigitVal a).getD 0) (b :: rest) := by
  obtain ⟨va, hva, _⟩ := isxdigit_val ha
  have ha' := (isxdigit_iff a).1 ha
  have h1 : ¬ (a = 43 ∨ a = 45) := by omega
  have hb' : hexDigitVal b = none := by
    unfold isxdigit at hb
    cases hv : hexDigitVal b <;> simp [hv] at hb ⊢
  have hsk : skip_ws (a :: b :: rest) = a :: b :: rest := by
    simp [skip_ws, isspace_of_isxdigit ha]
  unfold scan_hhx2
  rw [hsk]
  simp only [h1, if_false, hva, hb']
  rw [if_neg hx]
  simp

/-- The pair `0x` or `0X`: the field is the whole pair, and 0 is stored. -/
theorem scan_hhx2_hex_prefix {b : Nat} (rest : CStr) (hb : b = 120 ∨ b = 88) :
    scan_hhx2 (48 :: b :: rest) = .ok 0 rest := by
  have hsk : skip_ws (48 :: b :: rest) = 48 :: b :: rest := by
    simp [skip_ws, isspace]
  unfold scan_hhx2
  rw [hsk]
  have h0 : hexDigitVal 48 = some 0 := by decide
  simp only [show ¬ ((48 : Nat) = 43 ∨ (48 : Nat) = 45) by decide, if_false, h0]
  simp [hb]

/-- A character that cannot start a field. -/
theorem scan_hhx2_bad_start {c : Nat} (rest : CStr) (hx : isxdigit c = false)
    (hs : isspace c = false) (h43 : c ≠ 43) (h45 : c ≠ 45) :
    scan_hhx2 (c :: rest) = .nomatch := by
  have hc : hexDigitVal c = none := by
    unfold isxdigit at hx
    cases hv : hexDigitVal c <;> simp [hv] at hx ⊢
  simp [scan_hhx2, skip_ws, hs, h43, h45, hc]

theorem isxdigit_colon : isxdigit 58 = false := by decide

theorem isspace_colon : isspace 58 = false := by decide

/-- With hexadecimal digits at the twelve digit positions, six fields are
assigned only if the five separators are colons. -/
theorem sscanf_mac_separators {x0 x1 x2 x3 x4 x5 x6 x7 x8 x9 x10 x11 x12 x13 x14 x15 x16 : Nat}
    (d0 : isxdigit x0 = true) (d1 : isxdigit x1 = true) (d3 : isxdigit x3 = true)
    (d4 : isxdigit x4 = true) (d6 : isxdigit x6 = true) (d7 : isxdigit x7 = true)
    (d9 : isxdigit x9 = true) (d10 : isxdigit x10 = true) (d12 : isxdigit x12 = true)
    (d13 : isxdigit x13 = true)
    (h6 : (sscanf_mac
      [x0, x1, x2, x3, x4, x5, x6, x7, x8, x9, x10, x11, x12, x13, x14, x15, x16]).1 = 6) :
    x2 = 58 ∧ x5 = 58 ∧ x8 = 58 ∧ x11 = 58 ∧ x14 = 58 := by
  have e2 : x2 = 58 := by
    by_contra hne
    simp [sscanf_mac, sscanf_mac_loop, scan_hhx2_pair, d0, d1, hne] at h6
  subst e2
  have e5 : x5 = 58 := by
    by_contra hne
    simp [sscanf_mac, sscanf_mac_loop, scan_hhx2_pair, d0, d1, d3, d4, hne] at h6
  subst e5
  have e8 : x8 = 58 := by
    by_contra hne
    simp [sscanf_mac, sscanf_mac_loop, scan_hhx2_pair, d0, d1, d3, d4, d6, d7, hne] at h6
  subst e8
  have e11 : x11 = 58 := by
    by_contra hne
    simp [sscanf_mac, sscanf_mac_loop, scan_hhx2_pair, d0, d1, d3, d4, d6, d7, d9, d10,
      hne] at h6
  subst e11
  have e14 : x14 = 58 := by
    by_contra hne
    simp [sscanf_mac, sscanf_mac_loop, scan_hhx2_pair, d0, d1, d3, d4, d6, d7, d9, d10,
      d12, d13, hne] at h6
  subst e14
  simp

/-- A pair whose first character cannot start a field stops the scan. -/
theorem sscanf_mac_loop_bad_start {c : Nat} (n : Nat) (rest : CStr) (acc : List Nat)
    (hx : isxdigit c = false) (hs : isspace c = false) (h43 : c ≠ 43) (h45 : c ≠ 45) :
    sscanf_mac_loop (n + 1) (c :: rest) acc = ((acc.length : Int), acc) := by
  simp [sscanf_mac_loop, scan_hhx2_bad_start rest hx hs h43 h45]

/-- A pair whose second character is no hexadecimal digit, and which is not
`0x` or `0X`, stops the scan after one more assignment, when a colon follows
the pair and another field is still to come. -/
theorem sscanf_mac_loop_bad_second {a c : Nat} (n : Nat) (rest : CStr) (acc : List Nat)
    (ha : isxdigit a = true) (hc : isxdigit c = false)
    (hx : ¬ (a = 48 ∧ (c = 120 ∨ c = 88))) :
    (sscanf_mac_loop (n + 2) (a :: c :: 58 :: rest) acc).1 = acc.length + 1 := by
  have h := scan_hhx2_single (58 :: rest) ha hc hx
  by_cases hc58 : c = 58
  · subst hc58
    have hbad := scan_hhx2_bad_start rest isxdigit_colon isspace_colon (by decide) (by decide)
    simp [sscanf_mac_loop, h, hbad]
  · simp [sscanf_mac_loop, h, hc58]

theorem sscanf_mac_loop_bad_second_ne {a c : Nat} (n : Nat) (rest : CStr) (acc : List Nat)
    (ha : isxdigit a = true) (hc : isxdigit c = false)
    (hx : ¬ (a = 48 ∧ (c = 120 ∨ c = 88))) (hlt : acc.length + 1 < 6) :
    ((sscanf_mac_loop (n + 2) (a :: c :: 58 :: rest) acc).1 = 6) = False := by
  rw [sscanf_mac_loop_bad_second n rest acc ha hc hx]
  simp only [eq_iff_iff, iff_false]
  omega

/-- One well-formed pair and its colon are consumed by one round of the loop. -/
theorem sscanf_mac_loop_pair {a b : Nat} (n : Nat) (rest : CStr) (acc : List Nat)
    (ha : isxdigit a = true) (hb : isxdigit b = true) :
    sscanf_mac_loop (n + 2) (a :: b :: 58 :: rest) acc =
      sscanf_mac_loop (n + 1) rest
        (acc ++ [16 * (hexDigitVal a).getD 0 + (hexDigitVal b).getD 0]) := by
  rw [sscanf_mac_loop, scan_hhx2_pair _ ha hb]
  simp

theorem sscanf_mac_bad_digit {s : CStr} (hlen : s.length = 17)
    (hsep : ∀ i, i < 17 → i % 3 = 2 → s.getD i 0 = 58)
    {p : Nat} (hp : p < 16) (hp3 : p % 3 ≠ 2)
    (hdig : ∀ i, i < 17 → i % 3 ≠ 2 → i ≠ p → isxdigit (s.getD i 0) = true)
    (hbad : isxdigit (s.getD p 0) = false)
    (hstart : p % 3 = 0 → isspace (s.getD p 0) = false ∧ s.getD p 0 ≠ 43 ∧ s.getD p 0 ≠ 45)
    (hpre : p % 3 = 1 → ¬ (s.getD (p - 1) 0 = 48 ∧ (s.getD p 0 = 120 ∨ s.getD p 0 = 88))) :
    (sscanf_mac s).1 ≠ 6 := by
  obtain ⟨x0, x1, x2, x3, x4, x5, x6, x7, x8, x9, x10, x11, x12, x13, x14, x15, x16, rfl⟩ :=
    list_length_17 hlen
  have e2 := hsep 2 (by omega) (by omega)
  have e5 := hsep 5 (by omega) (by omega)
  have e8 := hsep 8 (by omega) (by omega)
  have e11 := hsep 11 (by omega) (by omega)
  have e14 := hsep 14 (by omega) (by omega)
  simp only [List.getD_cons_zero, List.getD_cons_succ] at e2 e5 e8 e11 e14
  subst e2 e5 e8 e11 e14
  have d0 := hdig 0 (by omega) (by omega)
  have d1 := hdig 1 (by omega) (by omega)
  have d3 := hdig 3 (by omega) (by omega)
  have d4 := hdig 4 (by omega) (by omega)
  have d6 := hdig 6 (by omega) (by omega)
  have d7 := hdig 7 (by omega) (by omega)
  have d9 := hdig 9 (by omega) (by omega)
  have d10 := hdig 10 (by omega) (by omega)
  have d12 := hdig 12 (by omega) (by omega)
  have d13 := hdig 13 (by omega) (by omega)
  have d15 := hdig 15 (by omega) (by omega)
  clear hdig hsep
  unfold sscanf_mac
  interval_cases p <;> first
    | (exfalso; omega)
    | (simp only [List.getD_cons_zero, List.getD_cons_succ, ne_eq, OfNat.ofNat_ne_zero,
        OfNat.zero_ne_ofNat, not_false_eq_true, not_true_eq_false, forall_const,
        Nat.reduceEqDiff, OfNat.ofNat_ne_one, OfNat.one_ne_ofNat, zero_ne_one, one_ne_zero,
        IsEmpty.forall_iff, Nat.reduceMod, Nat.reduceSub, true_implies] at *)
  all_goals first
    | (obtain ⟨hs, h43, h45⟩ := hstart
       simp [sscanf_mac_loop_pair, sscanf_mac_loop_bad_start, d0, d1, d3, d4, d6, d7, d9, d10,
         d12, d13, d15, hbad, hs, h43, h45])
    | (simp [sscanf_mac_loop_pair, sscanf_mac_loop_bad_second_ne, d0, d1, d3, d4, d6, d7, d9,
         d10, d12, d13, d15, hbad, hpre])

/-- C2, counterexample: the malformed text `AA:BB:CC:DD:EE:FF:00` (20
characters instead of 17) is not rejected: the call returns `ESP_OK`, opens a
socket and transmits a datagram. -/
theorem wol_send_magic_packet_accepts_too_long :
    mac_too_long.length = 20 ∧ well_formed_mac mac_too_long = false ∧
    wol_send_magic_packet send_env_ok (some mac_too_long) none 9 =
      (ESP_OK,
        [Event.socket false 3, Event.setsockopt 0,
         Event.sendto INADDR_BROADCAST 9
           (List.replicate 6 0xFF ++
             (List.replicate 16 [0xAA, 0xBB, 0xCC, 0xDD, 0xEE, 0xFF]).flatten) 102,
         Event.close]) := by
  decide

/-- The scans of the sample texts: `0x:BB:CC:DD:EE:FF` and `A:B:C:D:E:F`
give six fields, `AA:BG:CC:DD:EE:FF` gives two and `AA-BB:CC:DD:EE:FF` one. -/
theorem sscanf_mac_examples :
    sscanf_mac mac_hex_prefix = (6, [0, 0xBB, 0xCC, 0xDD, 0xEE, 0xFF]) ∧
    sscanf_mac mac_one_digit = (6, [0xA, 0xB, 0xC, 0xD, 0xE, 0xF]) ∧
    sscanf_mac mac_bad_digit = (2, [0xAA, 0xB]) ∧
    sscanf_mac mac_bad_separator = (1, [0xAA]) := by
  decide

/-- A string from which six fields are scanned is not rejected before the
socket call. -/
theorem wol_send_magic_packet_of_six (env : SendEnv) (s : CStr) (ip : Option CStr) (port : Nat)
    (h6 : (sscanf_mac s).1 = 6) :
    wol_send_magic_packet env (some s) ip port ≠ (ESP_ERR_INVALID_ARG, []) := by
  have hne : ¬ ((sscanf_mac s).1 ≠ 6) := fun h => h h6
  intro hr
  have h2 : (wol_send_magic_packet env (some s) ip port).2 = [] := by rw [hr]
  simp only [wol_send_magic_packet, wol_magic_packet, hne, if_false] at h2
  repeat' split at h2
  all_goals simp at h2

/-- C2, as amended: for a null string, and for every string of one of the
classes of `rejected_mac` (fewer than six fields can be scanned; fewer than 11
characters; 17 characters with a separator other than `:` between pairs of
hexadecimal digits; 17 characters with a character that is no hexadecimal
digit at a digit position before the last, excepted white space and signs at
the start of a pair and `x` or `X` after `0` at its end),
`wol_send_magic_packet` returns `ESP_ERR_INVALID_ARG` and performs no socket
call at all; for a non-null string this is the outcome exactly when fewer
than six fields are scanned. -/
theorem wol_send_magic_packet_rejects (env : SendEnv) (mac ip : Option CStr) (port : Nat)
    (h : mac = none ∨ ∃ s, mac = some s ∧ rejected_mac s) :
    wol_send_magic_packet env mac ip port = (ESP_ERR_INVALID_ARG, []) ∧
    ∀ s : CStr,
      (wol_send_magic_packet env (some s) ip port = (ESP_ERR_INVALID_ARG, []) ↔
        (sscanf_mac s).1 ≠ 6) := by
  have hrej : ∀ s : CStr, (sscanf_mac s).1 ≠ 6 →
      wol_send_magic_packet env (some s) ip port = (ESP_ERR_INVALID_ARG, []) := by
    intro s hne
    simp [wol_send_magic_packet, wol_magic_packet, hne]
  refine ⟨?_, fun s => ⟨fun hr h6 => wol_send_magic_packet_of_six env s ip port h6 hr, hrej s⟩⟩
  rcases h with rfl | ⟨s, rfl, hs⟩
  · simp [wol_send_magic_packet, wol_magic_packet]
  · apply hrej
    rcases hs with h | h | ⟨hlen, hdig, i, hi, hi3, hne⟩ |
      ⟨hlen, hsep, p, hp, hp3, hdig, hbad, hst, hpre⟩
    · exact h
    · exact sscanf_mac_short h
    · intro h6
      obtain ⟨x0, x1, x2, x3, x4, x5, x6, x7, x8, x9, x10, x11, x12, x13, x14, x15, x16, rfl⟩ :=
        list_length_17 hlen
      have hsep := sscanf_mac_separators
        (by simpa using hdig 0 (by omega) (by omega))
        (by simpa using hdig 1 (by omega) (by omega))
        (by simpa using hdig 3 (by omega) (by omega))
        (by simpa using hdig 4 (by omega) (by omega))
        (by simpa using hdig 6 (by omega) (by omega))
        (by simpa using hdig 7 (by omega) (by omega))
        (by simpa using hdig 9 (by omega) (by omega))
        (by simpa using hdig 10 (by omega) (by omega))
        (by simpa using hdig 12 (by omega) (by omega))
        (by simpa using hdig 13 (by omega) (by omega)) h6
      obtain ⟨e2, e5, e8, e11, e14⟩ := hsep
      interval_cases i <;> first
        | (exfalso; omega)
        | (simp only [List.getD_cons_zero, List.getD_cons_succ] at hne; contradiction)
    · exact sscanf_mac_bad_digit hlen hsep hp hp3 hdig hbad hst hpre

/-- The text `AA:BG:CC:DD:EE:FF` belongs to the last class of `rejected_mac`:
its only character that is no hexadecimal digit is the `G` at position 4. -/
theorem mac_bad_digit_rejected : rejected_mac mac_bad_digit := by
  refine Or.inr (Or.inr (Or.inr ⟨rfl, by decide, 4, by decide, by decide, ?_, by decide,
    by decide, by decide⟩))
  intro i hi h3 h4
  interval_cases i <;> first
    | (exfalso; omega)
    | decide

theorem wol_send_magic_packet_rejects_witness :
    (some mac_bad_digit = none ∨ ∃ s, some mac_bad_digit = some s ∧ rejected_mac s) ∧
    wol_send_magic_packet send_env_ok (some mac_bad_digit) none 9 =
      (ESP_ERR_INVALID_ARG, []) ∧
    wol_send_magic_packet send_env_ok (some mac_bad_separator) none 9 =
      (ESP_ERR_INVALID_ARG, []) ∧
    wol_send_magic_packet send_env_ok none none 9 = (ESP_ERR_INVALID_ARG, []) :=
  ⟨Or.inr ⟨mac_bad_digit, rfl, mac_bad_digit_rejected⟩,
   (wol_send_magic_packet_rejects send_env_ok (some mac_bad_digit) none 9
     (Or.inr ⟨mac_bad_digit, rfl, mac_bad_digit_rejected⟩)).1,
   (wol_send_magic_packet_rejects send_env_ok (some mac_bad_separator) none 9
     (Or.inr ⟨mac_bad_separator, rfl, Or.inl (by decide)⟩)).1,
   (wol_send_magic_packet_rejects send_env_ok none none 9 (Or.inl rfl)).1⟩

/-! ## Theorems: `wol_send_magic_packet_all` (C3) -/

/-- The events of `wol_send_magic_packet` itself contain no call record. -/
theorem wol_send_magic_packet_no_call_record (env : SendEnv) (mac ip : Option CStr)
    (port : Nat) (dest : Option CStr) (q : Nat) (res : esp_err_t) :
    Event.send_call dest q res ∉ (wol_send_magic_packet env mac ip port).2 := by
  unfold wol_send_magic_packet
  split
  · simp
  · by_cases h1 : env.socket_fd < 0
    · simp [h1]
    by_cases h2 : env.setsockopt_result < 0
    · simp [h1, h2]
    simp only [h1, h2, if_false]
    split
    · simp
    · split_ifs <;> simp

theorem AllSt.Inv_call (send : Nat → SendEnv) (mac : Option CStr) (st : AllSt)
    (ip : CStr) (port : Nat) (h : st.Inv send mac) : (st.call send mac ip port).Inv send mac := by
  obtain ⟨h1, h2, h3⟩ := h
  have hno := wol_send_magic_packet_no_call_record (send st.calls) mac (some ip) port
  refine ⟨?_, ?_, ?_⟩
  · simp only [AllSt.call, List.mem_append, List.mem_cons, Event.send_call.injEq]
    by_cases hr : (wol_send_magic_packet (send st.calls) mac (some ip) port).1 = ESP_OK
    · simp only [hr, if_true, true_iff]
      exact ⟨some ip, port, Or.inr (Or.inl (by simp))⟩
    · simp only [hr, if_false]
      rw [h1]
      constructor
      · rintro ⟨d, q, hm⟩
        exact ⟨d, q, Or.inl hm⟩
      · rintro ⟨d, q, hm | ⟨-, -, hm⟩ | hm⟩
        · exact ⟨d, q, hm⟩
        · exact absurd hm.symm hr
        · exact absurd hm (hno d q _)
  · simp only [AllSt.call]
    split_ifs
    · left; rfl
    · exact h2
  · intro dest q res hm
    simp only [AllSt.call, List.mem_append, List.mem_cons, Event.send_call.injEq] at hm
    rcases hm with hm | ⟨rfl, rfl, rfl⟩ | hm
    · obtain ⟨k, hk, hres⟩ := h3 dest q res hm
      exact ⟨k, by simp only [AllSt.call]; omega, hres⟩
    · exact ⟨st.calls, by simp only [AllSt.call]; omega, rfl⟩
    · exact absurd hm (hno dest q res)

/-- C3: for a non-null MAC string and whatever the individual sends do,
`wol_send_magic_packet_all` returns `ESP_OK` if and only if at least one of
the `wol_send_magic_packet` calls it made returned `ESP_OK`; otherwise it
returns `ESP_FAIL`.  Every call record in its trace carries the result of an
actual call of `wol_send_magic_packet` with that destination and port. -/
theorem wol_send_magic_packet_all_ok_iff (send : Nat → SendEnv) (netif : NetifEnv)
    (mac : CStr) (ip : Option CStr) :
    ((wol_send_magic_packet_all send netif (some mac) ip).1 = ESP_OK ↔
      ∃ dest q, Event.send_call dest q ESP_OK ∈
        (wol_send_magic_packet_all send netif (some mac) ip).2) ∧
    ((wol_send_magic_packet_all send netif (some mac) ip).1 ≠ ESP_OK →
      (wol_send_magic_packet_all send netif (some mac) ip).1 = ESP_FAIL) ∧
    (∀ dest q res,
      Event.send_call dest q res ∈ (wol_send_magic_packet_all send netif (some mac) ip).2 →
      ∃ k, res = (wol_send_magic_packet (send k) (some mac) dest q).1) := by
  have h0 : AllSt.Inv send (some mac) { ok := ESP_FAIL, calls := 0, events := [] } := by
    refine ⟨?_, Or.inr rfl, ?_⟩
    · simp
    · intro dest q res hm
      simp at hm
  have key : ∃ st : AllSt, st.Inv send (some mac) ∧
      wol_send_magic_packet_all send netif (some mac) ip = (st.ok, st.events) := by
    have hdir : ∀ (st : AllSt) (dest : CStr), st.Inv send (some mac) →
        ((st.call send (some mac) dest 9).call send (some mac) dest 7).Inv send (some mac) :=
      fun st dest h => AllSt.Inv_call _ _ _ _ _ (AllSt.Inv_call _ _ _ _ _ h)
    unfold wol_send_magic_packet_all
    simp only
    refine ⟨_, ?_, rfl⟩
    apply hdir
    repeat' split
    all_goals first
      | exact h0
      | exact hdir _ _ h0
      | exact hdir _ _ (hdir _ _ h0)
  obtain ⟨st, ⟨h1, h2, h3⟩, heq⟩ := key
  rw [heq]
  refine ⟨h1, ?_, ?_⟩
  · intro hne
    rcases h2 with h | h
    · exact absurd h hne
    · exact h
  · intro dest q res hm
    obtain ⟨k, -, hk⟩ := h3 dest q res hm
    exact ⟨k, hk⟩

/-! ## Theorems: `wol_check_host_reachable` (C4) -/

/-- A completed handshake or a refusal on an attempted port makes the loop
body return true. -/
theorem probe_port_up (env : ProbeEnv) (ip : CStr) (port : Nat) (tmo : Int)
    (ha : env.attempted ip) (h : env.handshake_completes ∨ env.refused) :
    (probe_port env ip port tmo).1 = true := by
  obtain ⟨hs, hip⟩ := ha
  obtain ⟨addr, haddr⟩ := Option.isSome_iff_exists.1 hip
  have hs' : ¬ env.socket_fd < 0 := by omega
  unfold probe_port
  simp only [hs', if_false, haddr]
  rcases h with h | h
  · rcases h with h | ⟨⟨hc, he⟩, hsel, hset, hget, hso⟩
    · simp [h]
    · have hne : ¬ (env.connect_errno ≠ EINPROGRESS ∧ env.connect_errno ≠ EALREADY ∧
          env.connect_errno ≠ EWOULDBLOCK) := by
        rcases he with he | he | he <;> simp [he]
      simp [hc, hne, hsel, hset, hget, hso]
  · rcases h with ⟨hc, he⟩ | ⟨⟨hc, he⟩, hsel, hset, hget, hso⟩
    · simp [hc, he]
    · have hne : ¬ (env.connect_errno ≠ EINPROGRESS ∧ env.connect_errno ≠ EALREADY ∧
          env.connect_errno ≠ EWOULDBLOCK) := by
        rcases he with he | he | he <;> simp [he]
      simp [hc, hne, hsel, hset, hget, hso]

/-- A port that times out makes the loop go on to the next port. -/
theorem probe_port_times_out (env : ProbeEnv) (ip : CStr) (port : Nat) (tmo : Int)
    (h : env.times_out) : (probe_port env ip port tmo).1 = false := by
  obtain ⟨⟨hc, he⟩, hsel⟩ := h
  have hne : ¬ (env.connect_errno ≠ EINPROGRESS ∧ env.connect_errno ≠ EALREADY ∧
      env.connect_errno ≠ EWOULDBLOCK) := by
    rcases he with he | he | he <;> simp [he]
  unfold probe_port
  by_cases hs : env.socket_fd < 0
  · simp [hs]
  · cases haddr : env.inet_aton ip with
    | none => simp [hs]
    | some addr => simp [hs, hc, hne, hsel]

/-- Three ports that time out: the probe returns false. -/
theorem wol_check_host_reachable_all_time_out (env : Nat → ProbeEnv) (ip : CStr)
    (timeout_ms : Nat) (h : ∀ i, i < 3 → (env i).times_out) :
    (wol_check_host_reachable env (some ip) timeout_ms).1 = false := by
  simp [wol_check_host_reachable, ports, probe_ports,
    probe_port_times_out _ ip _ _ (h 0 (by omega)),
    probe_port_times_out _ ip _ _ (h 1 (by omega)),
    probe_port_times_out _ ip _ _ (h 2 (by omega))]

/-- C4: for every non-null host and every assignment of outcomes to the three
ports, `wol_check_host_reachable` returns true if on some port a connection
attempt is made and the handshake completes or the remote refuses
(`ECONNREFUSED`), and returns false if every port times out. -/
theorem wol_check_host_reachable_outcome (env : Nat → ProbeEnv) (ip : CStr) (timeout_ms : Nat) :
    ((∃ i, i < 3 ∧ (env i).attempted ip ∧ ((env i).handshake_completes ∨ (env i).refused)) →
      (wol_check_host_reachable env (some ip) timeout_ms).1 = true) ∧
    ((∀ i, i < 3 → (env i).attempted ip ∧ (env i).times_out) →
      (wol_check_host_reachable env (some ip) timeout_ms).1 = false) := by
  constructor
  · rintro ⟨i, hi, ha, h⟩
    simp only [wol_check_host_reachable, ports, probe_ports]
    by_cases h0 : (probe_port (env 0) ip 3389 (per_port_timeout_ms timeout_ms 3)).1 = true
    · simp [h0]
    by_cases h1 : (probe_port (env 1) ip 135 (per_port_timeout_ms timeout_ms 3)).1 = true
    · simp [h0, h1]
    by_cases h2 : (probe_port (env 2) ip 445 (per_port_timeout_ms timeout_ms 3)).1 = true
    · simp [h0, h1, h2]
    exfalso
    interval_cases i
    · exact h0 (probe_port_up _ _ _ _ ha h)
    · exact h1 (probe_port_up _ _ _ _ ha h)
    · exact h2 (probe_port_up _ _ _ _ ha h)
  · intro h
    exact wol_check_host_reachable_all_time_out env ip timeout_ms (fun i hi => (h i hi).2)

theorem wol_check_host_reachable_outcome_witness :
    (∃ i, i < 3 ∧ ((fun k => if k = 1 then probe_env_refused else probe_env_silent) i).attempted
        sample_ip ∧
      (((fun k => if k = 1 then probe_env_refused else probe_env_silent) i).handshake_completes ∨
        ((fun k => if k = 1 then probe_env_refused else probe_env_silent) i).refused)) ∧
    (wol_check_host_reachable (fun k => if k = 1 then probe_env_refused else probe_env_silent)
      (some sample_ip) 600).1 = true ∧
    (∀ i, i < 3 → ((fun _ => probe_env_silent) i).attempted sample_ip ∧
      ((fun _ => probe_env_silent) i).times_out) ∧
    (wol_check_host_reachable (fun _ => probe_env_silent) (some sample_ip) 600).1 = false := by
  have hup : ∃ i, i < 3 ∧
      ((fun k => if k = 1 then probe_env_refused else probe_env_silent) i).attempted
        sample_ip ∧
      (((fun k => if k = 1 then probe_env_refused else probe_env_silent) i).handshake_completes ∨
        ((fun k => if k = 1 then probe_env_refused else probe_env_silent) i).refused) :=
    ⟨1, by decide, by simp [ProbeEnv.attempted, probe_env_refused],
      Or.inr (by simp [ProbeEnv.refused, ProbeEnv.in_progress, probe_env_refused])⟩
  have hdown : ∀ i, i < 3 → ((fun _ => probe_env_silent) i).attempted sample_ip ∧
      ((fun _ => probe_env_silent) i).times_out :=
    fun _ _ => ⟨by simp [ProbeEnv.attempted, probe_env_silent],
      by simp [ProbeEnv.times_out, ProbeEnv.in_progress, probe_env_silent]⟩
  exact ⟨hup,
    (wol_check_host_reachable_outcome _ sample_ip 600).1 hup, hdown,
    (wol_check_host_reachable_outcome _ sample_ip 600).2 hdown⟩

/-! ## Theorems: the readiness wait -/

/-- The iteration bound of `hid_wait_ready_loop` is never exhausted: any two
bounds of at least `max 1 (timeout_ms - elapsed)` give the same result. -/
theorem hid_wait_ready_loop_fuel (ready : Nat → Bool) (timeout_ms : Nat) :
    ∀ (f₁ f₂ elapsed t : Nat), max 1 (timeout_ms - elapsed) ≤ f₁ →
      max 1 (timeout_ms - elapsed) ≤ f₂ →
      hid_wait_ready_loop ready timeout_ms f₁ elapsed t =
        hid_wait_ready_loop ready timeout_ms f₂ elapsed t := by
  intro f₁
  induction f₁ with
  | zero => intro f₂ elapsed t h; omega
  | succ f₁ ih =>
    intro f₂ elapsed t h1 h2
    cases f₂ with
    | zero => omega
    | succ f₂ =>
      simp only [hid_wait_ready_loop]
      split_ifs with hr he
      · rfl
      · rfl
      · rw [ih f₂ (elapsed + 1) (t + 1) (by omega) (by omega)]

/-- A ready channel ends the wait at the first evaluation, without delay. -/
theorem hid_wait_ready_of_ready (ready : Nat → Bool) (timeout_ms t : Nat)
    (h : ready t = true) : hid_wait_ready ready timeout_ms t = (true, t + 1, []) := by
  unfold hid_wait_ready
  obtain ⟨n, hn⟩ : ∃ n, max 1 timeout_ms = n + 1 := ⟨max 1 timeout_ms - 1, by omega⟩
  rw [hn]
  simp [hid_wait_ready_loop, h]

/-- The wait emits delays only, never a keyboard report. -/
theorem hid_wait_ready_loop_reports (ready : Nat → Bool) (timeout_ms : Nat) :
    ∀ (fuel elapsed t : Nat),
      reports (hid_wait_ready_loop ready timeout_ms fuel elapsed t).2.2 = [] := by
  intro fuel
  induction fuel with
  | zero => intro elapsed t; rfl
  | succ fuel ih =>
    intro elapsed t
    simp only [hid_wait_ready_loop]
    split_ifs
    · rfl
    · rfl
    · have := ih (elapsed + 1) (t + 1)
      simpa [reports, Event.is_report] using this

theorem hid_wait_ready_reports (ready : Nat → Bool) (timeout_ms t : Nat) :
    reports (hid_wait_ready ready timeout_ms t).2.2 = [] :=
  hid_wait_ready_loop_reports ready timeout_ms _ _ _

/-- When the channel is not ready at any of the next `n` evaluations, a wait
with a budget of `elapsed + n` that has used `elapsed` expires. -/
theorem hid_wait_ready_loop_expires (ready : Nat → Bool) :
    ∀ (n elapsed t : Nat), 0 < n → (∀ k, k < n → ready (t + k) = false) →
      hid_wait_ready_loop ready (elapsed + n) n elapsed t =
        (false, t + n, List.replicate n (Event.delay 1)) := by
  intro n
  induction n with
  | zero => intro elapsed t h; omega
  | succ n ih =>
    intro elapsed t _ h
    have h0 : ready t = false := by simpa using h 0 (by omega)
    simp only [hid_wait_ready_loop, h0]
    by_cases hn : n = 0
    · subst hn
      simp
    · have hlt : ¬ (elapsed + 1 ≥ elapsed + (n + 1)) := by omega
      have hrec := ih (elapsed + 1) (t + 1) (by omega) (fun k hk => by
        have := h (k + 1) (by omega)
        rwa [show t + 1 + k = t + (k + 1) by omega])
      rw [show elapsed + 1 + n = elapsed + (n + 1) by omega] at hrec
      simp [hlt, hrec, List.replicate_succ]
      omega

/-- A wait of `timeout_ms > 0` expires when the channel is not ready at any
of the next `timeout_ms` evaluations. -/
theorem hid_wait_ready_expires (ready : Nat → Bool) (timeout_ms t : Nat) (hpos : 0 < timeout_ms)
    (h : ∀ k, k < timeout_ms → ready (t + k) = false) :
    hid_wait_ready ready timeout_ms t =
      (false, t + timeout_ms, List.replicate timeout_ms (Event.delay 1)) := by
  unfold hid_wait_ready
  rw [show max 1 timeout_ms = timeout_ms by omega]
  have := hid_wait_ready_loop_expires ready timeout_ms 0 t hpos h
  simpa using this

/-! ## Theorems: `hid_keyboard_type_string` (C5, C6) -/

theorem reports_append (a b : List Event) : reports (a ++ b) = reports a ++ reports b := by
  simp [reports]

theorem expected_reports_append (lib : HidLib) (a b : CStr) :
    expected_reports lib (a ++ b) = expected_reports lib a ++ expected_reports lib b := by
  simp [expected_reports]

theorem expected_reports_cons (lib : HidLib) (c : Nat) (rest : CStr) :
    expected_reports lib (c :: rest) = key_reports lib c ++ expected_reports lib rest := by
  simp [expected_reports]

/-- The key code looked up by the loop is zero exactly for the unsupported
characters. -/
theorem lookup_key_eq_zero (lib : HidLib) (ch : Nat) :
    (lookup_key lib ch).2 = 0 ↔ supported lib ch = false := by
  unfold lookup_key supported
  by_cases h : ch % 256 < 128 <;> simp [h]

theorem key_reports_of_supported (lib : HidLib) (ch : Nat) (hs : supported lib ch = true) :
    key_reports lib ch =
      [Event.report (lookup_key lib ch).1 [(lookup_key lib ch).2, 0, 0, 0, 0, 0],
       Event.report 0 no_keys] := by
  have hlt : ch % 256 < 128 := by
    unfold supported at hs
    simp only [Bool.and_eq_true, decide_eq_true_eq] at hs
    exact hs.1
  simp only [key_reports, hs, if_true, lookup_key, hlt, no_keys]

theorem supported_of_lookup_ne (lib : HidLib) (ch : Nat) (hk : ¬ (lookup_key lib ch).2 = 0) :
    supported lib ch = true := by
  cases hsup : supported lib ch
  · exact absurd ((lookup_key_eq_zero lib ch).2 hsup) hk
  · rfl

/-- On a channel that is ready at every evaluation the loop types every
supported character and skips the others. -/
theorem type_loop_ready (lib : HidLib) (ready : Nat → Bool) (delay_ms : Nat)
    (h : ∀ k, ready k = true) :
    ∀ (text : CStr) (t : Nat) (evs : List Event),
      (type_loop lib ready delay_ms text t evs).1 = ESP_OK ∧
      reports (type_loop lib ready delay_ms text t evs).2.2 =
        reports evs ++ expected_reports lib text := by
  intro text
  induction text with
  | nil => intro t evs; simp [type_loop, expected_reports]
  | cons ch rest ih =>
    intro t evs
    rw [expected_reports_cons]
    by_cases hk : (lookup_key lib ch).2 = 0
    · have hs := (lookup_key_eq_zero lib ch).1 hk
      simp only [type_loop, hk, if_true]
      rw [key_reports, hs]
      simpa using ih t evs
    · have hs := supported_of_lookup_ne lib ch hk
      simp only [type_loop, hk, if_false, hid_wait_ready_of_ready ready 2000 t (h t)]
      simp only [Bool.true_eq_false, if_false]
      obtain ⟨ih1, ih2⟩ := ih (t + 1)
        (if delay_ms > 0 then
          evs ++ [] ++ [Event.report (lookup_key lib ch).1 [(lookup_key lib ch).2, 0, 0, 0, 0, 0],
            Event.delay 30, Event.report 0 no_keys] ++ [Event.delay delay_ms]
        else
          evs ++ [] ++ [Event.report (lookup_key lib ch).1 [(lookup_key lib ch).2, 0, 0, 0, 0, 0],
            Event.delay 30, Event.report 0 no_keys])
      refine ⟨ih1, ?_⟩
      rw [ih2, key_reports_of_supported lib ch hs]
      split_ifs <;> simp [reports, Event.is_report]

/-- On a ready channel the whole call behaves as its loop does: success and
the expected reports. -/
theorem type_string_on_ready_channel (lib : HidLib) (ready : Nat → Bool) (text : CStr)
    (delay_ms t : Nat) (h : ∀ k, ready k = true) :
    (hid_keyboard_type_string lib ready (some text) delay_ms t).1 = ESP_OK ∧
    reports (hid_keyboard_type_string lib ready (some text) delay_ms t).2.2 =
      expected_reports lib text := by
  unfold hid_keyboard_type_string
  simp only [hid_wait_ready_of_ready ready 4000 t (h t), Bool.true_eq_false, if_false]
  have := type_loop_ready lib ready delay_ms h text (t + 1) []
  simpa [reports] using this

/-- C5: for every text, when the HID channel is ready at every readiness
check, `hid_keyboard_type_string` returns `ESP_OK` and the reports it emits
are exactly, in text order, a press report (modifier, key code in slot 0,
other slots zero) followed by an all-zero release report for each character
with a non-zero key code, and nothing for a character whose key code is zero
or whose code is 128 or above. -/
theorem hid_keyboard_type_string_ready (lib : HidLib) (ready : Nat → Bool) (text : CStr)
    (delay_ms t : Nat) (h : ∀ k, ready k = true) :
    (hid_keyboard_type_string lib ready (some text) delay_ms t).1 = ESP_OK ∧
    reports (hid_keyboard_type_string lib ready (some text) delay_ms t).2.2 =
      expected_reports lib text := by
  unfold hid_keyboard_type_string
  simp only [hid_wait_ready_of_ready ready 4000 t (h t), Bool.true_eq_false, if_false]
  have := type_loop_ready lib ready delay_ms h text (t + 1) []
  simpa [reports] using this

theorem hid_keyboard_type_string_ready_witness :
    (∀ k, (fun _ : Nat => true) k = true) ∧
    (hid_keyboard_type_string sample_lib (fun _ => true) (some [80, 49, 97, 200]) 50 0).1 =
      ESP_OK ∧
    reports (hid_keyboard_type_string sample_lib (fun _ => true) (some [80, 49, 97, 200]) 50 0).2.2 =
      expected_reports sample_lib [80, 49, 97, 200] :=
  ⟨fun _ => rfl,
    hid_keyboard_type_string_ready sample_lib (fun _ => true) [80, 49, 97, 200] 50 0
      (fun _ => rfl)⟩

/-- Typing a text that starts with `pre`: when the loop gets through `pre`,
it continues with the rest from the state reached. -/
theorem type_loop_append (lib : HidLib) (ready : Nat → Bool) (delay_ms : Nat) (rest : CStr) :
    ∀ (pre : CStr) (t : Nat) (evs : List Event) (t' : Nat) (evs' : List Event),
      type_loop lib ready delay_ms pre t evs = (ESP_OK, t', evs') →
      type_loop lib ready delay_ms (pre ++ rest) t evs =
        type_loop lib ready delay_ms rest t' evs' := by
  intro pre
  induction pre with
  | nil =>
    intro t evs t' evs' h
    simp only [type_loop, Prod.mk.injEq, true_and] at h
    obtain ⟨rfl, rfl⟩ := h
    rfl
  | cons ch pre ih =>
    intro t evs t' evs' h
    simp only [List.cons_append, type_loop] at h ⊢
    split_ifs at h ⊢ with hk hw hd
    · exact ih _ _ _ _ h
    · simp at h
    · exact ih _ _ _ _ h
    · exact ih _ _ _ _ h

/-- The reports of a run that got through `pre` are the expected ones. -/
theorem type_loop_ok_reports (lib : HidLib) (ready : Nat → Bool) (delay_ms : Nat) :
    ∀ (pre : CStr) (t : Nat) (evs : List Event) (t' : Nat) (evs' : List Event),
      type_loop lib ready delay_ms pre t evs = (ESP_OK, t', evs') →
      reports evs' = reports evs ++ expected_reports lib pre := by
  intro pre
  induction pre with
  | nil =>
    intro t evs t' evs' h
    simp only [type_loop, Prod.mk.injEq, true_and] at h
    obtain ⟨rfl, rfl⟩ := h
    simp [expected_reports]
  | cons ch pre ih =>
    intro t evs t' evs' h
    rw [expected_reports_cons]
    simp only [type_loop] at h
    by_cases hk : (lookup_key lib ch).2 = 0
    · have hs := (lookup_key_eq_zero lib ch).1 hk
      simp only [hk, if_true] at h
      rw [key_reports, hs]
      simpa using ih _ _ _ _ h
    · have hs := supported_of_lookup_ne lib ch hk
      simp only [hk, if_false] at h
      split_ifs at h with hw hd
      · simp at h
      · rw [ih _ _ _ _ h, key_reports_of_supported lib ch hs]
        simp [reports_append, hid_wait_ready_reports]
        simp [reports, Event.is_report]
      · rw [ih _ _ _ _ h, key_reports_of_supported lib ch hs]
        simp [reports_append, hid_wait_ready_reports]
        simp [reports, Event.is_report]

theorem key_reports_length (lib : HidLib) (ch : Nat) :
    (key_reports lib ch).length = if supported lib ch = true then 2 else 0 := by
  unfold key_reports
  split_ifs <;> rfl

theorem expected_reports_length (lib : HidLib) (text : CStr) :
    (expected_reports lib text).length = 2 * (text.filter (supported lib)).length := by
  induction text with
  | nil => rfl
  | cons ch rest ih =>
    rw [expected_reports_cons, List.length_append, ih, key_reports_length, List.filter_cons]
    split_ifs <;> simp
    omega

/-- C6: if the bounded readiness wait before the `k`-th supported character
expires (the text is `pre ++ c :: post` with `c` supported, the run gets
through `pre`, and the wait of 2000 that follows returns false), then
`hid_keyboard_type_string` returns `ESP_ERR_TIMEOUT`; the reports emitted are
exactly the press/release pairs of the supported characters of `pre`, that
is the first `2 (k - 1)` reports of the full sequence and a leading segment
of it; after the events of `pre` come only the delays of the one expired wait,
and the function returns at the end of that wait. -/
theorem hid_keyboard_type_string_timeout (lib : HidLib) (ready : Nat → Bool)
    (delay_ms t : Nat) (pre : CStr) (c : Nat) (post : CStr) (t' : Nat) (evs : List Event)
    (hc : supported lib c = true)
    (hpre : hid_keyboard_type_string lib ready (some pre) delay_ms t = (ESP_OK, t', evs))
    (hexp : (hid_wait_ready ready 2000 t').1 = false) :
    (hid_keyboard_type_string lib ready (some (pre ++ c :: post)) delay_ms t).1 =
      ESP_ERR_TIMEOUT ∧
    reports (hid_keyboard_type_string lib ready (some (pre ++ c :: post)) delay_ms t).2.2 =
      expected_reports lib pre ∧
    reports (hid_keyboard_type_string lib ready (some (pre ++ c :: post)) delay_ms t).2.2 =
      (expected_reports lib (pre ++ c :: post)).take
        (2 * (pre.filter (supported lib)).length) ∧
    expected_reports lib pre <+: expected_reports lib (pre ++ c :: post) ∧
    (hid_keyboard_type_string lib ready (some (pre ++ c :: post)) delay_ms t).2.2 =
      evs ++ (hid_wait_ready ready 2000 t').2.2 ∧
    reports (hid_wait_ready ready 2000 t').2.2 = [] ∧
    (hid_keyboard_type_string lib ready (some (pre ++ c :: post)) delay_ms t).2.1 =
      (hid_wait_ready ready 2000 t').2.1 := by
  have hkey : ¬ (lookup_key lib c).2 = 0 := by
    intro h0
    rw [(lookup_key_eq_zero lib c).1 h0] at hc
    exact Bool.noConfusion hc
  unfold hid_keyboard_type_string at hpre ⊢
  simp only at hpre ⊢
  by_cases hw : (hid_wait_ready ready 4000 t).1 = false
  · simp [hw] at hpre
  have hw' : (hid_wait_ready ready 4000 t).1 = true := by
    cases hb : (hid_wait_ready ready 4000 t).1
    · exact absurd hb hw
    · rfl
  simp only [hw', Bool.true_eq_false, if_false] at hpre ⊢
  have hrun := type_loop_append lib ready delay_ms (c :: post) pre _ _ _ _ hpre
  have hrep := type_loop_ok_reports lib ready delay_ms pre _ _ _ _ hpre
  rw [hid_wait_ready_reports, List.nil_append] at hrep
  rw [hrun]
  simp only [type_loop, hkey, if_false, hexp, if_true]
  have hpfx : expected_reports lib pre <+: expected_reports lib (pre ++ c :: post) := by
    rw [expected_reports_append]
    exact List.prefix_append _ _
  refine ⟨trivial, ?_, ?_, hpfx, trivial, hid_wait_ready_reports _ _ _, trivial⟩
  · rw [reports_append, hid_wait_ready_reports, hrep, List.append_nil]
  · rw [reports_append, hid_wait_ready_reports, hrep, List.append_nil,
      expected_reports_append, ← expected_reports_length, List.take_left']
    rfl

theorem hid_keyboard_type_string_timeout_witness :
    supported sample_lib 98 = true ∧
    hid_keyboard_type_string sample_lib (ready_first 2) (some [97]) 50 0 =
      (ESP_OK, 2,
        [Event.report 0 [4, 0, 0, 0, 0, 0], Event.delay 30, Event.report 0 no_keys,
         Event.delay 50]) ∧
    (hid_wait_ready (ready_first 2) 2000 2).1 = false ∧
    (hid_keyboard_type_string sample_lib (ready_first 2) (some ([97] ++ 98 :: [99])) 50 0).1 =
      ESP_ERR_TIMEOUT ∧
    reports (hid_keyboard_type_string sample_lib (ready_first 2)
        (some ([97] ++ 98 :: [99])) 50 0).2.2 =
      [Event.report 0 [4, 0, 0, 0, 0, 0], Event.report 0 no_keys] := by
  have hc : supported sample_lib 98 = true := by decide
  have hpre : hid_keyboard_type_string sample_lib (ready_first 2) (some [97]) 50 0 =
      (ESP_OK, 2,
        [Event.report 0 [4, 0, 0, 0, 0, 0], Event.delay 30, Event.report 0 no_keys,
         Event.delay 50]) := by
    decide
  have hexp : (hid_wait_ready (ready_first 2) 2000 2).1 = false := by
    rw [hid_wait_ready_expires (ready_first 2) 2000 2 (by decide)
      (fun k _ => by simp [ready_first])]
  have h := hid_keyboard_type_string_timeout sample_lib (ready_first 2) 50 0 [97] 98 [99] 2 _
    hc hpre hexp
  refine ⟨hc, hpre, hexp, h.1, ?_⟩
  rw [h.2.1]
  decide

/-! ## Theorems: the events of the network functions -/

theorem outline_append (a b : List Event) : outline (a ++ b) = outline a ++ outline b := by
  simp [outline]

theorem outline_of_net_detail {l : List Event} (h : ∀ e ∈ l, e.is_net_detail = true) :
    outline l = [] := by
  simp only [outline, List.filter_eq_nil_iff]
  intro e he
  simp [h e he]

theorem reports_of_net_detail {l : List Event} (h : ∀ e ∈ l, e.is_net_detail = true) :
    reports l = [] := by
  simp only [reports, List.filter_eq_nil_iff]
  intro e he
  have := h e he
  cases e <;> simp [Event.is_net_detail, Event.is_report] at this ⊢

theorem probe_port_net_detail (env : ProbeEnv) (ip : CStr) (port : Nat) (tmo : Int) :
    ∀ e ∈ (probe_port env ip port tmo).2, e.is_net_detail = true ∧ e.is_wake = false := by
  intro e he
  unfold probe_port at he
  by_cases hs : env.socket_fd < 0
  · simp only [hs, if_true, List.mem_singleton] at he
    subst he
    exact ⟨rfl, rfl⟩
  · simp only [hs, if_false] at he
    cases haddr : env.inet_aton ip with
    | none =>
      simp only [haddr, List.mem_cons, List.mem_singleton, List.not_mem_nil, or_false] at he
      rcases he with rfl | rfl <;> exact ⟨rfl, rfl⟩
    | some addr =>
      simp only [haddr] at he
      split_ifs at he <;>
        simp only [List.cons_append, List.nil_append, List.mem_cons, List.mem_singleton,
          List.not_mem_nil, or_false] at he <;>
        rcases he with rfl | rfl | rfl | rfl <;> exact ⟨rfl, rfl⟩

theorem probe_ports_net_detail (env : Nat → ProbeEnv) (ip : CStr) (tmo : Int) :
    ∀ (ps : List Nat) (i : Nat), ∀ e ∈ (probe_ports env ip tmo ps i).2,
      e.is_net_detail = true ∧ e.is_wake = false := by
  intro ps
  induction ps with
  | nil => intro i e he; simp [probe_ports] at he
  | cons p ps ih =>
    intro i e he
    simp only [probe_ports] at he
    split_ifs at he
    · exact probe_port_net_detail _ _ _ _ e he
    · simp only [List.mem_append] at he
      rcases he with he | he
      · exact probe_port_net_detail _ _ _ _ e he
      · exact ih _ e he

theorem wol_check_host_reachable_events (env : Nat → ProbeEnv) (ip : Option CStr)
    (timeout_ms : Nat) :
    ∀ e ∈ (wol_check_host_reachable env ip timeout_ms).2,
      e.is_net_detail = true ∧ e.is_wake = false := by
  intro e he
  unfold wol_check_host_reachable at he
  cases ip with
  | none => simp at he
  | some ip => exact probe_ports_net_detail _ _ _ _ _ e he

theorem wol_check_host_reachable_net_detail (env : Nat → ProbeEnv) (ip : Option CStr)
    (timeout_ms : Nat) :
    ∀ e ∈ (wol_check_host_reachable env ip timeout_ms).2, e.is_net_detail = true :=
  fun e he => (wol_check_host_reachable_events env ip timeout_ms e he).1

theorem wol_send_magic_packet_net_detail (env : SendEnv) (mac ip : Option CStr) (port : Nat) :
    ∀ e ∈ (wol_send_magic_packet env mac ip port).2, e.is_net_detail = true := by
  intro e he
  unfold wol_send_magic_packet at he
  split at he
  · simp at he
  · by_cases h1 : env.socket_fd < 0
    · simp only [h1, if_true, List.mem_singleton] at he
      subst he; rfl
    by_cases h2 : env.setsockopt_result < 0
    · simp only [h1, h2, if_true, if_false, List.mem_cons, List.mem_singleton,
        List.not_mem_nil, or_false] at he
      rcases he with rfl | rfl | rfl <;> rfl
    simp only [h1, h2, if_false] at he
    split at he
    · simp only [List.mem_cons, List.mem_singleton, List.not_mem_nil, or_false] at he
      rcases he with rfl | rfl | rfl <;> rfl
    · split_ifs at he <;>
        simp only [List.mem_cons, List.mem_singleton, List.not_mem_nil, or_false] at he <;>
        rcases he with rfl | rfl | rfl | rfl <;> rfl

theorem AllSt.call_net_detail (send : Nat → SendEnv) (mac : Option CStr) (st : AllSt)
    (ip : CStr) (port : Nat) (h : ∀ e ∈ st.events, e.is_net_detail = true) :
    ∀ e ∈ (st.call send mac ip port).events, e.is_net_detail = true := by
  intro e he
  simp only [AllSt.call, List.mem_append, List.mem_cons] at he
  rcases he with he | rfl | he
  · exact h e he
  · rfl
  · exact wol_send_magic_packet_net_detail _ _ _ _ e he

theorem wol_send_magic_packet_all_net_detail (send : Nat → SendEnv) (netif : NetifEnv)
    (mac ip : Option CStr) :
    ∀ e ∈ (wol_send_magic_packet_all send netif mac ip).2, e.is_net_detail = true := by
  have h0 : ∀ e ∈ ({ ok := ESP_FAIL, calls := 0, events := [] } : AllSt).events,
      e.is_net_detail = true := by
    intro e he; simp at he
  have hdir : ∀ (st : AllSt) (dest : CStr), (∀ e ∈ st.events, e.is_net_detail = true) →
      ∀ e ∈ ((st.call send mac dest 9).call send mac dest 7).events,
        e.is_net_detail = true :=
    fun st dest h => AllSt.call_net_detail _ _ _ _ _ (AllSt.call_net_detail _ _ _ _ _ h)
  unfold wol_send_magic_packet_all
  cases mac with
  | none => intro e he; simp at he
  | some m =>
    simp only
    apply hdir
    repeat' split
    all_goals first
      | exact h0
      | exact hdir _ _ h0
      | exact hdir _ _ (hdir _ _ h0)

/-! ## Theorems: `perform_windows_login` without link and on the quick path (C7, C8) -/

/-- C7: whenever `wifi_manager_check_connection` does not return `ESP_OK`,
`perform_windows_login` returns `ESP_FAIL` at once, in the initial state: no
probe was made, no wake broadcast was sent, the clock was not read, the HID
channel was not polled, and the trace is empty (no network event and no HID
report). -/
theorem perform_windows_login_no_link (w : World) (fuel : Nat)
    (h : wifi_manager_check_connection w.s_wifi_connected w.check_netif ≠ ESP_OK) :
    perform_windows_login w fuel = some (ESP_FAIL, St.init) ∧
    St.init.trace = [] ∧ St.init.probes = 0 ∧ St.init.wakes = 0 ∧ St.init.polls = 0 := by
  refine ⟨?_, rfl, rfl, rfl, rfl⟩
  unfold perform_windows_login
  simp only [h, ne_eq, not_false_eq_true, if_true]

theorem perform_windows_login_no_link_witness :
    wifi_manager_check_connection no_link_world.s_wifi_connected no_link_world.check_netif ≠
      ESP_OK ∧
    perform_windows_login no_link_world 5 = some (ESP_FAIL, St.init) :=
  ⟨by decide, (perform_windows_login_no_link no_link_world 5 (by decide)).1⟩

theorem hid_wait_ready_loop_is_hid (ready : Nat → Bool) (timeout_ms : Nat) :
    ∀ (fuel elapsed t : Nat),
      ∀ e ∈ (hid_wait_ready_loop ready timeout_ms fuel elapsed t).2.2, e.is_hid = true := by
  intro fuel
  induction fuel with
  | zero => intro elapsed t e he; simp [hid_wait_ready_loop] at he
  | succ fuel ih =>
    intro elapsed t e he
    simp only [hid_wait_ready_loop] at he
    split_ifs at he
    · simp at he
    · simp only [List.mem_singleton] at he
      subst he; rfl
    · simp only [List.mem_cons] at he
      rcases he with rfl | he
      · rfl
      · exact ih _ _ e he

theorem hid_wait_ready_is_hid (ready : Nat → Bool) (timeout_ms t : Nat) :
    ∀ e ∈ (hid_wait_ready ready timeout_ms t).2.2, e.is_hid = true :=
  hid_wait_ready_loop_is_hid ready timeout_ms _ _ _

theorem type_loop_is_hid (lib : HidLib) (ready : Nat → Bool) (delay_ms : Nat) :
    ∀ (text : CStr) (t : Nat) (evs : List Event), (∀ e ∈ evs, e.is_hid = true) →
      ∀ e ∈ (type_loop lib ready delay_ms text t evs).2.2, e.is_hid = true := by
  intro text
  induction text with
  | nil => intro t evs h e he; exact h e he
  | cons ch rest ih =>
    intro t evs h e he
    simp only [type_loop] at he
    have hw := hid_wait_ready_is_hid ready 2000 t
    split_ifs at he
    · exact ih _ _ h e he
    · simp only [List.mem_append] at he
      rcases he with he | he
      · exact h e he
      · exact hw e he
    · refine ih _ _ ?_ e he
      intro e' he'
      simp only [List.mem_append, List.mem_cons, List.mem_singleton, List.not_mem_nil,
        or_false] at he'
      rcases he' with ((he' | he') | rfl | rfl | rfl) | rfl
      · exact h e' he'
      · exact hw e' he'
      all_goals rfl
    · refine ih _ _ ?_ e he
      intro e' he'
      simp only [List.mem_append, List.mem_cons, List.mem_singleton, List.not_mem_nil,
        or_false] at he'
      rcases he' with (he' | he') | rfl | rfl | rfl
      · exact h e' he'
      · exact hw e' he'
      all_goals rfl

theorem hid_keyboard_type_string_is_hid (lib : HidLib) (ready : Nat → Bool)
    (text : Option CStr) (delay_ms t : Nat) :
    ∀ e ∈ (hid_keyboard_type_string lib ready text delay_ms t).2.2, e.is_hid = true := by
  intro e he
  unfold hid_keyboard_type_string at he
  cases text with
  | none => simp at he
  | some text =>
    simp only at he
    split_ifs at he
    · exact hid_wait_ready_is_hid _ _ _ e he
    · exact type_loop_is_hid _ _ _ _ _ _ (hid_wait_ready_is_hid _ _ _) e he

theorem outline_of_hid {l : List Event} (h : ∀ e ∈ l, e.is_hid = true) : outline l = l := by
  simp only [outline, List.filter_eq_self]
  intro e he
  have := h e he
  cases e <;> simp [Event.is_hid, Event.is_net_detail] at this ⊢

theorem is_wake_of_hid {e : Event} (h : e.is_hid = true) : e.is_wake = false := by
  cases e <;> simp [Event.is_hid, Event.is_wake] at h ⊢

theorem enter_events_is_hid : ∀ e ∈ enter_events, e.is_hid = true := by
  decide

/-- On a ready channel `hid_keyboard_press_enter` emits the press and the
release of Enter after one readiness evaluation. -/
theorem press_enter_ready (w : World) (st : St) (h : ∀ k, w.ready k = true) :
    st.press_enter w =
      (ESP_OK, { st with polls := st.polls + 1, trace := st.trace ++ enter_events }) := by
  simp [St.press_enter, hid_keyboard_press_enter, hid_keyboard_press_key,
    hid_wait_ready_of_ready w.ready 2000 st.polls (h st.polls), enter_events]

/-- On a ready channel the shared typing sequence succeeds: Enter, 500 ms,
the password, Enter. -/
theorem type_and_submit_ready (w : World) (st : St) (h : ∀ k, w.ready k = true) :
    type_and_submit w st =
      (ESP_OK,
        { st with
          polls := (hid_keyboard_type_string w.hid w.ready (some w.cfg.WINDOWS_PASSWORD) 50
            (st.polls + 1)).2.1 + 1
          trace := st.trace ++ enter_events ++ [Event.delay 500] ++
            (hid_keyboard_type_string w.hid w.ready (some w.cfg.WINDOWS_PASSWORD) 50
              (st.polls + 1)).2.2 ++ enter_events }) := by
  have hok := (type_string_on_ready_channel w.hid w.ready w.cfg.WINDOWS_PASSWORD 50
    (st.polls + 1) h).1
  simp only [type_and_submit, press_enter_ready w _ h, St.delay, St.type_password, hok, ne_eq,
    not_true_eq_false, if_false]

/-- C8: whenever the link check passes, the initial 600 ms probe returns
true and the HID channel is ready, `perform_windows_login` returns `ESP_OK`
on the quick path: after the probe it calls the LED function and performs, in
order, Enter, a 500 ms delay, `hid_keyboard_type_string(WINDOWS_PASSWORD, 50)`
and Enter; nothing else happens, so Enter is pressed by exactly two
`hid_keyboard_press_enter` calls, no wake broadcast is made and no event of
the trace belongs to a wake packet. -/
theorem perform_windows_login_quick (w : World) (fuel : Nat)
    (hwifi : wifi_manager_check_connection w.s_wifi_connected w.check_netif = ESP_OK)
    (hprobe : w.reach 0 600 = true) (hready : ∀ k, w.ready k = true) :
    ∃ st, perform_windows_login w fuel = some (ESP_OK, st) ∧
      st.trace =
        Event.reachable_call 600 true ::
          (wol_check_host_reachable (w.probe 0) (some w.cfg.PC_IP_ADDRESS) 600).2 ++
        [Event.led_pc_connect] ++ enter_events ++ [Event.delay 500] ++
        (hid_keyboard_type_string w.hid w.ready (some w.cfg.WINDOWS_PASSWORD) 50 1).2.2 ++
        enter_events ∧
      outline st.trace =
        [Event.reachable_call 600 true, Event.led_pc_connect] ++ enter_events ++
        [Event.delay 500] ++
        (hid_keyboard_type_string w.hid w.ready (some w.cfg.WINDOWS_PASSWORD) 50 1).2.2 ++
        enter_events ∧
      reports st.trace =
        reports enter_events ++ expected_reports w.hid w.cfg.WINDOWS_PASSWORD ++
          reports enter_events ∧
      st.wakes = 0 ∧ st.probes = 1 ∧
      (∀ e ∈ st.trace, e.is_wake = false) := by
  have hr : (wol_check_host_reachable (w.probe 0) (some w.cfg.PC_IP_ADDRESS) 600).1 = true :=
    hprobe
  have hty := hid_keyboard_type_string_is_hid w.hid w.ready (some w.cfg.WINDOWS_PASSWORD) 50 1
  have hpr := wol_check_host_reachable_events (w.probe 0) (some w.cfg.PC_IP_ADDRESS) 600
  have htr := (type_string_on_ready_channel w.hid w.ready w.cfg.WINDOWS_PASSWORD 50 1
    hready).2
  refine ⟨{ probes := 1, wakes := 0, reads := 0,
             polls := (hid_keyboard_type_string w.hid w.ready
               (some w.cfg.WINDOWS_PASSWORD) 50 1).2.1 + 1,
             trace := Event.reachable_call 600 true ::
                 (wol_check_host_reachable (w.probe 0) (some w.cfg.PC_IP_ADDRESS) 600).2 ++
               [Event.led_pc_connect] ++ enter_events ++ [Event.delay 500] ++
               (hid_keyboard_type_string w.hid w.ready
                 (some w.cfg.WINDOWS_PASSWORD) 50 1).2.2 ++
               enter_events }, ?_, rfl, ?_, ?_, rfl, rfl, ?_⟩
  · unfold perform_windows_login
    simp only [hwifi, ne_eq, not_true_eq_false, if_false, St.check_host, St.init, hr, if_true,
      St.led_pc_connect, type_and_submit_ready w _ hready, Nat.zero_add, List.nil_append]
  · simp only [outline_append, outline_of_hid hty, outline_of_hid enter_events_is_hid]
    rw [show (Event.reachable_call 600 true ::
        (wol_check_host_reachable (w.probe 0) (some w.cfg.PC_IP_ADDRESS) 600).2) =
      [Event.reachable_call 600 true] ++
        (wol_check_host_reachable (w.probe 0) (some w.cfg.PC_IP_ADDRESS) 600).2 from rfl,
      outline_append, outline_of_net_detail (fun e he => (hpr e he).1)]
    rfl
  · simp only [reports_append, htr]
    rw [show (Event.reachable_call 600 true ::
        (wol_check_host_reachable (w.probe 0) (some w.cfg.PC_IP_ADDRESS) 600).2) =
      [Event.reachable_call 600 true] ++
        (wol_check_host_reachable (w.probe 0) (some w.cfg.PC_IP_ADDRESS) 600).2 from rfl,
      reports_append, reports_of_net_detail (fun e he => (hpr e he).1)]
    rfl
  · intro e he
    simp only [List.mem_append, List.mem_cons, List.mem_singleton, List.not_mem_nil,
      or_false] at he
    rcases he with (((((rfl | he) | rfl) | he) | rfl) | he) | he
    · rfl
    · exact (hpr e he).2
    · rfl
    · exact is_wake_of_hid (enter_events_is_hid e he)
    · rfl
    · exact is_wake_of_hid (hty e he)
    · exact is_wake_of_hid (enter_events_is_hid e he)

theorem perform_windows_login_quick_witness :
    wifi_manager_check_connection quick_world.s_wifi_connected quick_world.check_netif =
      ESP_OK ∧
    quick_world.reach 0 600 = true ∧ (∀ k, quick_world.ready k = true) ∧
    ∃ st, perform_windows_login quick_world 0 = some (ESP_OK, st) ∧
      reports st.trace =
        reports enter_events ++ expected_reports quick_world.hid quick_world.cfg.WINDOWS_PASSWORD ++
          reports enter_events ∧
      st.wakes = 0 := by
  have h1 : wifi_manager_check_connection quick_world.s_wifi_connected
      quick_world.check_netif = ESP_OK := by decide
  have h2 : quick_world.reach 0 600 = true := by decide
  have h3 : ∀ k, quick_world.ready k = true := fun _ => rfl
  obtain ⟨st, hst, -, -, hrep, hwk, -, -⟩ := perform_windows_login_quick quick_world 0 h1 h2 h3
  exact ⟨h1, h2, h3, st, hst, hrep, hwk⟩

/-! ## Theorems: the wake loop -/

/-- One probe call: result, counters and outline. -/
theorem check_host_step (w : World) (st : St) (timeout_ms : Nat) :
    (st.check_host w timeout_ms).1 = w.reach st.probes timeout_ms ∧
    (st.check_host w timeout_ms).2.probes = st.probes + 1 ∧
    (st.check_host w timeout_ms).2.wakes = st.wakes ∧
    (st.check_host w timeout_ms).2.reads = st.reads ∧
    (st.check_host w timeout_ms).2.polls = st.polls ∧
    outline (st.check_host w timeout_ms).2.trace =
      outline st.trace ++ [Event.reachable_call timeout_ms (w.reach st.probes timeout_ms)] := by
  refine ⟨rfl, rfl, rfl, rfl, rfl, ?_⟩
  simp only [St.check_host]
  rw [show ∀ (e : Event) (l : List Event), st.trace ++ e :: l = st.trace ++ [e] ++ l from
    fun e l => by simp, outline_append, outline_append,
    outline_of_net_detail (wol_check_host_reachable_net_detail _ _ _), List.append_nil]
  rfl

/-- One wake broadcast: result, counters and outline. -/
theorem send_all_step (w : World) (st : St) :
    (st.send_all w).1 = w.wake_result st.wakes ∧
    (st.send_all w).2.probes = st.probes ∧
    (st.send_all w).2.wakes = st.wakes + 1 ∧
    (st.send_all w).2.reads = st.reads ∧
    (st.send_all w).2.polls = st.polls ∧
    outline (st.send_all w).2.trace =
      outline st.trace ++ [Event.send_all_call (w.wake_result st.wakes)] := by
  refine ⟨rfl, rfl, rfl, rfl, rfl, ?_⟩
  simp only [St.send_all]
  rw [show ∀ (e : Event) (l : List Event), st.trace ++ e :: l = st.trace ++ [e] ++ l from
    fun e l => by simp, outline_append, outline_append,
    outline_of_net_detail (wol_send_magic_packet_all_net_detail _ _ _ _), List.append_nil]
  rfl

/-- Probes that all fail: the inner loop runs to its end. -/
theorem probe_up_to_fail (w : World) :
    ∀ (n : Nat) (st : St), (∀ j, j < n → w.reach (st.probes + j) 1000 = false) →
      ∃ st', probe_up_to w n st = (false, st') ∧ st'.probes = st.probes + n ∧
        st'.wakes = st.wakes ∧ st'.reads = st.reads ∧ st'.polls = st.polls ∧
        outline st'.trace =
          outline st.trace ++ List.replicate n (Event.reachable_call 1000 false) := by
  intro n
  induction n with
  | zero => intro st _; exact ⟨st, rfl, rfl, rfl, rfl, rfl, by simp⟩
  | succ n ih =>
    intro st h
    obtain ⟨h1, h2, h3, h4, h5, h6⟩ := check_host_step w st 1000
    have hr : w.reach st.probes 1000 = false := by simpa using h 0 (by omega)
    obtain ⟨st', e1, e2, e3, e4, e5, e6⟩ := ih (st.check_host w 1000).2 (fun j hj => by
      rw [h2, show st.probes + 1 + j = st.probes + (j + 1) by omega]
      exact h (j + 1) (by omega))
    refine ⟨st', ?_, by omega, by omega, by omega, by omega, ?_⟩
    · simp only [probe_up_to, h1, hr, Bool.false_eq_true, if_false]
      exact e1
    · rw [e6, h6, hr, List.replicate_succ]
      simp

/-- Probes of which the first `p` fail and the next succeeds: the inner
loop leaves at the success. -/
theorem probe_up_to_success (w : World) :
    ∀ (n p : Nat) (st : St), p < n →
      (∀ j, j < p → w.reach (st.probes + j) 1000 = false) →
      w.reach (st.probes + p) 1000 = true →
      ∃ st', probe_up_to w n st = (true, st') ∧ st'.probes = st.probes + p + 1 ∧
        st'.wakes = st.wakes ∧ st'.reads = st.reads ∧ st'.polls = st.polls ∧
        outline st'.trace =
          outline st.trace ++ List.replicate p (Event.reachable_call 1000 false) ++
            [Event.reachable_call 1000 true] := by
  intro n
  induction n with
  | zero => intro p st hp; omega
  | succ n ih =>
    intro p st hp hf hs
    obtain ⟨h1, h2, h3, h4, h5, h6⟩ := check_host_step w st 1000
    cases p with
    | zero =>
      have hr : w.reach st.probes 1000 = true := by simpa using hs
      refine ⟨(st.check_host w 1000).2, ?_, by omega, h3, h4, h5, ?_⟩
      · simp only [probe_up_to, h1, hr, if_true]
      · rw [h6, hr]
        simp
    | succ p =>
      have hr : w.reach st.probes 1000 = false := by simpa using hf 0 (by omega)
      obtain ⟨st', e1, e2, e3, e4, e5, e6⟩ := ih p (st.check_host w 1000).2 (by omega)
        (fun j hj => by
          rw [h2, show st.probes + 1 + j = st.probes + (j + 1) by omega]
          exact hf (j + 1) (by omega))
        (by rw [h2, show st.probes + 1 + p = st.probes + (p + 1) by omega]; exact hs)
      refine ⟨st', ?_, by omega, by omega, by omega, by omega, ?_⟩
      · simp only [probe_up_to, h1, hr, Bool.false_eq_true, if_false]
        exact e1
      · rw [e6, h6, hr, List.replicate_succ]
        simp

theorem flatMap_range_succ (f : Nat → List Event) (m : Nat) :
    (List.range (m + 1)).flatMap f = f 0 ++ (List.range m).flatMap (fun i => f (i + 1)) := by
  rw [List.range_succ_eq_map, List.flatMap_cons, List.flatMap_map]

/-- One iteration of the wake loop, written out. -/
theorem wake_loop_succ (w : World) (start : Int) (fuel : Nat) (st : St) :
    wake_loop w start (fuel + 1) st =
      if (st.now_ms w).1 - start < 30000 then
        if (probe_up_to w 3 ((st.now_ms w).2.send_all w).2).1 = true then
          some (true, (probe_up_to w 3 ((st.now_ms w).2.send_all w).2).2)
        else if ((probe_up_to w 3 ((st.now_ms w).2.send_all w).2).2.now_ms w).1 - start ≥ 30000
        then some (false, ((probe_up_to w 3 ((st.now_ms w).2.send_all w).2).2.now_ms w).2)
        else wake_loop w start fuel
          ((probe_up_to w 3 ((st.now_ms w).2.send_all w).2).2.now_ms w).2
      else some (false, (st.now_ms w).2) := by
  rfl

/-- One clock reading: value and counters. -/
theorem now_ms_step (w : World) (st : St) :
    (st.now_ms w).1 = Int.tdiv (w.clock st.reads) 1000 ∧
    (st.now_ms w).2.probes = st.probes ∧
    (st.now_ms w).2.wakes = st.wakes ∧
    (st.now_ms w).2.reads = st.reads + 1 ∧
    (st.now_ms w).2.polls = st.polls ∧
    (st.now_ms w).2.trace = st.trace :=
  ⟨rfl, rfl, rfl, rfl, rfl, rfl⟩

/-- One full unsuccessful round of the loop body: the wake broadcast and
three failed probes, from the state after the clock reading. -/
theorem wake_round_fail (w : World) (st : St)
    (hfail : ∀ j, j < 3 → w.reach (st.probes + j) 1000 = false) :
    ∃ p, probe_up_to w 3 ((st.now_ms w).2.send_all w).2 = (false, p) ∧
      p.probes = st.probes + 3 ∧ p.wakes = st.wakes + 1 ∧ p.reads = st.reads + 1 ∧
      p.polls = st.polls ∧ outline p.trace = outline st.trace ++ wake_round w st.wakes := by
  obtain ⟨-, n2, n3, n4, n5, n6⟩ := now_ms_step w st
  obtain ⟨-, s2, s3, s4, s5, s6⟩ := send_all_step w (st.now_ms w).2
  obtain ⟨p, p1, p2, p3, p4, p5, p6⟩ :=
    probe_up_to_fail w 3 ((st.now_ms w).2.send_all w).2 (fun j hj => by
      rw [s2, n2]; exact hfail j hj)
  refine ⟨p, p1, by omega, by omega, by omega, by omega, ?_⟩
  rw [p6, s6, n6, n3]
  simp [wake_round, List.replicate]

/-- The wake loop when no probe ever succeeds and the budget expires within
`2 * fuel` clock readings: it ends with `pc_is_on = false` after `m ≤ fuel`
full iterations, each a wake broadcast and three failed probes. -/
theorem wake_loop_all_fail (w : World) (start : Int) (hfail : ∀ j, w.reach j 1000 = false) :
    ∀ (fuel : Nat) (st : St),
      (∃ k, k < 2 * fuel ∧ 30000 ≤ Int.tdiv (w.clock (st.reads + k)) 1000 - start) →
      ∃ m st', wake_loop w start fuel st = some (false, st') ∧ m ≤ fuel ∧
        st'.probes = st.probes + 3 * m ∧ st'.wakes = st.wakes + m ∧ st'.polls = st.polls ∧
        outline st'.trace =
          outline st.trace ++ (List.range m).flatMap (fun i => wake_round w (st.wakes + i)) := by
  intro fuel
  induction fuel with
  | zero => rintro st ⟨k, hk, -⟩; omega
  | succ fuel ih =>
    rintro st ⟨k, hk, hexp⟩
    rw [wake_loop_succ]
    obtain ⟨n1, n2, n3, n4, n5, n6⟩ := now_ms_step w st
    by_cases h0 : (st.now_ms w).1 - start < 30000
    · obtain ⟨p, p1, p2, p3, p4, p5, p6⟩ := wake_round_fail w st (fun j _ => hfail _)
      obtain ⟨c1, c2, c3, c4, c5, c6⟩ := now_ms_step w p
      simp only [h0, if_true, p1, Bool.false_eq_true, if_false]
      rw [p4] at c1
      by_cases h1 : (p.now_ms w).1 - start ≥ 30000
      · refine ⟨1, (p.now_ms w).2, ?_, by omega, by omega, by omega, by omega, ?_⟩
        · simp only [h1, if_true]
        · rw [c6, p6]
          simp [List.range, List.range.loop]
      · have hk2 : 2 ≤ k := by
          rcases Nat.lt_or_ge k 2 with hlt | hge
          · exfalso
            interval_cases k
            · rw [Nat.add_zero, ← n1] at hexp
              omega
            · rw [← c1] at hexp
              exact h1 hexp
          · exact hge
        obtain ⟨m, st', e1, e2, e3, e4, e5, e6⟩ := ih (p.now_ms w).2 ⟨k - 2, by omega, by
          rw [c4, p4, show st.reads + 1 + 1 + (k - 2) = st.reads + k by omega]
          exact hexp⟩
        refine ⟨m + 1, st', ?_, by omega, by omega, by omega, by omega, ?_⟩
        · simp only [h1, if_false]
          exact e1
        · have hf : (fun i => wake_round w (st.wakes + 1 + i)) =
              (fun i => wake_round w (st.wakes + (i + 1))) := by
            funext i
            rw [show st.wakes + 1 + i = st.wakes + (i + 1) by omega]
          rw [e6, c6, p6, c3, p3, flatMap_range_succ (fun i => wake_round w (st.wakes + i)) m,
            hf, List.append_assoc, Nat.add_zero]
    · refine ⟨0, (st.now_ms w).2, ?_, by omega, by omega, by omega, by omega, ?_⟩
      · simp only [h0, if_false]
      · rw [n6]
        simp

/-! ## Theorems: `perform_windows_login` on the wake path (C9, C10) -/

theorem at_loop_facts (w : World) (h0 : w.reach 0 600 = false) :
    (St.at_loop w).probes = 1 ∧ (St.at_loop w).wakes = 0 ∧ (St.at_loop w).reads = 1 ∧
    (St.at_loop w).polls = 0 ∧
    outline (St.at_loop w).trace = [Event.reachable_call 600 false] := by
  obtain ⟨-, c2, c3, c4, c5, c6⟩ := check_host_step w St.init 600
  obtain ⟨-, n2, n3, n4, n5, n6⟩ := now_ms_step w (St.init.check_host w 600).2
  have hi : St.init.probes = 0 ∧ St.init.wakes = 0 ∧ St.init.reads = 0 ∧ St.init.polls = 0 ∧
      St.init.trace = [] := ⟨rfl, rfl, rfl, rfl, rfl⟩
  obtain ⟨i1, i2, i3, i4, i5⟩ := hi
  refine ⟨?_, ?_, ?_, ?_, ?_⟩
  · rw [St.at_loop, n2, c2, i1]
  · rw [St.at_loop, n3, c3, i2]
  · rw [St.at_loop, n4, c4, i3]
  · rw [St.at_loop, n5, c5, i4]
  · rw [St.at_loop, n6, c6, i5, i1, h0]
    rfl

/-- The function on the wake path: link up, initial probe failed. -/
theorem perform_windows_login_wake_path (w : World) (fuel : Nat)
    (hwifi : wifi_manager_check_connection w.s_wifi_connected w.check_netif = ESP_OK)
    (h0 : w.reach 0 600 = false) :
    perform_windows_login w fuel =
      match wake_loop w w.start_time fuel (St.at_loop w) with
      | none => none
      | some l =>
        if (if l.1 = false then l.2.check_host w 3000 else (true, l.2)).1 = true then
          some (type_and_submit w
            (((if l.1 = false then l.2.check_host w 3000 else (true, l.2)).2.led_pc_connect).delay
              7000))
        else some (ESP_FAIL, (if l.1 = false then l.2.check_host w 3000 else (true, l.2)).2) := by
  have hr : (St.init.check_host w 600).1 = false := h0
  unfold perform_windows_login
  simp only [hwifi, ne_eq, not_true_eq_false, if_false, hr, Bool.false_eq_true]
  have hs : to_int32 (((St.init.check_host w 600).2.now_ms w).1) = w.start_time := rfl
  rw [hs]
  rfl

theorem reports_outline (l : List Event) : reports (outline l) = reports l := by
  unfold reports outline
  rw [List.filter_filter]
  apply List.filter_congr
  intro e _
  cases e <;> rfl

theorem reports_wake_rounds (w : World) (m : Nat) :
    reports ((List.range m).flatMap (wake_round w)) = [] := by
  simp only [reports, List.filter_eq_nil_iff, List.mem_flatMap]
  rintro e ⟨i, -, he⟩
  simp only [wake_round, List.mem_cons, List.mem_singleton, List.not_mem_nil, or_false] at he
  rcases he with rfl | rfl | rfl | rfl <;> simp [Event.is_report]

/-- C9: whenever the link check passes, every reachability probe of the run
returns false, and the 30 s budget test comes out expired at one of the
first `2 * fuel` clock readings after the start, `perform_windows_login`
returns `ESP_FAIL` (the failure of the unreachable host) and no typing
occurs: no HID report is emitted and the HID channel is not even polled.
The run consists of the 600 ms probe, `m` rounds of a wake broadcast and
three 1000 ms probes, and the final 3000 ms probe. -/
theorem perform_windows_login_unreachable (w : World) (fuel : Nat)
    (hwifi : wifi_manager_check_connection w.s_wifi_connected w.check_netif = ESP_OK)
    (hfail : ∀ j timeout_ms, w.reach j timeout_ms = false)
    (hclock : ∃ k, 1 ≤ k ∧ k ≤ 2 * fuel ∧ w.expired k) :
    ∃ st m, perform_windows_login w fuel = some (ESP_FAIL, st) ∧
      reports st.trace = [] ∧ st.polls = 0 ∧ m ≤ fuel ∧ st.wakes = m ∧
      outline st.trace =
        [Event.reachable_call 600 false] ++ (List.range m).flatMap (wake_round w) ++
          [Event.reachable_call 3000 false] := by
  obtain ⟨k, hk1, hk2, hexp⟩ := hclock
  obtain ⟨a1, a2, a3, a4, a5⟩ := at_loop_facts w (hfail 0 600)
  obtain ⟨m, st', e1, e2, e3, e4, e5, e6⟩ :=
    wake_loop_all_fail w w.start_time (fun j => hfail j 1000) fuel (St.at_loop w)
      ⟨k - 1, by omega, by
        rw [a3, show 1 + (k - 1) = k by omega]
        exact hexp⟩
  obtain ⟨c1, c2, c3, c4, c5, c6⟩ := check_host_step w st' 3000
  have hout : outline (st'.check_host w 3000).2.trace =
      [Event.reachable_call 600 false] ++ (List.range m).flatMap (wake_round w) ++
        [Event.reachable_call 3000 false] := by
    rw [c6, e6, a5, a2, hfail]
    simp
  refine ⟨(st'.check_host w 3000).2, m, ?_, ?_, by omega, e2, by omega, hout⟩
  · rw [perform_windows_login_wake_path w fuel hwifi (hfail 0 600), e1]
    simp only [if_true, c1, hfail, Bool.false_eq_true, if_false]
  · rw [← reports_outline, hout, reports_append, reports_append, reports_wake_rounds w m]
    rfl

theorem perform_windows_login_unreachable_witness :
    wifi_manager_check_connection dead_world.s_wifi_connected dead_world.check_netif = ESP_OK ∧
    (∀ j timeout_ms, dead_world.reach j timeout_ms = false) ∧
    (∃ k, 1 ≤ k ∧ k ≤ 2 * 1 ∧ dead_world.expired k) ∧
    ∃ st m, perform_windows_login dead_world 1 = some (ESP_FAIL, st) ∧
      reports st.trace = [] ∧ st.polls = 0 ∧ m ≤ 1 ∧ st.wakes = m := by
  have h1 : wifi_manager_check_connection dead_world.s_wifi_connected
      dead_world.check_netif = ESP_OK := by decide
  have h2 : ∀ j timeout_ms, dead_world.reach j timeout_ms = false := fun j t =>
    wol_check_host_reachable_all_time_out (fun _ => probe_env_silent) sample_ip t
      (fun _ _ => by simp [ProbeEnv.times_out, ProbeEnv.in_progress, probe_env_silent])
  have h3 : ∃ k, 1 ≤ k ∧ k ≤ 2 * 1 ∧ dead_world.expired k :=
    ⟨2, by decide, by decide, by
      unfold World.expired World.start_time
      decide⟩
  obtain ⟨st, m, hst, hrep, hpolls, hm, hw, -⟩ :=
    perform_windows_login_unreachable dead_world 1 h1 h2 h3
  exact ⟨h1, h2, h3, st, m, hst, hrep, hpolls, hm, hw⟩

/-- The round of the loop body in which the host answers: the wake
broadcast, `p` failed probes and the successful one. -/
theorem wake_round_success (w : World) (st : St) (p : Nat) (hp : p < 3)
    (hfail : ∀ j, j < p → w.reach (st.probes + j) 1000 = false)
    (hsucc : w.reach (st.probes + p) 1000 = true) :
    ∃ q, probe_up_to w 3 ((st.now_ms w).2.send_all w).2 = (true, q) ∧
      q.probes = st.probes + p + 1 ∧ q.wakes = st.wakes + 1 ∧ q.reads = st.reads + 1 ∧
      q.polls = st.polls ∧
      outline q.trace =
        outline st.trace ++ [Event.send_all_call (w.wake_result st.wakes)] ++
          List.replicate p (Event.reachable_call 1000 false) ++
          [Event.reachable_call 1000 true] := by
  obtain ⟨-, n2, n3, n4, n5, n6⟩ := now_ms_step w st
  obtain ⟨-, s2, s3, s4, s5, s6⟩ := send_all_step w (st.now_ms w).2
  obtain ⟨q, q1, q2, q3, q4, q5, q6⟩ :=
    probe_up_to_success w 3 p ((st.now_ms w).2.send_all w).2 hp
      (fun j hj => by rw [s2, n2]; exact hfail j hj)
      (by rw [s2, n2]; exact hsucc)
  refine ⟨q, q1, by omega, by omega, by omega, by omega, ?_⟩
  rw [q6, s6, n6, n3]

/-- The wake loop when the host first answers in its `(m + 1)`-th iteration,
after `p < 3` failed probes of that iteration, and the budget test does not
come out expired before: the loop ends with `pc_is_on = true` after `m`
unsuccessful rounds and the successful one. -/
theorem wake_loop_success (w : World) (start : Int) (p : Nat) (hp : p < 3) :
    ∀ (m : Nat) (st : St) (fuel : Nat), m < fuel →
      (∀ k, k < 2 * m + 1 → Int.tdiv (w.clock (st.reads + k)) 1000 - start < 30000) →
      (∀ j, j < 3 * m + p → w.reach (st.probes + j) 1000 = false) →
      w.reach (st.probes + (3 * m + p)) 1000 = true →
      ∃ st', wake_loop w start fuel st = some (true, st') ∧
        st'.probes = st.probes + (3 * m + p) + 1 ∧ st'.wakes = st.wakes + m + 1 ∧
        st'.polls = st.polls ∧
        outline st'.trace =
          outline st.trace ++ (List.range m).flatMap (fun i => wake_round w (st.wakes + i)) ++
            [Event.send_all_call (w.wake_result (st.wakes + m))] ++
            List.replicate p (Event.reachable_call 1000 false) ++
            [Event.reachable_call 1000 true] := by
  intro m
  induction m with
  | zero =>
    intro st fuel hfuel hclock hfail hsucc
    obtain ⟨fuel, rfl⟩ : ∃ f, fuel = f + 1 := ⟨fuel - 1, by omega⟩
    obtain ⟨n1, -⟩ := now_ms_step w st
    have h0 : (st.now_ms w).1 - start < 30000 := by
      rw [n1]
      simpa using hclock 0 (by omega)
    obtain ⟨q, q1, q2, q3, q4, q5, q6⟩ := wake_round_success w st p hp
      (fun j hj => hfail j (by omega)) (by simpa using hsucc)
    refine ⟨q, ?_, by omega, by omega, by omega, ?_⟩
    · rw [wake_loop_succ]
      simp only [h0, if_true, q1]
    · rw [q6]
      simp
  | succ m ih =>
    intro st fuel hfuel hclock hfail hsucc
    obtain ⟨fuel, rfl⟩ : ∃ f, fuel = f + 1 := ⟨fuel - 1, by omega⟩
    obtain ⟨n1, -⟩ := now_ms_step w st
    have h0 : (st.now_ms w).1 - start < 30000 := by
      rw [n1]
      simpa using hclock 0 (by omega)
    obtain ⟨r, r1, r2, r3, r4, r5, r6⟩ := wake_round_fail w st (fun j hj => hfail j (by omega))
    obtain ⟨c1, c2, c3, c4, c5, c6⟩ := now_ms_step w r
    have h1 : ¬ ((r.now_ms w).1 - start ≥ 30000) := by
      rw [c1, r4]
      have := hclock 1 (by omega)
      omega
    obtain ⟨st', e1, e2, e3, e4, e5⟩ := ih (r.now_ms w).2 fuel (by omega)
      (fun k hk => by
        rw [c4, r4, show st.reads + 1 + 1 + k = st.reads + (k + 2) by omega]
        exact hclock (k + 2) (by omega))
      (fun j hj => by
        rw [c2, r2, show st.probes + 3 + j = st.probes + (j + 3) by omega]
        exact hfail (j + 3) (by omega))
      (by
        rw [c2, r2, show st.probes + 3 + (3 * m + p) = st.probes + (3 * (m + 1) + p) by omega]
        exact hsucc)
    refine ⟨st', ?_, by omega, by omega, by omega, ?_⟩
    · rw [wake_loop_succ]
      simp only [h0, if_true, r1, Bool.false_eq_true, if_false, h1]
      exact e1
    · have hf : (fun i => wake_round w (st.wakes + 1 + i)) =
          (fun i => wake_round w (st.wakes + (i + 1))) := by
        funext i
        rw [show st.wakes + 1 + i = st.wakes + (i + 1) by omega]
      rw [e5, c6, r6, c3, r3, flatMap_range_succ (fun i => wake_round w (st.wakes + i)) m, hf,
        show st.wakes + 1 + m = st.wakes + (m + 1) by omega]
      simp only [List.append_assoc, Nat.add_zero]

/-- C10: whenever the link check passes, the initial probe fails, the first
successful probe is the `(p + 1)`-th probe (`p < 3`) of the `n`-th iteration
of the wake loop (`n ≥ 1`), the budget test does not come out expired at the
clock readings before, and the HID channel is ready, `perform_windows_login`
returns `ESP_OK` after exactly `n` wake broadcasts: `n - 1` of them followed
by three failed 1000 ms probes, the last by `p` failed probes and the
successful one; then come, in order, the LED call, a 7000 ms delay, Enter, a
500 ms delay, `hid_keyboard_type_string(WINDOWS_PASSWORD, 50)` and Enter. -/
theorem perform_windows_login_wake (w : World) (fuel n p : Nat) (hn : 1 ≤ n) (hp : p < 3)
    (hfuel : n ≤ fuel)
    (hwifi : wifi_manager_check_connection w.s_wifi_connected w.check_netif = ESP_OK)
    (h0 : w.reach 0 600 = false)
    (hfail : ∀ j, j < 3 * (n - 1) + p → w.reach (1 + j) 1000 = false)
    (hsucc : w.reach (1 + (3 * (n - 1) + p)) 1000 = true)
    (hclock : ∀ k, 1 ≤ k → k ≤ 2 * n - 1 → ¬ w.expired k)
    (hready : ∀ k, w.ready k = true) :
    ∃ st, perform_windows_login w fuel = some (ESP_OK, st) ∧ st.wakes = n ∧
      outline st.trace =
        [Event.reachable_call 600 false] ++ (List.range (n - 1)).flatMap (wake_round w) ++
          [Event.send_all_call (w.wake_result (n - 1))] ++
          List.replicate p (Event.reachable_call 1000 false) ++
          [Event.reachable_call 1000 true, Event.led_pc_connect, Event.delay 7000] ++
          enter_events ++ [Event.delay 500] ++
          (hid_keyboard_type_string w.hid w.ready (some w.cfg.WINDOWS_PASSWORD) 50 1).2.2 ++
          enter_events ∧
      reports st.trace =
        reports enter_events ++ expected_reports w.hid w.cfg.WINDOWS_PASSWORD ++
          reports enter_events := by
  obtain ⟨a1, a2, a3, a4, a5⟩ := at_loop_facts w h0
  obtain ⟨st', e1, e2, e3, e4, e5⟩ :=
    wake_loop_success w w.start_time p hp (n - 1) (St.at_loop w) fuel (by omega)
      (fun k hk => by
        rw [a3]
        have := hclock (1 + k) (by omega) (by omega)
        unfold World.expired at this
        omega)
      (fun j hj => by rw [a1]; exact hfail j hj)
      (by rw [a1]; exact hsucc)
  have hty := hid_keyboard_type_string_is_hid w.hid w.ready (some w.cfg.WINDOWS_PASSWORD) 50 1
  have htr := (type_string_on_ready_channel w.hid w.ready w.cfg.WINDOWS_PASSWORD 50 1
    hready).2
  have hpolls : st'.polls = 0 := by omega
  have hrun : perform_windows_login w fuel =
      some (ESP_OK,
        { (st'.led_pc_connect.delay 7000) with
          polls := (hid_keyboard_type_string w.hid w.ready (some w.cfg.WINDOWS_PASSWORD) 50
            1).2.1 + 1
          trace := st'.trace ++ [Event.led_pc_connect] ++ [Event.delay 7000] ++ enter_events ++
            [Event.delay 500] ++
            (hid_keyboard_type_string w.hid w.ready (some w.cfg.WINDOWS_PASSWORD) 50 1).2.2 ++
            enter_events }) := by
    rw [perform_windows_login_wake_path w fuel hwifi h0, e1]
    simp only [Bool.true_eq_false, if_false, if_true, type_and_submit_ready w _ hready]
    simp only [St.led_pc_connect, St.delay, hpolls, Nat.zero_add]
  have hout : outline (st'.trace ++ [Event.led_pc_connect] ++ [Event.delay 7000] ++
        enter_events ++ [Event.delay 500] ++
        (hid_keyboard_type_string w.hid w.ready (some w.cfg.WINDOWS_PASSWORD) 50 1).2.2 ++
        enter_events) =
      [Event.reachable_call 600 false] ++ (List.range (n - 1)).flatMap (wake_round w) ++
        [Event.send_all_call (w.wake_result (n - 1))] ++
        List.replicate p (Event.reachable_call 1000 false) ++
        [Event.reachable_call 1000 true, Event.led_pc_connect, Event.delay 7000] ++
        enter_events ++ [Event.delay 500] ++
        (hid_keyboard_type_string w.hid w.ready (some w.cfg.WINDOWS_PASSWORD) 50 1).2.2 ++
        enter_events := by
    simp only [outline_append, outline_of_hid hty, outline_of_hid enter_events_is_hid, e5, a5,
      a2, Nat.zero_add]
    simp [outline, Event.is_net_detail]
  refine ⟨_, hrun, ?_, hout, ?_⟩
  · show st'.wakes = n
    omega
  · show reports (st'.trace ++ [Event.led_pc_connect] ++ [Event.delay 7000] ++
        enter_events ++ [Event.delay 500] ++
        (hid_keyboard_type_string w.hid w.ready (some w.cfg.WINDOWS_PASSWORD) 50 1).2.2 ++
        enter_events) = _
    rw [← reports_outline, hout]
    simp only [reports_append, reports_wake_rounds, htr]
    simp [reports, Event.is_report]

theorem perform_windows_login_wake_witness :
    wifi_manager_check_connection waking_world.s_wifi_connected waking_world.check_netif =
      ESP_OK ∧
    waking_world.reach 0 600 = false ∧
    (∀ j, j < 3 * (2 - 1) + 1 → waking_world.reach (1 + j) 1000 = false) ∧
    waking_world.reach (1 + (3 * (2 - 1) + 1)) 1000 = true ∧
    (∀ k, 1 ≤ k → k ≤ 2 * 2 - 1 → ¬ waking_world.expired k) ∧
    (∀ k, waking_world.ready k = true) ∧
    ∃ st, perform_windows_login waking_world 2 = some (ESP_OK, st) ∧ st.wakes = 2 ∧
      reports st.trace =
        reports enter_events ++
          expected_reports waking_world.hid waking_world.cfg.WINDOWS_PASSWORD ++
          reports enter_events := by
  have h1 : wifi_manager_check_connection waking_world.s_wifi_connected
      waking_world.check_netif = ESP_OK := by decide
  have h2 : waking_world.reach 0 600 = false := by decide
  have h3 : ∀ j, j < 3 * (2 - 1) + 1 → waking_world.reach (1 + j) 1000 = false := by
    intro j hj
    interval_cases j <;> decide
  have h4 : waking_world.reach (1 + (3 * (2 - 1) + 1)) 1000 = true := by decide
  have h5 : ∀ k, 1 ≤ k → k ≤ 2 * 2 - 1 → ¬ waking_world.expired k := by
    intro k hk1 hk2
    unfold World.expired World.start_time
    interval_cases k <;> decide
  have h6 : ∀ k, waking_world.ready k = true := fun _ => rfl
  obtain ⟨st, hst, hw, -, hrep⟩ :=
    perform_windows_login_wake waking_world 2 2 1 (by decide) (by decide) (by decide)
      h1 h2 h3 h4 h5 h6
  exact ⟨h1, h2, h3, h4, h5, h6, st, hst, hw, hrep⟩

/-! ## Theorems: timeouts of the Enter presses (C11) -/

/-- The shared typing sequence, written out in terms of the three calls
into the keyboard channel. -/
theorem type_and_submit_eq (w : World) (st : St) :
    type_and_submit w st =
      if (hid_keyboard_type_string w.hid w.ready (some w.cfg.WINDOWS_PASSWORD) 50
          (hid_keyboard_press_enter w.ready st.polls).2.1).1 ≠ ESP_OK then
        ((hid_keyboard_type_string w.hid w.ready (some w.cfg.WINDOWS_PASSWORD) 50
            (hid_keyboard_press_enter w.ready st.polls).2.1).1,
          { st with
            polls := (hid_keyboard_type_string w.hid w.ready (some w.cfg.WINDOWS_PASSWORD) 50
              (hid_keyboard_press_enter w.ready st.polls).2.1).2.1
            trace := st.trace ++ (hid_keyboard_press_enter w.ready st.polls).2.2 ++
              [Event.delay 500] ++
              (hid_keyboard_type_string w.hid w.ready (some w.cfg.WINDOWS_PASSWORD) 50
                (hid_keyboard_press_enter w.ready st.polls).2.1).2.2 })
      else
        (ESP_OK,
          { st with
            polls := (hid_keyboard_press_enter w.ready
              (hid_keyboard_type_string w.hid w.ready (some w.cfg.WINDOWS_PASSWORD) 50
                (hid_keyboard_press_enter w.ready st.polls).2.1).2.1).2.1
            trace := st.trace ++ (hid_keyboard_press_enter w.ready st.polls).2.2 ++
              [Event.delay 500] ++
              (hid_keyboard_type_string w.hid w.ready (some w.cfg.WINDOWS_PASSWORD) 50
                (hid_keyboard_press_enter w.ready st.polls).2.1).2.2 ++
              (hid_keyboard_press_enter w.ready
                (hid_keyboard_type_string w.hid w.ready (some w.cfg.WINDOWS_PASSWORD) 50
                  (hid_keyboard_press_enter w.ready st.polls).2.1).2.1).2.2 }) := by
  rfl

/-- The function on the quick path: link up, initial probe succeeded. -/
theorem perform_windows_login_quick_path (w : World) (fuel : Nat)
    (hwifi : wifi_manager_check_connection w.s_wifi_connected w.check_netif = ESP_OK)
    (h0 : w.reach 0 600 = true) :
    perform_windows_login w fuel =
      some (type_and_submit w (St.init.check_host w 600).2.led_pc_connect) := by
  have hr : (St.init.check_host w 600).1 = true := h0
  unfold perform_windows_login
  simp only [hwifi, ne_eq, not_true_eq_false, if_false, hr, if_true]

/-- C11, the code at the failing input: in `submit_timeout_world` the run
reaches the typing phase, the password is typed, the call of
`hid_keyboard_press_enter` that should submit it starts at the readiness
evaluation 6 and returns `ESP_ERR_TIMEOUT` without a report, and
`perform_windows_login` nevertheless returns `ESP_OK`. -/
theorem perform_windows_login_ignores_enter_timeout :
    (hid_keyboard_press_enter submit_timeout_world.ready 6).1 = ESP_ERR_TIMEOUT ∧
    ∃ st, perform_windows_login submit_timeout_world 0 = some (ESP_OK, st) ∧
      st.polls = 2006 ∧
      reports st.trace =
        reports enter_events ++
          expected_reports submit_timeout_world.hid
            submit_timeout_world.cfg.WINDOWS_PASSWORD := by
  have hexp : hid_wait_ready (ready_first 6) 2000 6 =
      (false, 2006, List.replicate 2000 (Event.delay 1)) :=
    hid_wait_ready_expires (ready_first 6) 2000 6 (by decide)
      (fun k _ => by simp [ready_first])
  have henter : hid_keyboard_press_enter submit_timeout_world.ready 6 =
      (ESP_ERR_TIMEOUT, 2006, List.replicate 2000 (Event.delay 1)) := by
    show hid_keyboard_press_enter (ready_first 6) 6 = _
    simp only [hid_keyboard_press_enter, hid_keyboard_press_key, hexp, if_true]
  have hfirst : hid_keyboard_press_enter submit_timeout_world.ready 0 =
      (ESP_OK, 1, enter_events) := by
    decide
  have hty1 : (hid_keyboard_type_string submit_timeout_world.hid submit_timeout_world.ready
      (some submit_timeout_world.cfg.WINDOWS_PASSWORD) 50 1).1 = ESP_OK := by
    decide
  have hty2 : (hid_keyboard_type_string submit_timeout_world.hid submit_timeout_world.ready
      (some submit_timeout_world.cfg.WINDOWS_PASSWORD) 50 1).2.1 = 6 := by
    decide
  have hrep : reports (hid_keyboard_type_string submit_timeout_world.hid
      submit_timeout_world.ready (some submit_timeout_world.cfg.WINDOWS_PASSWORD) 50 1).2.2 =
      expected_reports submit_timeout_world.hid submit_timeout_world.cfg.WINDOWS_PASSWORD := by
    decide
  have hpr := wol_check_host_reachable_net_detail (submit_timeout_world.probe 0)
    (some submit_timeout_world.cfg.PC_IP_ADDRESS) 600
  have hpolls : (St.init.check_host submit_timeout_world 600).2.led_pc_connect.polls = 0 := rfl
  have htrace : reports (St.init.check_host submit_timeout_world 600).2.led_pc_connect.trace =
      [] := by
    simp only [St.check_host, St.led_pc_connect, St.init, List.nil_append]
    rw [show ∀ (e : Event) (l : List Event), e :: l ++ [Event.led_pc_connect] =
      [e] ++ l ++ [Event.led_pc_connect] from fun e l => by simp,
      reports_append, reports_append, reports_of_net_detail hpr]
    rfl
  have he1 : (hid_keyboard_press_enter submit_timeout_world.ready 6).1 = ESP_ERR_TIMEOUT := by
    rw [henter]
  have he2 : (hid_keyboard_press_enter submit_timeout_world.ready 6).2.1 = 2006 := by
    rw [henter]
  have he3 : reports (hid_keyboard_press_enter submit_timeout_world.ready 6).2.2 = [] := by
    rw [henter]
    simp only [reports, List.filter_eq_nil_iff]
    intro e he
    rw [List.eq_of_mem_replicate he]
    simp [Event.is_report]
  clear henter hexp
  have hrun : type_and_submit submit_timeout_world
      (St.init.check_host submit_timeout_world 600).2.led_pc_connect =
      (ESP_OK,
        { (St.init.check_host submit_timeout_world 600).2.led_pc_connect with
          polls := 2006
          trace := (St.init.check_host submit_timeout_world 600).2.led_pc_connect.trace ++
            enter_events ++ [Event.delay 500] ++
            (hid_keyboard_type_string submit_timeout_world.hid submit_timeout_world.ready
              (some submit_timeout_world.cfg.WINDOWS_PASSWORD) 50 1).2.2 ++
            (hid_keyboard_press_enter submit_timeout_world.ready 6).2.2 }) := by
    rw [type_and_submit_eq, hpolls, hfirst]
    dsimp only
    rw [hty2, if_neg (by rw [hty1]; decide), he2]
  refine ⟨he1,
    { (St.init.check_host submit_timeout_world 600).2.led_pc_connect with
      polls := 2006
      trace := (St.init.check_host submit_timeout_world 600).2.led_pc_connect.trace ++
        enter_events ++ [Event.delay 500] ++
        (hid_keyboard_type_string submit_timeout_world.hid submit_timeout_world.ready
          (some submit_timeout_world.cfg.WINDOWS_PASSWORD) 50 1).2.2 ++
        (hid_keyboard_press_enter submit_timeout_world.ready 6).2.2 }, ?_, rfl, ?_⟩
  · rw [perform_windows_login_quick_path submit_timeout_world 0 (by decide) (by decide), hrun]
  · simp only [reports_append, htrace, hrep, he3, List.nil_append, List.append_nil]
    rfl

/-! ## Theorems: the retry counter (C12, C13) -/

/-- One disconnect notification with the counter between 0 and `MAX_RETRY`. -/
theorem event_handler_disconnected (st : WifiState) (reason : Nat) :
    (event_handler st (.sta_disconnected reason)).s_retry_num =
      (if st.s_retry_num < MAX_RETRY then st.s_retry_num + 1 else st.s_retry_num) ∧
    (event_handler st (.sta_disconnected reason)).connect_calls =
      (if st.s_retry_num < MAX_RETRY then st.connect_calls + 1 else st.connect_calls) ∧
    (event_handler st (.sta_disconnected reason)).fail_bit =
      (if st.s_retry_num < MAX_RETRY then st.fail_bit else true) ∧
    (event_handler st (.sta_disconnected reason)).s_wifi_connected = false := by
  by_cases h : st.s_retry_num < MAX_RETRY <;> simp [event_handler, h]

/-- The state after `n` consecutive disconnect notifications, started with a
counter `r` between 0 and `MAX_RETRY`: the counter is `min (r + n) 5`, one
`esp_wifi_connect()` was made per increment, and the failure bit is set as
soon as a notification arrives with the counter at `MAX_RETRY`. -/
theorem disconnects_state :
    ∀ (reasons : List Nat) (st : WifiState), 0 ≤ st.s_retry_num → st.s_retry_num ≤ MAX_RETRY →
      (st.disconnects reasons).s_retry_num = min (st.s_retry_num + reasons.length) MAX_RETRY ∧
      ((st.disconnects reasons).connect_calls : Int) =
        st.connect_calls + (min (st.s_retry_num + reasons.length) MAX_RETRY - st.s_retry_num) ∧
      (st.disconnects reasons).fail_bit =
        (st.fail_bit || decide (MAX_RETRY < st.s_retry_num + reasons.length)) := by
  intro reasons
  induction reasons with
  | nil =>
    intro st h0 h5
    simp only [WifiState.disconnects, List.foldl_nil, List.length_nil, Nat.cast_zero, add_zero]
    refine ⟨by omega, by omega, ?_⟩
    have : ¬ (MAX_RETRY < st.s_retry_num) := by omega
    simp [this]
  | cons r rest ih =>
    intro st h0 h5
    obtain ⟨e1, e2, e3, -⟩ := event_handler_disconnected st r
    have hstep : st.disconnects (r :: rest) =
        (event_handler st (.sta_disconnected r)).disconnects rest := rfl
    rw [hstep]
    by_cases hlt : st.s_retry_num < MAX_RETRY
    · simp only [hlt, if_true] at e1 e2 e3
      obtain ⟨i1, i2, i3⟩ := ih (event_handler st (.sta_disconnected r))
        (by rw [e1]; omega) (by rw [e1]; omega)
      rw [i1, i2, i3, e1, e2, e3]
      simp only [List.length_cons, Nat.cast_add, Nat.cast_one]
      refine ⟨by congr 1; omega, by omega, ?_⟩
      congr 2
      apply propext
      constructor <;> intro h <;> omega
    · simp only [hlt, if_false] at e1 e2 e3
      obtain ⟨i1, i2, i3⟩ := ih (event_handler st (.sta_disconnected r))
        (by rw [e1]; omega) (by rw [e1]; omega)
      rw [i1, i2, i3, e1, e2, e3]
      simp only [List.length_cons, Nat.cast_add, Nat.cast_one]
      have h5' : st.s_retry_num = MAX_RETRY := by omega
      refine ⟨by omega, by omega, ?_⟩
      have : MAX_RETRY < st.s_retry_num + ((rest.length : Int) + 1) := by omega
      simp [this]

/-- C12, counterexample: started with a retry counter of 0, after exactly
`MAX_RETRY` = 5 consecutive disconnect notifications the counter is 5 and
five reconnects have been issued, but `WIFI_FAIL_BIT` is not set: the failure
has not been signalled. -/
theorem five_disconnects_do_not_signal_failure :
    WifiState.init.s_retry_num = 0 ∧
    (WifiState.init.disconnects [0, 0, 0, 0, 0]).fail_bit = false ∧
    (WifiState.init.disconnects [0, 0, 0, 0, 0]).s_retry_num = 5 ∧
    (WifiState.init.disconnects [0, 0, 0, 0, 0]).connect_calls = 5 := by
  decide

/-- C12, as amended: started with a retry counter of 0 and with no
intervening address acquisition, each of the first `MAX_RETRY` = 5
consecutive disconnect notifications issues one `esp_wifi_connect()` and
leaves `WIFI_FAIL_BIT` as it was; the sixth notification sets
`WIFI_FAIL_BIT`, and from the sixth on no notification issues a further
`esp_wifi_connect()`: the number of calls stays at five and the counter at 5. -/
theorem disconnects_signal_failure_at_sixth (st : WifiState) (reasons : List Nat)
    (h0 : st.s_retry_num = 0) :
    (reasons.length ≤ 5 →
      (st.disconnects reasons).s_retry_num = reasons.length ∧
      (st.disconnects reasons).connect_calls = st.connect_calls + reasons.length ∧
      (st.disconnects reasons).fail_bit = st.fail_bit) ∧
    (6 ≤ reasons.length →
      (st.disconnects reasons).s_retry_num = MAX_RETRY ∧
      (st.disconnects reasons).connect_calls = st.connect_calls + 5 ∧
      (st.disconnects reasons).fail_bit = true) := by
  have hM : MAX_RETRY = 5 := rfl
  obtain ⟨e1, e2, e3⟩ := disconnects_state reasons st (by omega) (by omega)
  rw [h0] at e1 e2 e3
  constructor
  · intro hle
    refine ⟨by rw [e1]; omega, by omega, ?_⟩
    rw [e3]
    have : ¬ (MAX_RETRY < 0 + (reasons.length : Int)) := by omega
    rw [decide_eq_false this, Bool.or_false]
  · intro hge
    refine ⟨by rw [e1]; omega, by omega, ?_⟩
    rw [e3]
    have : MAX_RETRY < 0 + (reasons.length : Int) := by omega
    rw [decide_eq_true this, Bool.or_true]

theorem disconnects_signal_failure_at_sixth_witness :
    WifiState.init.s_retry_num = 0 ∧
    (6 ≤ [1, 2, 3, 4, 5, 6, 7].length →
      (WifiState.init.disconnects [1, 2, 3, 4, 5, 6, 7]).s_retry_num = MAX_RETRY ∧
      (WifiState.init.disconnects [1, 2, 3, 4, 5, 6, 7]).connect_calls =
        WifiState.init.connect_calls + 5 ∧
      (WifiState.init.disconnects [1, 2, 3, 4, 5, 6, 7]).fail_bit = true) :=
  ⟨rfl, (disconnects_signal_failure_at_sixth WifiState.init [1, 2, 3, 4, 5, 6, 7] rfl).2⟩

/-- Every action keeps the retry counter between 0 and `MAX_RETRY`. -/
theorem step_retry_bounds (st : WifiState) (a : WifiAction)
    (h : 0 ≤ st.s_retry_num ∧ st.s_retry_num ≤ MAX_RETRY) :
    0 ≤ (st.step a).s_retry_num ∧ (st.step a).s_retry_num ≤ MAX_RETRY := by
  cases a with
  | event e =>
    cases e with
    | sta_start => exact h
    | sta_disconnected r =>
      obtain ⟨e1, -⟩ := event_handler_disconnected st r
      show 0 ≤ (event_handler st (.sta_disconnected r)).s_retry_num ∧
        (event_handler st (.sta_disconnected r)).s_retry_num ≤ MAX_RETRY
      rw [e1]
      have hM : MAX_RETRY = 5 := rfl
      split_ifs <;> omega
    | got_ip ok =>
      simp only [WifiState.step, event_handler]
      split_ifs <;> simp
    | other => exact h
  | init => exact h
  | connect => exact h
  | disconnect => exact h
  | is_connected => exact h
  | get_ip => exact h
  | check_connection => exact h

theorem run_retry_bounds :
    ∀ (actions : List WifiAction) (st : WifiState),
      0 ≤ st.s_retry_num ∧ st.s_retry_num ≤ MAX_RETRY →
      0 ≤ (st.run actions).s_retry_num ∧ (st.run actions).s_retry_num ≤ MAX_RETRY := by
  intro actions
  induction actions with
  | nil => intro st h; exact h
  | cons a rest ih =>
    intro st h
    exact ih (st.step a) (step_retry_bounds st a h)

/-- C13: in every state reachable from the initial state by any sequence of
link events (station start, disconnect, address acquired, any other event)
and calls of the public functions, the retry counter satisfies
`0 ≤ s_retry_num ≤ MAX_RETRY`, and it is 0 immediately after every
address-acquired event. -/
theorem retry_counter_invariant (actions : List WifiAction) :
    0 ≤ (WifiState.init.run actions).s_retry_num ∧
    (WifiState.init.run actions).s_retry_num ≤ MAX_RETRY ∧
    ∀ task_create_pass,
      (WifiState.init.run (actions ++ [.event (.got_ip task_create_pass)])).s_retry_num = 0 := by
  obtain ⟨h1, h2⟩ := run_retry_bounds actions WifiState.init ⟨by decide, by decide⟩
  refine ⟨h1, h2, ?_⟩
  intro ok
  simp only [WifiState.run, List.foldl_append, List.foldl_cons, List.foldl_nil, WifiState.step,
    event_handler]
  split_ifs <;> rfl

/-! ## Theorems: the authorization check (C14, C15) -/

/-- The inner loop succeeds exactly when the needle, up to `tolower`, starts
the rest of the haystack. -/
theorem match_at_iff_starts :
    ∀ (needle p : CStr), match_at p needle = true ↔ needle.map tolower <+: p.map tolower := by
  intro needle
  induction needle with
  | nil => intro p; simp [match_at]
  | cons d needle ih =>
    intro p
    cases p with
    | nil => simp [match_at]
    | cons c p =>
      simp only [match_at, List.map_cons, List.cons_prefix_cons]
      by_cases h : tolower c = tolower d
      · simp only [h, if_true, true_and]
        exact ih p
      · simp only [h, if_false, Bool.false_eq_true, false_iff, not_and]
        intro h'
        exact absurd h'.symm h

/-- The outer loop succeeds exactly when a non-empty needle, up to `tolower`,
is a contiguous part of the haystack. -/
theorem strcasestr_loop_iff_contains (needle : CStr) (hne : needle ≠ []) :
    ∀ (h : CStr), strcasestr_loop needle h = true ↔ needle.map tolower <:+: h.map tolower := by
  intro h
  induction h with
  | nil => simp [strcasestr_loop, hne]
  | cons c rest ih =>
    rw [List.map_cons, List.infix_cons_iff, ← List.map_cons, ← match_at_iff_starts, ← ih]
    simp only [strcasestr_loop]
    split_ifs with hm <;> simp [hm]

theorem occurs_iff_contains (needle text : CStr) :
    occurs_ignoring_case needle text ↔ needle.map tolower <:+: text.map tolower := by
  constructor
  · rintro ⟨pre, mid, post, rfl, hmid⟩
    exact ⟨pre.map tolower, post.map tolower, by simp [hmid]⟩
  · rintro ⟨s, t, hst⟩
    obtain ⟨l₁, post, hl, h1, h2⟩ := List.append_eq_map_iff.1 hst
    obtain ⟨pre, mid, hl', h3, h4⟩ := List.map_eq_append_iff.1 h1
    exact ⟨pre, mid, post, by rw [hl, hl'], h4⟩

/-- C15: for every non-null extracted text, `authenticate_url` (that is
`strcasestr_simple` with the configured string as needle) returns true if and
only if the configured string occurs in the text as a contiguous substring
when ASCII letter case is ignored; with a non-null text an empty needle
always matches; a null text or a null needle never matches. -/
theorem authenticate_url_iff_occurs (AUTH_URL text : CStr) :
    (authenticate_url AUTH_URL (some text) = true ↔ occurs_ignoring_case AUTH_URL text) ∧
    strcasestr_simple (some text) (some []) = true ∧
    (∀ needle : Option CStr, strcasestr_simple none needle = false) ∧
    (∀ haystack : Option CStr, strcasestr_simple haystack none = false) := by
  refine ⟨?_, rfl, ?_, ?_⟩
  · rw [occurs_iff_contains]
    unfold authenticate_url strcasestr_simple
    cases hA : AUTH_URL with
    | nil => simp
    | cons a rest =>
      simp only [List.length_cons, Nat.add_one_ne_zero, if_false]
      exact strcasestr_loop_iff_contains (a :: rest) (by simp) text
  · intro needle
    cases needle <;> rfl
  · intro haystack
    cases haystack <;> rfl

/-- The authentication step calls the login exactly when a URL is extracted
and matches. -/
theorem authenticate_card_login (AUTH_URL : CStr) (ndef_data : List Nat) :
    AppEvent.perform_windows_login ∈ authenticate_card AUTH_URL ndef_data ↔
      ∃ url, extract_url_from_ndef (some ndef_data) ndef_data.length true 256 = some url ∧
        authenticate_url AUTH_URL (some (c_string url)) = true := by
  unfold authenticate_card
  cases hx : extract_url_from_ndef (some ndef_data) ndef_data.length true 256 with
  | none => simp
  | some url =>
    by_cases ha : authenticate_url AUTH_URL (some (c_string url)) = true
    · simp [ha]
    · simp [ha]

theorem authenticate_card_login_count (AUTH_URL : CStr) (ndef_data : List Nat) :
    (authenticate_card AUTH_URL ndef_data).count AppEvent.perform_windows_login ≤ 1 := by
  unfold authenticate_card
  cases extract_url_from_ndef (some ndef_data) ndef_data.length true 256 with
  | none => simp
  | some url =>
    by_cases ha : authenticate_url AUTH_URL (some (c_string url)) = true
    · simp [ha]
    · simp [ha]

/-- C14: in one card-processing iteration of `app_main`,
`perform_windows_login` is invoked only when `extract_url_from_ndef`
succeeded on the data read from the card and `authenticate_url` returned true
for the extracted text (and then it is invoked, once); it is not invoked for
a card whose text does not match or from which no URL was extracted. -/
theorem login_only_when_authorized (AUTH_URL : CStr) (env : CardEnv) :
    (AppEvent.perform_windows_login ∈ card_iteration AUTH_URL env ↔
      env.target_found = true ∧ env.in_list_ok = true ∧ env.get_model_ok = true ∧
      ∃ page_max, env.page_max = some page_max ∧
        collect_ndef env page_max 4 0 [] ≠ [] ∧
        ∃ url,
          extract_url_from_ndef (some (collect_ndef env page_max 4 0 []))
            (collect_ndef env page_max 4 0 []).length true 256 = some url ∧
          authenticate_url AUTH_URL (some (c_string url)) = true) ∧
    (card_iteration AUTH_URL env).count AppEvent.perform_windows_login ≤ 1 := by
  constructor
  · unfold card_iteration
    by_cases h1 : env.target_found = true
    · by_cases h2 : env.in_list_ok = true
      · by_cases h3 : env.get_model_ok = true
        · cases h4 : env.page_max with
          | none => simp [h1, h2, h3]
          | some page_max =>
            by_cases h5 : (collect_ndef env page_max 4 0 []).length = 0
            · have h5' : collect_ndef env page_max 4 0 [] = [] := List.length_eq_zero.1 h5
              simp [h1, h2, h3, h5']
            · have h5' : collect_ndef env page_max 4 0 [] ≠ [] :=
                fun h => h5 (by rw [h]; rfl)
              simp only [h1, h2, h3, h5, if_true, if_false, Bool.true_eq_false,
                List.mem_append, List.mem_singleton, authenticate_card_login, true_and,
                Option.some.injEq, exists_eq_left', ne_eq, h5', not_false_eq_true]
              constructor
              · rintro (h | h)
                · exact h
                · exact absurd h (by simp)
              · intro h
                exact Or.inl h
        · simp [h1, h2, h3]
      · simp [h1, h2]
    · simp [h1]
  · unfold card_iteration
    by_cases h1 : env.target_found = true
    · by_cases h2 : env.in_list_ok = true
      · by_cases h3 : env.get_model_ok = true
        · cases h4 : env.page_max with
          | none => simp [h1, h2, h3]
          | some page_max =>
            by_cases h5 : (collect_ndef env page_max 4 0 []).length = 0
            · simp [h1, h2, h3, h5]
            · simp only [h1, h2, h3, h5, if_true, if_false, Bool.true_eq_false,
                List.count_append]
              have := authenticate_card_login_count AUTH_URL (collect_ndef env page_max 4 0 [])
              have h0 : List.count AppEvent.perform_windows_login [AppEvent.delay 1000] = 0 := by
                decide
              omega
        · simp [h1, h2, h3]
      · simp [h1, h2]
    · simp [h1]

theorem login_only_when_authorized_witness :
    AppEvent.perform_windows_login ∈ card_iteration sample_auth sample_card :=
  (login_only_when_authorized sample_auth sample_card).1.2
    ⟨rfl, rfl, rfl, 45, rfl, by decide, [120, 109, 121, 99, 97, 114, 100, 120], by decide,
      by decide⟩

/-- The sample card is accepted with the authorization string `MyCard`; a
card without the NDEF header and a card whose text does not contain the
authorization string are not. -/
theorem card_iteration_examples :
    card_iteration sample_auth sample_card =
      [AppEvent.led_auth_success, AppEvent.perform_windows_login, AppEvent.delay 1000] ∧
    card_iteration sample_auth
        { sample_card with read_page := fun _ => some (List.replicate 16 0) } =
      [AppEvent.led_auth_fail, AppEvent.delay 1000] ∧
    card_iteration [90] sample_card = [AppEvent.led_auth_fail, AppEvent.delay 1000] := by
  decide

/-! ## Theorems: `hid_keyboard_press_key` and `hid_wait_ready` (C16, C17) -/

/-- The number of evaluations a wait uses, its result and its delays, for
any iteration bound that is large enough: with `n = max 1 (timeout_ms -
elapsed)` evaluations allowed, the loop stops at the first evaluation that is
true, or after `n` evaluations that are all false. -/
theorem hid_wait_ready_loop_spec (ready : Nat → Bool) (timeout_ms : Nat) :
    ∀ (fuel elapsed t : Nat), max 1 (timeout_ms - elapsed) ≤ fuel →
      (∃ k, k < max 1 (timeout_ms - elapsed) ∧ ready (t + k) = true ∧
        (∀ i, i < k → ready (t + i) = false) ∧
        hid_wait_ready_loop ready timeout_ms fuel elapsed t =
          (true, t + k + 1, List.replicate k (Event.delay 1))) ∨
      ((∀ i, i < max 1 (timeout_ms - elapsed) → ready (t + i) = false) ∧
        hid_wait_ready_loop ready timeout_ms fuel elapsed t =
          (false, t + max 1 (timeout_ms - elapsed),
            List.replicate (max 1 (timeout_ms - elapsed)) (Event.delay 1))) := by
  intro fuel
  induction fuel with
  | zero => intro elapsed t h; omega
  | succ fuel ih =>
    intro elapsed t hfuel
    simp only [hid_wait_ready_loop]
    by_cases hr : ready t = true
    · left
      refine ⟨0, by omega, by simpa using hr, by intro i hi; omega, ?_⟩
      simp [hr]
    · have hr' : ready t = false := by simpa using hr
      by_cases he : elapsed + 1 ≥ timeout_ms
      · right
        have hone : max 1 (timeout_ms - elapsed) = 1 := by omega
        rw [hone]
        refine ⟨?_, ?_⟩
        · intro i hi
          have : i = 0 := by omega
          subst this
          simpa using hr'
        · simp [hr', he]
      · have hmax : max 1 (timeout_ms - elapsed) = max 1 (timeout_ms - (elapsed + 1)) + 1 := by
          omega
        rcases ih (elapsed + 1) (t + 1) (by omega) with
          ⟨k, hk, hrk, hlt, heq⟩ | ⟨hall, heq⟩
        · left
          refine ⟨k + 1, by omega, ?_, ?_, ?_⟩
          · rw [show t + (k + 1) = t + 1 + k by omega]; exact hrk
          · intro i hi
            cases i with
            | zero => simpa using hr'
            | succ i =>
              rw [show t + (i + 1) = t + 1 + i by omega]
              exact hlt i (by omega)
          · simp only [hr', Bool.false_eq_true, if_false, he, heq, List.replicate_succ]
            rw [show t + 1 + k + 1 = t + (k + 1) + 1 by omega]
        · right
          refine ⟨?_, ?_⟩
          · intro i hi
            cases i with
            | zero => simpa using hr'
            | succ i =>
              rw [show t + (i + 1) = t + 1 + i by omega]
              exact hall i (by omega)
          · simp only [hr', Bool.false_eq_true, if_false, he, heq]
            rw [hmax, List.replicate_succ,
              show t + 1 + max 1 (timeout_ms - (elapsed + 1)) =
                t + (max 1 (timeout_ms - (elapsed + 1)) + 1) by omega]

/-- C17: for every `timeout_ms` and every sequence of readiness
observations, `hid_wait_ready` terminates after at most `max 1 timeout_ms`
evaluations of the predicate (a larger iteration bound changes nothing); it
uses at least one evaluation; it returns true if and only if the predicate is
true at one of these `max 1 timeout_ms` evaluations, and false if it is true
at none of them. -/
theorem hid_wait_ready_bounded (ready : Nat → Bool) (timeout_ms t : Nat) :
    (∀ extra, hid_wait_ready_loop ready timeout_ms (max 1 timeout_ms + extra) 0 t =
      hid_wait_ready ready timeout_ms t) ∧
    t + 1 ≤ (hid_wait_ready ready timeout_ms t).2.1 ∧
    (hid_wait_ready ready timeout_ms t).2.1 ≤ t + max 1 timeout_ms ∧
    ((hid_wait_ready ready timeout_ms t).1 = true ↔
      ∃ k, k < max 1 timeout_ms ∧ ready (t + k) = true) ∧
    ((∀ k, k < max 1 timeout_ms → ready (t + k) = false) →
      (hid_wait_ready ready timeout_ms t).1 = false) := by
  have hspec := hid_wait_ready_loop_spec ready timeout_ms (max 1 timeout_ms) 0 t (by simp)
  simp only [Nat.sub_zero] at hspec
  have hrun : hid_wait_ready ready timeout_ms t =
      hid_wait_ready_loop ready timeout_ms (max 1 timeout_ms) 0 t := rfl
  refine ⟨?_, ?_, ?_, ?_, ?_⟩
  · intro extra
    rw [hrun]
    exact hid_wait_ready_loop_fuel ready timeout_ms _ _ 0 t (by simp) (by simp)
  · rcases hspec with ⟨k, hk, -, -, heq⟩ | ⟨-, heq⟩
    · rw [hrun, heq]
      simp only []
      omega
    · rw [hrun, heq]
      simp only []
      omega
  · rcases hspec with ⟨k, hk, -, -, heq⟩ | ⟨-, heq⟩
    · rw [hrun, heq]
      simp only []
      omega
    · rw [hrun, heq]
  · rcases hspec with ⟨k, hk, hrk, -, heq⟩ | ⟨hall, heq⟩
    · rw [hrun, heq]
      simp only [true_iff]
      exact ⟨k, hk, hrk⟩
    · rw [hrun, heq]
      simp only [Bool.false_eq_true, false_iff, not_exists, not_and]
      intro k hk
      rw [hall k hk]
      simp
  · intro hall
    rcases hspec with ⟨k, hk, hrk, -, heq⟩ | ⟨-, heq⟩
    · rw [hall k hk] at hrk
      exact absurd hrk (by simp)
    · rw [hrun, heq]

/-- C16: for every key code, `hid_keyboard_press_key` first performs the
readiness wait bounded by 2000 evaluations; if the channel becomes ready it
then emits exactly two reports, a press report with modifier 0 and the code
in slot 0 (the other slots zero) followed by an all-zero release report, and
returns `ESP_OK`; if the wait expires it emits no report and returns
`ESP_ERR_TIMEOUT`. -/
theorem hid_keyboard_press_key_outcome (ready : Nat → Bool) (key_code t : Nat) :
    ((hid_wait_ready ready 2000 t).1 = true →
      (hid_keyboard_press_key ready key_code t).1 = ESP_OK ∧
      (hid_keyboard_press_key ready key_code t).2.2 =
        (hid_wait_ready ready 2000 t).2.2 ++
          [Event.report 0 [key_code, 0, 0, 0, 0, 0], Event.delay 50,
           Event.report 0 [0, 0, 0, 0, 0, 0]] ∧
      reports (hid_keyboard_press_key ready key_code t).2.2 =
        [Event.report 0 [key_code, 0, 0, 0, 0, 0], Event.report 0 [0, 0, 0, 0, 0, 0]]) ∧
    ((hid_wait_ready ready 2000 t).1 = false →
      (hid_keyboard_press_key ready key_code t).1 = ESP_ERR_TIMEOUT ∧
      (hid_keyboard_press_key ready key_code t).2.2 = (hid_wait_ready ready 2000 t).2.2 ∧
      reports (hid_keyboard_press_key ready key_code t).2.2 = []) ∧
    (hid_keyboard_press_key ready key_code t).2.1 = (hid_wait_ready ready 2000 t).2.1 ∧
    (hid_keyboard_press_key ready key_code t).2.1 ≤ t + 2000 := by
  have hb : (hid_wait_ready ready 2000 t).2.1 ≤ t + 2000 := by
    rcases hid_wait_ready_loop_spec ready 2000 (max 1 2000) 0 t (by simp) with
      ⟨k, hk, -, -, heq⟩ | ⟨-, heq⟩
    · rw [show hid_wait_ready ready 2000 t = _ from heq]
      simp only [Nat.sub_zero] at hk ⊢
      omega
    · rw [show hid_wait_ready ready 2000 t = _ from heq]
      simp
  have hp : (hid_keyboard_press_key ready key_code t).2.1 = (hid_wait_ready ready 2000 t).2.1 := by
    unfold hid_keyboard_press_key
    simp only
    split_ifs <;> rfl
  refine ⟨?_, ?_, hp, by rw [hp]; exact hb⟩
  · intro h
    unfold hid_keyboard_press_key
    simp only [h, Bool.true_eq_false, if_false, no_keys, true_and]
    rw [reports_append, hid_wait_ready_reports]
    rfl
  · intro h
    unfold hid_keyboard_press_key
    simp only [h, if_true, true_and]
    exact hid_wait_ready_reports ready 2000 t

/-! ## Theorems: the per-port budget and the port loop (C18, C19) -/

theorem to_int32_of_lt (x : Nat) (h : x < 2 ^ 31) : to_int32 (x : Int) = x := by
  unfold to_int32
  omega

theorem to_int32_of_ge (x : Nat) (h1 : 2 ^ 31 ≤ x) (h2 : x < 2 ^ 32) :
    to_int32 (x : Int) = (x : Int) - 2 ^ 32 := by
  unfold to_int32
  omega

theorem tdiv_three_of_neg (a : Int) (h : a < 0) : Int.tdiv a 3 ≤ 0 := by
  have h1 : a = -(-a) := by omega
  rw [h1, Int.neg_tdiv]
  have := Int.tdiv_nonneg (a := -a) (b := 3) (by omega) (by omega)
  omega

/-- Every `select` of the port loop waits for the per-port budget. -/
theorem probe_port_select (env : ProbeEnv) (ip : CStr) (port : Nat) (tmo tmo' : Int)
    (h : Event.select tmo' ∈ (probe_port env ip port tmo).2) : tmo' = tmo := by
  unfold probe_port at h
  by_cases hs : env.socket_fd < 0
  · simp [hs] at h
  · simp only [hs, if_false] at h
    cases haddr : env.inet_aton ip with
    | none => simp [haddr] at h
    | some addr =>
      simp only [haddr] at h
      split_ifs at h <;> simp at h <;> exact h

theorem probe_ports_select (env : Nat → ProbeEnv) (ip : CStr) (tmo tmo' : Int) :
    ∀ (ps : List Nat) (i : Nat), Event.select tmo' ∈ (probe_ports env ip tmo ps i).2 →
      tmo' = tmo := by
  intro ps
  induction ps with
  | nil => intro i h; simp [probe_ports] at h
  | cons p ps ih =>
    intro i h
    simp only [probe_ports] at h
    split_ifs at h
    · exact probe_port_select _ _ _ _ _ h
    · simp only [List.mem_append] at h
      rcases h with h | h
      · exact probe_port_select _ _ _ _ _ h
      · exact ih _ h

/-- C18, counterexample: for the 32-bit value `timeout_ms = 2^31` the
per-port budget is 150 ms, not `max (timeout_ms / 3) 150 = 715827882` ms. -/
theorem per_port_timeout_wraps :
    (2 ^ 31 : Nat) < 2 ^ 32 ∧ per_port_timeout_ms (2 ^ 31) 3 = 150 ∧
    max ((2 ^ 31 : Nat) / 3) 150 = 715827882 ∧
    per_port_timeout_ms (2 ^ 31) ports.length ≠ ((max ((2 ^ 31 : Nat) / 3) 150 : Nat) : Int) := by
  decide

/-- C18, as amended: for every 32-bit unsigned `timeout_ms` below `2^31` the
per-port budget of `wol_check_host_reachable` is `max (timeout_ms / 3) 150`
(integer division by the three ports, raised to 150 ms); for `timeout_ms` of
`2^31` or more the cast `(int)timeout_ms` is negative and the budget is
150 ms; it is never below 150 ms, and it is the timeout of every `select`
the function performs. -/
theorem per_port_timeout_value (timeout_ms : Nat) (h : timeout_ms < 2 ^ 32) :
    (timeout_ms < 2 ^ 31 →
      per_port_timeout_ms timeout_ms ports.length = ((max (timeout_ms / 3) 150 : Nat) : Int)) ∧
    (2 ^ 31 ≤ timeout_ms → per_port_timeout_ms timeout_ms ports.length = 150) ∧
    150 ≤ per_port_timeout_ms timeout_ms ports.length ∧
    (∀ (env : Nat → ProbeEnv) (ip : CStr) (tmo : Int),
      Event.select tmo ∈ (wol_check_host_reachable env (some ip) timeout_ms).2 →
      tmo = per_port_timeout_ms timeout_ms ports.length) := by
  have hp : ports.length = 3 := rfl
  have hdef : per_port_timeout_ms timeout_ms ports.length =
      if Int.tdiv (to_int32 timeout_ms) 3 < 150 then 150
      else Int.tdiv (to_int32 timeout_ms) 3 := by
    rw [hp]
    rfl
  refine ⟨?_, ?_, ?_, ?_⟩
  · intro hlt
    rw [hdef, to_int32_of_lt timeout_ms hlt,
      Int.tdiv_eq_ediv (Int.ofNat_nonneg _) (by decide)]
    split_ifs <;> omega
  · intro hge
    rw [hdef, to_int32_of_ge timeout_ms hge h]
    have := tdiv_three_of_neg ((timeout_ms : Int) - 2 ^ 32) (by omega)
    rw [if_pos (by omega)]
  · rw [hdef]
    split_ifs <;> omega
  · intro env ip tmo hmem
    unfold wol_check_host_reachable at hmem
    exact probe_ports_select _ _ _ _ _ _ hmem

theorem per_port_timeout_value_witness :
    (600 : Nat) < 2 ^ 32 ∧ per_port_timeout_ms 600 ports.length = 200 ∧
    per_port_timeout_ms 300 ports.length = 150 ∧
    150 ≤ per_port_timeout_ms 4000000000 ports.length :=
  ⟨by decide, (per_port_timeout_value 600 (by decide)).1 (by decide),
    (per_port_timeout_value 300 (by decide)).1 (by decide),
    (per_port_timeout_value 4000000000 (by decide)).2.2.1⟩

/-- One pass of the loop body: one `socket` call, and a `connect` exactly
when the socket was created and the address parsed. -/
theorem probe_port_calls (env : ProbeEnv) (ip : CStr) (port : Nat) (tmo : Int) :
    socket_calls (probe_port env ip port tmo).2 = 1 ∧
    connect_ports (probe_port env ip port tmo).2 =
      if (decide (0 ≤ env.socket_fd) && (env.inet_aton ip).isSome) = true then [port] else [] := by
  unfold probe_port
  by_cases hs : env.socket_fd < 0
  · have hs' : ¬ (0 ≤ env.socket_fd) := by omega
    simp [hs, hs', socket_calls, connect_ports]
  · have hs' : 0 ≤ env.socket_fd := by omega
    cases haddr : env.inet_aton ip with
    | none => simp [hs, hs', socket_calls, connect_ports]
    | some addr =>
      simp only [hs, hs', if_false, decide_True, Option.isSome_some, Bool.and_self, if_true]
      split_ifs <;> simp [socket_calls, connect_ports]

theorem socket_calls_append (a b : List Event) :
    socket_calls (a ++ b) = socket_calls a + socket_calls b := by
  simp [socket_calls]

theorem connect_ports_append (a b : List Event) :
    connect_ports (a ++ b) = connect_ports a ++ connect_ports b := by
  simp [connect_ports]

/-- C19, counterexample: the result is false without a connection attempt on
each port: for a null host nothing is attempted at all, and for a host for
which `socket()` fails on every port no `connect` is made. -/
theorem wol_check_host_reachable_false_without_connect :
    wol_check_host_reachable (fun _ => probe_env_open) none 600 = (false, []) ∧
    (wol_check_host_reachable (fun _ => probe_env_no_socket) (some sample_ip) 600).1 = false ∧
    connect_ports
      (wol_check_host_reachable (fun _ => probe_env_no_socket) (some sample_ip) 600).2 = [] := by
  decide

/-- C19, as amended: for a non-null host, whenever the result is false the
loop has gone through all three ports (one `socket` call for each), and the
connection attempts made are exactly those on the ports, in the order 3389,
135, 445, for which the socket was created and the address was parsed; when
that holds for all three ports, a connection was attempted on 3389, 135 and
445 in this order.  For a null host the result is false at once. -/
theorem wol_check_host_reachable_false_exhausts (env : Nat → ProbeEnv) (ip : CStr)
    (timeout_ms : Nat)
    (h : (wol_check_host_reachable env (some ip) timeout_ms).1 = false) :
    socket_calls (wol_check_host_reachable env (some ip) timeout_ms).2 = 3 ∧
    connect_ports (wol_check_host_reachable env (some ip) timeout_ms).2 =
      attempted_ports env ip ∧
    ((∀ i, i < 3 → (env i).attempted ip) →
      connect_ports (wol_check_host_reachable env (some ip) timeout_ms).2 = [3389, 135, 445]) ∧
    (∀ env' : Nat → ProbeEnv, wol_check_host_reachable env' none timeout_ms = (false, [])) := by
  have hnull : ∀ env' : Nat → ProbeEnv,
      wol_check_host_reachable env' none timeout_ms = (false, []) := fun _ => rfl
  have hrun : wol_check_host_reachable env (some ip) timeout_ms =
      probe_ports env ip (per_port_timeout_ms timeout_ms 3) [3389, 135, 445] 0 := rfl
  rw [hrun] at h ⊢
  obtain ⟨s0, c0⟩ := probe_port_calls (env 0) ip 3389 (per_port_timeout_ms timeout_ms 3)
  obtain ⟨s1, c1⟩ := probe_port_calls (env 1) ip 135 (per_port_timeout_ms timeout_ms 3)
  obtain ⟨s2, c2⟩ := probe_port_calls (env 2) ip 445 (per_port_timeout_ms timeout_ms 3)
  simp only [probe_ports, Nat.zero_add] at h ⊢
  by_cases h0 : (probe_port (env 0) ip 3389 (per_port_timeout_ms timeout_ms 3)).1 = true
  · simp [h0] at h
  by_cases h1 : (probe_port (env 1) ip 135 (per_port_timeout_ms timeout_ms 3)).1 = true
  · simp [h0, h1] at h
  by_cases h2 : (probe_port (env 2) ip 445 (per_port_timeout_ms timeout_ms 3)).1 = true
  · simp [h0, h1, h2] at h
  simp only [h0, h1, h2, if_false, Bool.false_eq_true, List.append_nil, socket_calls_append,
    connect_ports_append, s0, s1, s2, c0, c1, c2]
  have hatt : attempted_ports env ip =
      (if (decide (0 ≤ (env 0).socket_fd) && ((env 0).inet_aton ip).isSome) = true
        then [3389] else []) ++
      ((if (decide (0 ≤ (env 1).socket_fd) && ((env 1).inet_aton ip).isSome) = true
        then [135] else []) ++
      (if (decide (0 ≤ (env 2).socket_fd) && ((env 2).inet_aton ip).isSome) = true
        then [445] else [])) := by
    simp only [attempted_ports, ports, List.length_cons, List.length_nil, List.range,
      List.range.loop, List.filter_cons, List.filter_nil]
    split_ifs <;> rfl
  refine ⟨trivial, hatt.symm, ?_, hnull⟩
  intro hall
  have a0 := hall 0 (by omega)
  have a1 := hall 1 (by omega)
  have a2 := hall 2 (by omega)
  simp only [ProbeEnv.attempted] at a0 a1 a2
  simp [a0.1, a0.2, a1.1, a1.2, a2.1, a2.2]

theorem wol_check_host_reachable_false_exhausts_witness :
    (wol_check_host_reachable (fun _ => probe_env_silent) (some sample_ip) 600).1 = false ∧
    socket_calls (wol_check_host_reachable (fun _ => probe_env_silent) (some sample_ip) 600).2 =
      3 ∧
    connect_ports (wol_check_host_reachable (fun _ => probe_env_silent) (some sample_ip) 600).2 =
      [3389, 135, 445] := by
  have h : (wol_check_host_reachable (fun _ => probe_env_silent) (some sample_ip) 600).1 =
      false := by decide
  have hw := wol_check_host_reachable_false_exhausts (fun _ => probe_env_silent) sample_ip 600 h
  exact ⟨h, hw.1, hw.2.2.1 (fun _ _ => by simp [ProbeEnv.attempted, probe_env_silent])⟩

/-! ## Theorems: the destinations of the wake broadcast (C20) -/

theorem dec_octet_length (n : Nat) : (dec_octet n).length ≤ 3 := by
  unfold dec_octet
  split_ifs <;> simp

/-- A buffer of 16 bytes always holds the dotted text of an address. -/
theorem inet_ntoa_r_16 (addr : Nat) : ∃ s, inet_ntoa_r addr 16 = some s := by
  unfold inet_ntoa_r
  have h0 := dec_octet_length (addr % 256)
  have h1 := dec_octet_length (addr / 256 % 256)
  have h2 := dec_octet_length (addr / 65536 % 256)
  have h3 := dec_octet_length (addr / 16777216 % 256)
  simp only [List.length_append, List.length_singleton]
  rw [if_pos (by omega)]
  exact ⟨_, rfl⟩

/-- One statement of the wake broadcast adds one call record. -/
theorem AllSt.call_send_records (send : Nat → SendEnv) (mac : Option CStr) (st : AllSt)
    (ip : CStr) (port : Nat) :
    send_records (st.call send mac ip port).events =
      send_records st.events ++ [(some ip, port)] := by
  have hno : send_records (wol_send_magic_packet (send st.calls) mac (some ip) port).2 = [] := by
    simp only [send_records, List.filterMap_eq_nil_iff]
    intro e he
    have := wol_send_magic_packet_no_call_record (send st.calls) mac (some ip) port
    cases e with
    | send_call d q r => exact absurd he (this d q r)
    | _ => rfl
  simp only [AllSt.call]
  rw [show ∀ (e : Event) (l : List Event), st.events ++ e :: l = st.events ++ [e] ++ l from
    fun e l => by simp]
  simp only [send_records, List.filterMap_append] at hno ⊢
  rw [hno]
  simp

/-- The calls of `wol_send_magic_packet` made by the wake broadcast for a
non-null MAC string are those to the destinations of `wake_destinations`, in
order. -/
theorem wol_send_magic_packet_all_records (send : Nat → SendEnv) (netif : NetifEnv)
    (mac : CStr) (ip : Option CStr) :
    send_records (wol_send_magic_packet_all send netif (some mac) ip).2 =
      wake_destinations netif ip := by
  have h0 : send_records ({ ok := ESP_FAIL, calls := 0, events := [] } : AllSt).events = [] := rfl
  unfold wol_send_magic_packet_all wake_destinations
  simp only [AllSt.call_send_records]
  cases ip with
  | none =>
    simp only [List.nil_append]
    cases netif.handle with
    | false => simp [h0]
    | true =>
      cases netif.ip_info with
      | none => simp [h0]
      | some info =>
        obtain ⟨b, hb⟩ := inet_ntoa_r_16 (bcast_addr info.ip info.netmask)
        simp [h0, hb, AllSt.call_send_records]
  | some ip =>
    by_cases hl : ip.length > 0
    · simp only [hl, if_true]
      cases netif.handle with
      | false => simp [h0, AllSt.call_send_records]
      | true =>
        cases netif.ip_info with
        | none => simp [h0, AllSt.call_send_records]
        | some info =>
          obtain ⟨b, hb⟩ := inet_ntoa_r_16 (bcast_addr info.ip info.netmask)
          simp [h0, hb, AllSt.call_send_records]
    · simp only [hl, if_false, List.nil_append]
      cases netif.handle with
      | false => simp [h0]
      | true =>
        cases netif.ip_info with
        | none => simp [h0]
        | some info =>
          obtain ⟨b, hb⟩ := inet_ntoa_r_16 (bcast_addr info.ip info.netmask)
          simp [h0, hb, AllSt.call_send_records]

/-- C20, counterexample: for the non-empty host `192.168.0.1` and an
available interface (192.168.0.100/24) the wake broadcast goes through six
destinations, not eight. -/
theorem wake_broadcast_has_six_destinations :
    send_records
        (wol_send_magic_packet_all (fun _ => send_env_ok) sample_netif (some sample_mac)
          (some sample_ip)).2 =
      [(some sample_ip, 9), (some sample_ip, 7),
       (some [49, 57, 50, 46, 49, 54, 56, 46, 48, 46, 50, 53, 53], 9),
       (some [49, 57, 50, 46, 49, 54, 56, 46, 48, 46, 50, 53, 53], 7),
       (some bcast_any, 9), (some bcast_any, 7)] ∧
    (send_records
        (wol_send_magic_packet_all (fun _ => send_env_ok) sample_netif (some sample_mac)
          (some sample_ip)).2).length ≠ 8 := by
  decide

/-- C20, as amended: for a non-null MAC string, a non-empty host address and
an available local interface, the destination list that
`wol_send_magic_packet_all` goes through (the host address, the computed
subnet broadcast address, `255.255.255.255`, each with port 9 and then port
7) has 6 destinations in total, and `wol_send_magic_packet` is called for
each of them, in this order. -/
theorem wake_broadcast_destinations (send : Nat → SendEnv) (netif : NetifEnv) (mac ip : CStr)
    (info : IpInfo) (hip : 0 < ip.length) (hh : netif.handle = true)
    (hinfo : netif.ip_info = some info) :
    ∃ bcast_str, inet_ntoa_r (bcast_addr info.ip info.netmask) 16 = some bcast_str ∧
      send_records (wol_send_magic_packet_all send netif (some mac) (some ip)).2 =
        [(some ip, 9), (some ip, 7), (some bcast_str, 9), (some bcast_str, 7),
         (some bcast_any, 9), (some bcast_any, 7)] ∧
      (send_records (wol_send_magic_packet_all send netif (some mac) (some ip)).2).length = 6 := by
  obtain ⟨b, hb⟩ := inet_ntoa_r_16 (bcast_addr info.ip info.netmask)
  have hrec := wol_send_magic_packet_all_records send netif mac (some ip)
  have hdest : wake_destinations netif (some ip) =
      [(some ip, 9), (some ip, 7), (some b, 9), (some b, 7),
       (some bcast_any, 9), (some bcast_any, 7)] := by
    simp [wake_destinations, hip, hh, hinfo, hb]
  refine ⟨b, hb, ?_, ?_⟩
  · rw [hrec, hdest]
  · rw [hrec, hdest]
    rfl

theorem wake_broadcast_destinations_witness :
    0 < sample_ip.length ∧ sample_netif.handle = true ∧
    sample_netif.ip_info = some ⟨0x6400A8C0, 0x00FFFFFF, 0x0100A8C0⟩ ∧
    ∃ bcast_str,
      inet_ntoa_r (bcast_addr 0x6400A8C0 0x00FFFFFF) 16 = some bcast_str ∧
      send_records
          (wol_send_magic_packet_all (fun _ => send_env_ok) sample_netif (some sample_mac)
            (some sample_ip)).2 =
        [(some sample_ip, 9), (some sample_ip, 7), (some bcast_str, 9), (some bcast_str, 7),
         (some bcast_any, 9), (some bcast_any, 7)] ∧
      (send_records
          (wol_send_magic_packet_all (fun _ => send_env_ok) sample_netif (some sample_mac)
            (some sample_ip)).2).length = 6 :=
  ⟨by decide, rfl, rfl,
    wake_broadcast_destinations (fun _ => send_env_ok) sample_netif sample_mac sample_ip
      ⟨0x6400A8C0, 0x00FFFFFF, 0x0100A8C0⟩ (by decide) rfl rfl⟩

/-! ## Theorems: the wait of `wifi_manager_connect` (C21) -/

/-- The wait without a timeout returns in the first tick in which a bit is
set, when the bound on the ticks looked at is larger. -/
theorem xEventGroupWaitBits_signalled (events : Nat → List WifiEvent) :
    ∀ (n fuel tick : Nat) (st : WifiState), n < fuel →
      (∀ m, m < n → (wait_state events m tick st).signalled = false) →
      (wait_state events n tick st).signalled = true →
      xEventGroupWaitBits events none fuel tick st =
        some (⟨(wait_state events n tick st).connected_bit,
               (wait_state events n tick st).fail_bit⟩, wait_state events n tick st) := by
  intro n
  induction n with
  | zero =>
    intro fuel tick st hf _ hs
    obtain ⟨fuel, rfl⟩ : ∃ k, fuel = k + 1 := ⟨fuel - 1, by omega⟩
    simp only [wait_state, WifiState.signalled] at hs ⊢
    simp only [xEventGroupWaitBits, hs, if_true]
  | succ n ih =>
    intro fuel tick st hf hno hs
    obtain ⟨fuel, rfl⟩ : ∃ k, fuel = k + 1 := ⟨fuel - 1, by omega⟩
    have h0 : (st.connected_bit || st.fail_bit) = false := by
      simpa [wait_state, WifiState.signalled] using hno 0 (by omega)
    simp only [xEventGroupWaitBits, h0, Bool.false_eq_true, if_false]
    simp only [wait_state] at hs ⊢
    exact ih fuel (tick + 1) _ (by omega)
      (fun m hm => by simpa [wait_state] using hno (m + 1) (by omega)) hs

/-- The wait without a timeout does not return while no bit is set. -/
theorem xEventGroupWaitBits_never (events : Nat → List WifiEvent) :
    ∀ (fuel tick : Nat) (st : WifiState),
      (∀ n, (wait_state events n tick st).signalled = false) →
      xEventGroupWaitBits events none fuel tick st = none := by
  intro fuel
  induction fuel with
  | zero => intro tick st _; rfl
  | succ fuel ih =>
    intro tick st h
    have h0 : (st.connected_bit || st.fail_bit) = false := by
      simpa [wait_state, WifiState.signalled] using h 0
    simp only [xEventGroupWaitBits, h0, Bool.false_eq_true, if_false]
    exact ih (tick + 1) _ (fun n => by simpa [wait_state] using h (n + 1))

/-- Without events the state does not change during the wait. -/
theorem wait_state_quiet (st : WifiState) :
    ∀ (n tick : Nat), wait_state (fun _ => []) n tick st = st := by
  intro n
  induction n with
  | zero => intro tick; rfl
  | succ n ih => intro tick; simp only [wait_state, List.foldl_nil]; exact ih (tick + 1)

/-- C21, counterexample: both driver calls succeed and no event ever arrives,
so that neither the Connected nor the Failed outcome is ever signalled; then
`wifi_manager_connect` does not return, however many ticks are looked at. -/
theorem wifi_manager_connect_blocks_forever :
    (∀ n, (wait_state quiet_env.events n 0 (quiet_env.wait_start WifiState.init)).signalled =
      false) ∧
    ¬ ∃ fuel r, wifi_manager_connect quiet_env fuel WifiState.init = some r := by
  have hq : ∀ n, (wait_state quiet_env.events n 0
      (quiet_env.wait_start WifiState.init)).signalled = false := by
    intro n
    have := wait_state_quiet (quiet_env.wait_start WifiState.init) n 0
    simp only [quiet_env] at this ⊢
    rw [this]
    rfl
  refine ⟨hq, ?_⟩
  rintro ⟨fuel, r, hr⟩
  have hw := xEventGroupWaitBits_never quiet_env.events fuel 0
    (quiet_env.wait_start WifiState.init) hq
  simp only [wifi_manager_connect, quiet_env, ConnectEnv.wait_start, portMAX_DELAY,
    ne_eq, not_true_eq_false, if_false, List.foldl_nil] at hr hw
  rw [hw] at hr
  exact absurd hr (by simp)

/-- C21, as amended: the blocking wait inside `wifi_manager_connect` has no
timeout (`portMAX_DELAY`).  When both driver calls succeed, the function
returns in the first tick of the wait in which the Connected or the Failed
outcome is signalled, with `ESP_OK` if `WIFI_CONNECTED_BIT` is set and
`ESP_FAIL` otherwise; for an event history in which neither outcome is ever
signalled it does not return. -/
theorem wifi_manager_connect_returns_when_signalled (env : ConnectEnv) (st : WifiState)
    (hc : env.esp_wifi_set_config = ESP_OK) (hs : env.esp_wifi_start = ESP_OK) :
    (∀ n, (∀ m, m < n → (wait_state env.events m 0 (env.wait_start st)).signalled = false) →
      (wait_state env.events n 0 (env.wait_start st)).signalled = true →
      ∀ fuel, n < fuel →
        wifi_manager_connect env fuel st =
          some (if (wait_state env.events n 0 (env.wait_start st)).connected_bit then ESP_OK
                else ESP_FAIL,
            wait_state env.events n 0 (env.wait_start st))) ∧
    ((∀ n, (wait_state env.events n 0 (env.wait_start st)).signalled = false) →
      ∀ fuel, wifi_manager_connect env fuel st = none) := by
  constructor
  · intro n hno hsig fuel hf
    have hw := xEventGroupWaitBits_signalled env.events n fuel 0 (env.wait_start st) hf hno hsig
    simp only [ConnectEnv.wait_start] at hw ⊢
    simp only [wifi_manager_connect, hc, hs, portMAX_DELAY, ne_eq, not_true_eq_false, if_false,
      hw]
    split_ifs <;> rfl
  · intro hno fuel
    have hw := xEventGroupWaitBits_never env.events fuel 0 (env.wait_start st) hno
    simp only [ConnectEnv.wait_start] at hw
    simp only [wifi_manager_connect, hc, hs, portMAX_DELAY, ne_eq, not_true_eq_false, if_false,
      hw]

theorem wifi_manager_connect_returns_when_signalled_witness :
    (got_ip_env 2).esp_wifi_set_config = ESP_OK ∧ (got_ip_env 2).esp_wifi_start = ESP_OK ∧
    wifi_manager_connect (got_ip_env 2) 4 WifiState.init =
      some (ESP_OK,
        { s_retry_num := 0, s_wifi_connected := true, connected_bit := true, fail_bit := false,
          s_wifi_keepalive_task := true, connect_calls := 1, tasks_created := 1 }) :=
  ⟨rfl, rfl,
    ((wifi_manager_connect_returns_when_signalled (got_ip_env 2) WifiState.init rfl rfl).1 3
      (by decide) (by decide) 4 (by decide)).trans (by decide)⟩

/-! ## Theorems: the keepalive task and the stored failure (C22, C23) -/

/-- The number of tasks created is 1 when the handle
`s_wifi_keepalive_task` is set and 0 when it is `NULL`; every action keeps
this, and no action resets the handle. -/
theorem step_keepalive (st : WifiState) (a : WifiAction)
    (h : st.tasks_created = if st.s_wifi_keepalive_task then 1 else 0) :
    (st.step a).tasks_created = (if (st.step a).s_wifi_keepalive_task then 1 else 0) ∧
    (st.s_wifi_keepalive_task = true → (st.step a).s_wifi_keepalive_task = true) ∧
    (a.is_got_ip = false → (st.step a).s_wifi_keepalive_task = st.s_wifi_keepalive_task) := by
  cases a with
  | event e =>
    cases e with
    | sta_start => exact ⟨h, id, fun _ => rfl⟩
    | sta_disconnected r =>
      by_cases hr : st.s_retry_num < MAX_RETRY
      · simp only [WifiState.step, event_handler, hr, if_true]
        exact ⟨h, id, fun _ => trivial⟩
      · simp only [WifiState.step, event_handler, hr, if_false]
        exact ⟨h, id, fun _ => trivial⟩
    | got_ip pass =>
      simp only [WifiState.step, event_handler, WifiAction.is_got_ip]
      cases hk : st.s_wifi_keepalive_task <;> cases pass <;> simp_all
    | other => exact ⟨h, id, fun _ => rfl⟩
  | init => exact ⟨h, id, fun _ => rfl⟩
  | connect => exact ⟨h, id, fun _ => rfl⟩
  | disconnect => exact ⟨h, id, fun _ => rfl⟩
  | is_connected => exact ⟨h, id, fun _ => rfl⟩
  | get_ip => exact ⟨h, id, fun _ => rfl⟩
  | check_connection => exact ⟨h, id, fun _ => rfl⟩

theorem run_keepalive (actions : List WifiAction) :
    ∀ st : WifiState, st.tasks_created = (if st.s_wifi_keepalive_task then 1 else 0) →
      (st.run actions).tasks_created =
        (if (st.run actions).s_wifi_keepalive_task then 1 else 0) ∧
      (st.s_wifi_keepalive_task = true → (st.run actions).s_wifi_keepalive_task = true) ∧
      ((∀ a ∈ actions, a.is_got_ip = false) →
        (st.run actions).s_wifi_keepalive_task = st.s_wifi_keepalive_task) := by
  induction actions with
  | nil => intro st h; exact ⟨h, id, fun _ => rfl⟩
  | cons a rest ih =>
    intro st h
    obtain ⟨h1, h2, h3⟩ := step_keepalive st a h
    obtain ⟨e1, e2, e3⟩ := ih (st.step a) h1
    refine ⟨e1, fun hk => e2 (h2 hk), fun hno => ?_⟩
    have := e3 (fun b hb => hno b (List.mem_cons_of_mem _ hb))
    simp only [WifiState.run, List.foldl_cons] at this ⊢
    rw [this]
    exact h3 (hno a (List.mem_cons_self _ _))

theorem run_append (st : WifiState) (xs ys : List WifiAction) :
    st.run (xs ++ ys) = (st.run xs).run ys := by
  simp only [WifiState.run, List.foldl_append]

/-- C22: for every sequence of events and public calls whose first
address-acquired event finds task creation succeeding, the keepalive task is
created exactly once, at that first address acquisition: before it no task
exists, it creates the task, and whatever follows (disconnects, reconnects,
further address acquisitions) creates no second one.  In every reachable
state at most one keepalive task has been created. -/
theorem keepalive_task_created_once (before after : List WifiAction)
    (h : ∀ a ∈ before, a.is_got_ip = false) :
    (WifiState.init.run before).tasks_created = 0 ∧
    (WifiState.init.run (before ++ [.event (.got_ip true)])).tasks_created = 1 ∧
    (WifiState.init.run (before ++ [.event (.got_ip true)] ++ after)).tasks_created = 1 ∧
    (∀ actions : List WifiAction, (WifiState.init.run actions).tasks_created ≤ 1) := by
  have hinit : WifiState.init.tasks_created =
      (if WifiState.init.s_wifi_keepalive_task then 1 else 0) := rfl
  obtain ⟨b1, -, b3⟩ := run_keepalive before WifiState.init hinit
  have hb : (WifiState.init.run before).s_wifi_keepalive_task = false := by
    rw [b3 h]; rfl
  have hb0 : (WifiState.init.run before).tasks_created = 0 := by
    rw [b1, hb]; rfl
  have hstep : ((WifiState.init.run before).run [.event (.got_ip true)]).s_wifi_keepalive_task =
      true := by
    have : ∀ s : WifiState, s.s_wifi_keepalive_task = false →
        (s.run [.event (.got_ip true)]).s_wifi_keepalive_task = true := by
      intro s hs
      simp [WifiState.run, WifiState.step, event_handler, hs]
    exact this _ hb
  obtain ⟨c1, -, -⟩ := run_keepalive [.event (.got_ip true)] (WifiState.init.run before) b1
  obtain ⟨d1, d2, -⟩ := run_keepalive after
    ((WifiState.init.run before).run [.event (.got_ip true)]) c1
  refine ⟨hb0, ?_, ?_, ?_⟩
  · rw [run_append, c1, hstep]; rfl
  · rw [run_append, run_append, d1, d2 hstep]; rfl
  · intro actions
    obtain ⟨a1, -, -⟩ := run_keepalive actions WifiState.init hinit
    rw [a1]
    split_ifs <;> omega

theorem keepalive_task_created_once_witness :
    (∀ a ∈ [WifiAction.init, .connect, .event .sta_start, .event (.sta_disconnected 2)],
      a.is_got_ip = false) ∧
    (WifiState.init.run
      ([WifiAction.init, .connect, .event .sta_start, .event (.sta_disconnected 2)] ++
        [.event (.got_ip true)] ++
        [.event (.sta_disconnected 8), .event (.got_ip true), .event (.got_ip true)])
      ).tasks_created = 1 :=
  ⟨by decide,
    (keepalive_task_created_once
      [WifiAction.init, .connect, .event .sta_start, .event (.sta_disconnected 2)]
      [.event (.sta_disconnected 8), .event (.got_ip true), .event (.got_ip true)]
      (by decide)).2.2.1⟩

/-- No event and no public call other than `wifi_manager_init` clears
`WIFI_FAIL_BIT`. -/
theorem step_fail_bit (st : WifiState) (a : WifiAction) (ha : a.is_init = false)
    (h : st.fail_bit = true) : (st.step a).fail_bit = true := by
  cases a with
  | event e =>
    cases e with
    | sta_start => exact h
    | sta_disconnected r =>
      simp only [WifiState.step, event_handler]
      split_ifs <;> simp [h]
    | got_ip pass =>
      simp only [WifiState.step, event_handler]
      split_ifs <;> exact h
    | other => exact h
  | init => simp [WifiAction.is_init] at ha
  | connect => exact h
  | disconnect => exact h
  | is_connected => exact h
  | get_ip => exact h
  | check_connection => exact h

theorem run_fail_bit (actions : List WifiAction) :
    ∀ st : WifiState, (∀ a ∈ actions, a.is_init = false) → st.fail_bit = true →
      (st.run actions).fail_bit = true := by
  induction actions with
  | nil => intro st _ h; exact h
  | cons a rest ih =>
    intro st hno h
    exact ih (st.step a) (fun b hb => hno b (List.mem_cons_of_mem _ hb))
      (step_fail_bit st a (hno a (List.mem_cons_self _ _)) h)

/-- C23, counterexample: in the Failed state reached by six disconnects
(failure signalled, retry counter 5), a new `wifi_manager_connect` call
during whose wait an address would be acquired returns the earlier failure
at once: the result is `ESP_FAIL`, the state is unchanged, `WIFI_FAIL_BIT`
is still set and the retry counter is still 5. -/
theorem wifi_manager_connect_returns_stored_failure :
    failed_state.fail_bit = true ∧ failed_state.s_retry_num = 5 ∧
    wifi_manager_connect
        { esp_wifi_set_config := ESP_OK, esp_wifi_start := ESP_OK, before_wait := [],
          events := fun _ => [.got_ip true] } 1 failed_state =
      some (ESP_FAIL, failed_state) := by
  decide

/-- C23, as amended: once the failure is signalled, `WIFI_FAIL_BIT` stays
set under every event and every public call other than `wifi_manager_init`,
a new `wifi_manager_connect` call included; that call clears neither the
stored failure indication nor the retry counter: when both driver calls
succeed it does not wait but returns at once, in the state reached by the
events handled before the wait, with `ESP_FAIL` unless `WIFI_CONNECTED_BIT`
is set as well, and without such events the state is unchanged. -/
theorem failure_indication_is_kept (st : WifiState) (hfail : st.fail_bit = true) :
    (∀ actions : List WifiAction, (∀ a ∈ actions, a.is_init = false) →
      (st.run actions).fail_bit = true) ∧
    (st.step .connect = st) ∧
    (∀ (env : ConnectEnv) (fuel : Nat), env.esp_wifi_set_config = ESP_OK →
      env.esp_wifi_start = ESP_OK →
      wifi_manager_connect env (fuel + 1) st =
        some (if (env.wait_start st).connected_bit then ESP_OK else ESP_FAIL,
          env.wait_start st) ∧
      (env.wait_start st).fail_bit = true ∧
      (env.before_wait = [] → env.wait_start st = st)) := by
  refine ⟨fun actions hno => run_fail_bit actions st hno hfail, rfl, ?_⟩
  intro env fuel hc hs
  have hw : (env.wait_start st).fail_bit = true := by
    have := run_fail_bit (env.before_wait.map WifiAction.event) st
      (fun a ha => by
        obtain ⟨e, -, rfl⟩ := List.mem_map.1 ha
        rfl) hfail
    simpa [WifiState.run, ConnectEnv.wait_start, List.foldl_map, WifiState.step] using this
  refine ⟨?_, hw, fun hb => by simp [ConnectEnv.wait_start, hb]⟩
  simp only [ConnectEnv.wait_start] at hw ⊢
  simp only [wifi_manager_connect, hc, hs, portMAX_DELAY, ne_eq, not_true_eq_false, if_false,
    xEventGroupWaitBits, hw, Bool.or_true, if_true]
  split_ifs <;> rfl

theorem failure_indication_is_kept_witness :
    failed_state.fail_bit = true ∧
    wifi_manager_connect (got_ip_env 0) 1 failed_state =
      some (ESP_FAIL, { failed_state with connect_calls := 6 }) :=
  ⟨by decide,
    (((failure_indication_is_kept failed_state (by decide)).2.2 (got_ip_env 0) 0 rfl rfl).1).trans
      (by decide)⟩

/-! ## Theorems: the final probe (C24) -/

theorem final_probes_append (xs ys : List Event) :
    final_probes (xs ++ ys) = final_probes xs + final_probes ys := by
  simp only [final_probes, List.countP_append]

theorem final_probes_of_net_detail {l : List Event} (h : ∀ e ∈ l, e.is_net_detail = true) :
    final_probes l = 0 := by
  simp only [final_probes, List.countP_eq_zero]
  intro e he
  have := h e he
  cases e <;> simp [Event.is_net_detail, Event.is_final_probe] at this ⊢

theorem final_probes_of_hid {l : List Event} (h : ∀ e ∈ l, e.is_hid = true) :
    final_probes l = 0 := by
  simp only [final_probes, List.countP_eq_zero]
  intro e he
  have := h e he
  cases e <;> simp [Event.is_hid, Event.is_final_probe] at this ⊢

/-- One probe call adds one final probe to the trace exactly when its
timeout is 3000 ms. -/
theorem check_host_final_probes (w : World) (st : St) (timeout_ms : Nat) :
    final_probes (st.check_host w timeout_ms).2.trace =
      final_probes st.trace + (if timeout_ms = 3000 then 1 else 0) := by
  simp only [St.check_host]
  rw [show ∀ (e : Event) (l : List Event), st.trace ++ e :: l = st.trace ++ [e] ++ l from
    fun e l => by simp, final_probes_append, final_probes_append,
    final_probes_of_net_detail (wol_check_host_reachable_net_detail _ _ _), Nat.add_zero]
  by_cases h : timeout_ms = 3000 <;> simp [final_probes, Event.is_final_probe, h]

/-- A wake broadcast adds no final probe to the trace. -/
theorem send_all_final_probes (w : World) (st : St) :
    final_probes (st.send_all w).2.trace = final_probes st.trace := by
  simp only [St.send_all]
  rw [show ∀ (e : Event) (l : List Event), st.trace ++ e :: l = st.trace ++ [e] ++ l from
    fun e l => by simp, final_probes_append, final_probes_append,
    final_probes_of_net_detail (wol_send_magic_packet_all_net_detail _ _ _ _), Nat.add_zero]
  simp [final_probes, Event.is_final_probe]

theorem probe_up_to_final_probes (w : World) :
    ∀ (n : Nat) (st : St), final_probes (probe_up_to w n st).2.trace = final_probes st.trace := by
  intro n
  induction n with
  | zero => intro st; rfl
  | succ n ih =>
    intro st
    have hc := check_host_final_probes w st 1000
    simp only [show ¬ ((1000 : Nat) = 3000) by decide, if_false, Nat.add_zero] at hc
    simp only [probe_up_to]
    split_ifs
    · exact hc
    · rw [ih, hc]

/-- The wake loop makes no final probe. -/
theorem wake_loop_final_probes (w : World) (start : Int) :
    ∀ (fuel : Nat) (st : St) (l : Bool × St), wake_loop w start fuel st = some l →
      final_probes l.2.trace = final_probes st.trace := by
  intro fuel
  induction fuel with
  | zero => intro st l h; simp [wake_loop] at h
  | succ fuel ih =>
    intro st l h
    rw [wake_loop_succ] at h
    have hp := probe_up_to_final_probes w 3 ((st.now_ms w).2.send_all w).2
    rw [send_all_final_probes, (now_ms_step w st).2.2.2.2.2] at hp
    have hn := (now_ms_step w (probe_up_to w 3 ((st.now_ms w).2.send_all w).2).2).2.2.2.2.2
    split_ifs at h
    · cases h; exact hp
    · cases h
      show final_probes ((probe_up_to w 3 ((st.now_ms w).2.send_all w).2).2.now_ms w).2.trace = _
      rw [hn, hp]
    · rw [ih _ l h, hn, hp]
    · cases h
      show final_probes (st.now_ms w).2.trace = _
      rw [(now_ms_step w st).2.2.2.2.2]

theorem hid_keyboard_press_key_is_hid (ready : Nat → Bool) (key_code t : Nat) :
    ∀ e ∈ (hid_keyboard_press_key ready key_code t).2.2, e.is_hid = true := by
  intro e he
  unfold hid_keyboard_press_key at he
  have hw := hid_wait_ready_is_hid ready 2000 t
  simp only [] at he
  split_ifs at he
  · exact hw e he
  · simp only [List.mem_append, List.mem_cons, List.mem_singleton, List.not_mem_nil,
      or_false] at he
    rcases he with he | rfl | rfl | rfl
    · exact hw e he
    all_goals rfl

/-- The shared typing sequence adds only events of the keyboard channel and
makes no probe and no wake broadcast. -/
theorem type_and_submit_trace (w : World) (st : St) :
    ∃ evs, (type_and_submit w st).2.trace = st.trace ++ evs ∧
      (∀ e ∈ evs, e.is_hid = true) ∧
      (type_and_submit w st).2.probes = st.probes ∧
      (type_and_submit w st).2.wakes = st.wakes := by
  have h1 := hid_keyboard_press_key_is_hid w.ready HID_KEY_ENTER st.polls
  have h2 := hid_keyboard_type_string_is_hid w.hid w.ready (some w.cfg.WINDOWS_PASSWORD) 50
    (hid_keyboard_press_enter w.ready st.polls).2.1
  have h3 := hid_keyboard_press_key_is_hid w.ready HID_KEY_ENTER
    (hid_keyboard_type_string w.hid w.ready (some w.cfg.WINDOWS_PASSWORD) 50
      (hid_keyboard_press_enter w.ready st.polls).2.1).2.1
  rw [type_and_submit_eq]
  split_ifs
  · refine ⟨(hid_keyboard_press_enter w.ready st.polls).2.2 ++ [Event.delay 500] ++
      (hid_keyboard_type_string w.hid w.ready (some w.cfg.WINDOWS_PASSWORD) 50
        (hid_keyboard_press_enter w.ready st.polls).2.1).2.2, by simp, ?_, rfl, rfl⟩
    intro e he
    simp only [List.mem_append, List.mem_singleton] at he
    rcases he with (he | rfl) | he
    · exact h1 e he
    · rfl
    · exact h2 e he
  · refine ⟨(hid_keyboard_press_enter w.ready st.polls).2.2 ++ [Event.delay 500] ++
      (hid_keyboard_type_string w.hid w.ready (some w.cfg.WINDOWS_PASSWORD) 50
        (hid_keyboard_press_enter w.ready st.polls).2.1).2.2 ++
      (hid_keyboard_press_enter w.ready
        (hid_keyboard_type_string w.hid w.ready (some w.cfg.WINDOWS_PASSWORD) 50
          (hid_keyboard_press_enter w.ready st.polls).2.1).2.1).2.2, by simp, ?_, rfl, rfl⟩
    intro e he
    simp only [List.mem_append, List.mem_singleton] at he
    rcases he with ((he | rfl) | he) | he
    · exact h1 e he
    · rfl
    · exact h2 e he
    · exact h3 e he

theorem at_loop_final_probes (w : World) : final_probes (St.at_loop w).trace = 0 := by
  rw [St.at_loop, (now_ms_step w _).2.2.2.2.2, check_host_final_probes]
  rfl

/-- The run after the wake loop: the final probe is made when the loop ended
with `pc_is_on = false`, and only then. -/
theorem final_probe_after_loop (w : World) (fuel : Nat) (l : Bool × St)
    (hwifi : wifi_manager_check_connection w.s_wifi_connected w.check_netif = ESP_OK)
    (h0 : w.reach 0 600 = false)
    (hloop : wake_loop w w.start_time fuel (St.at_loop w) = some l) :
    ∃ r, perform_windows_login w fuel = some r ∧ final_probes l.2.trace = 0 ∧
      (l.1 = true → final_probes r.2.trace = 0 ∧ r.2.probes = l.2.probes) ∧
      (l.1 = false →
        final_probes r.2.trace = 1 ∧ r.2.probes = l.2.probes + 1 ∧
        ∃ tail, r.2.trace =
            l.2.trace ++ Event.reachable_call 3000 (w.reach l.2.probes 3000) :: tail ∧
          final_probes tail = 0 ∧ (w.reach l.2.probes 3000 = false → r.1 = ESP_FAIL)) := by
  have hl0 : final_probes l.2.trace = 0 := by
    rw [wake_loop_final_probes w w.start_time fuel _ l hloop, at_loop_final_probes]
  have hrun := perform_windows_login_wake_path w fuel hwifi h0
  rw [hloop] at hrun
  simp only [] at hrun
  obtain ⟨lb, ls⟩ := l
  cases lb with
  | true =>
    simp only [Bool.true_eq_false, if_false, if_true] at hrun
    obtain ⟨evs, t1, t2, t3, -⟩ := type_and_submit_trace w ((ls.led_pc_connect).delay 7000)
    refine ⟨_, hrun, hl0, fun _ => ⟨?_, t3⟩, fun h => by simp at h⟩
    rw [t1]
    simp only [St.delay, St.led_pc_connect, final_probes_append, final_probes_of_hid t2]
    simp only [] at hl0
    rw [hl0]
    rfl
  | false =>
    simp only [if_true] at hrun
    simp only [] at hl0
    have hc1 : (ls.check_host w 3000).1 = w.reach ls.probes 3000 := rfl
    have hc2 : (ls.check_host w 3000).2.probes = ls.probes + 1 := rfl
    have hc3 : (ls.check_host w 3000).2.trace =
        ls.trace ++ Event.reachable_call 3000 (w.reach ls.probes 3000) ::
          (wol_check_host_reachable (w.probe ls.probes) (some w.cfg.PC_IP_ADDRESS) 3000).2 := rfl
    have hd := final_probes_of_net_detail
      (wol_check_host_reachable_net_detail (w.probe ls.probes) (some w.cfg.PC_IP_ADDRESS) 3000)
    have hone : final_probes [Event.reachable_call 3000 (w.reach ls.probes 3000)] = 1 := rfl
    rw [hc1] at hrun
    cases hr : w.reach ls.probes 3000 with
    | true =>
      rw [hr] at hrun hc3 hone
      simp only [if_true] at hrun
      obtain ⟨evs, t1, t2, t3, -⟩ :=
        type_and_submit_trace w (((ls.check_host w 3000).2.led_pc_connect).delay 7000)
      have htr : (type_and_submit w
          (((ls.check_host w 3000).2.led_pc_connect).delay 7000)).2.trace =
          ls.trace ++ Event.reachable_call 3000 true ::
            ((wol_check_host_reachable (w.probe ls.probes) (some w.cfg.PC_IP_ADDRESS) 3000).2 ++
              [Event.led_pc_connect] ++ [Event.delay 7000] ++ evs) := by
        rw [t1]
        simp only [St.delay, St.led_pc_connect, hc3]
        simp
      have htail : final_probes
          ((wol_check_host_reachable (w.probe ls.probes) (some w.cfg.PC_IP_ADDRESS) 3000).2 ++
            [Event.led_pc_connect] ++ [Event.delay 7000] ++ evs) = 0 := by
        simp only [final_probes_append, hd, final_probes_of_hid t2]
        rfl
      refine ⟨_, hrun, hl0, fun h => by simp at h, fun _ => ⟨?_, ?_, _, htr, htail, ?_⟩⟩
      · rw [htr, show ∀ (e : Event) (x : List Event), ls.trace ++ e :: x = ls.trace ++ [e] ++ x
          from fun e x => by simp, final_probes_append, final_probes_append, hl0, hone, htail]
      · rw [t3]
        exact hc2
      · intro h
        simp at h
    | false =>
      rw [hr] at hrun hc3 hone
      simp only [Bool.false_eq_true, if_false] at hrun
      refine ⟨_, hrun, hl0, fun h => by simp at h,
        fun _ => ⟨?_, hc2, _, hc3, hd, fun _ => rfl⟩⟩
      show final_probes (ls.check_host w 3000).2.trace = 1
      rw [hc3, show ∀ (e : Event) (x : List Event), ls.trace ++ e :: x = ls.trace ++ [e] ++ x
        from fun e x => by simp, final_probes_append, final_probes_append, hl0, hone, hd]

/-- The link check passes in every sample world with the link flag set. -/
theorem sample_world_link (probe : Nat → ProbeEnv) (clock : Nat → Int) (ready : Nat → Bool) :
    wifi_manager_check_connection (sample_world true probe clock ready).s_wifi_connected
      (sample_world true probe clock ready).check_netif = ESP_OK := rfl

/-- The probe results of a sample world do not depend on its clock and its
keyboard channel. -/
theorem sample_world_reach (b : Bool) (probe : Nat → ProbeEnv) (clock clock' : Nat → Int)
    (ready ready' : Nat → Bool) (j timeout_ms : Nat) :
    (sample_world b probe clock ready).reach j timeout_ms =
      (sample_world b probe clock' ready').reach j timeout_ms := rfl

/-- The wake loop in the sample worlds in which the host first answers the
sixth probe and clock readings are 4 s apart: it ends with
`pc_is_on = true` in its second iteration, after six probes and two wake
broadcasts, whatever the keyboard channel does. -/
theorem waking_loop (ready : Nat → Bool) :
    (sample_world true (fun j => if j = 5 then probe_env_open else probe_env_silent)
      (fun k => 4000000 * (k : Int)) ready).reach 0 600 = false ∧
    ∃ st, wake_loop
        (sample_world true (fun j => if j = 5 then probe_env_open else probe_env_silent)
          (fun k => 4000000 * (k : Int)) ready)
        (sample_world true (fun j => if j = 5 then probe_env_open else probe_env_silent)
          (fun k => 4000000 * (k : Int)) ready).start_time 2
        (St.at_loop (sample_world true
          (fun j => if j = 5 then probe_env_open else probe_env_silent)
          (fun k => 4000000 * (k : Int)) ready)) = some (true, st) ∧
      st.probes = 6 ∧ st.wakes = 2 ∧ st.polls = 0 := by
  have hreach : ∀ j t, (sample_world true
      (fun j => if j = 5 then probe_env_open else probe_env_silent)
      (fun k => 4000000 * (k : Int)) ready).reach j t = waking_world.reach j t :=
    fun j t => rfl
  have h0 : waking_world.reach 0 600 = false := by decide
  have hf : ∀ j, j < 3 * 1 + 1 → waking_world.reach (1 + j) 1000 = false := by
    intro j hj
    interval_cases j <;> decide
  have hs : waking_world.reach (1 + (3 * 1 + 1)) 1000 = true := by decide
  have hclk : ∀ k, k < 2 * 1 + 1 →
      Int.tdiv (waking_world.clock (1 + k)) 1000 - waking_world.start_time < 30000 := by
    intro k hk
    unfold World.start_time
    interval_cases k <;> decide
  refine ⟨(hreach 0 600).trans h0, ?_⟩
  obtain ⟨a1, a2, a3, a4, -⟩ := at_loop_facts _ ((hreach 0 600).trans h0)
  obtain ⟨st, e1, e2, e3, e4, -⟩ :=
    wake_loop_success (sample_world true
        (fun j => if j = 5 then probe_env_open else probe_env_silent)
        (fun k => 4000000 * (k : Int)) ready)
      (sample_world true (fun j => if j = 5 then probe_env_open else probe_env_silent)
        (fun k => 4000000 * (k : Int)) ready).start_time 1 (by decide) 1
      (St.at_loop _) 2 (by decide)
      (fun k hk => by
        rw [a3]
        exact hclk k hk)
      (fun j hj => by rw [a1, hreach]; exact hf j hj)
      (by rw [a1, hreach]; exact hs)
  exact ⟨st, e1, by omega, by omega, by omega⟩

/-- C24, counterexample: in `waking_world` the wake loop ends because a probe
succeeded (the sixth probe of the run), and the run then makes no 3000 ms
probe at all: its six probes are the initial one and five of the loop. -/
theorem no_final_probe_after_successful_probe :
    ∃ st r, wake_loop waking_world waking_world.start_time 2 (St.at_loop waking_world) =
        some (true, st) ∧
      perform_windows_login waking_world 2 = some r ∧
      final_probes r.2.trace = 0 ∧ r.2.probes = 6 := by
  obtain ⟨h0, st, hloop, hp, -, -⟩ := waking_loop (fun _ => true)
  obtain ⟨r, hr, -, htrue, -⟩ :=
    final_probe_after_loop waking_world 2 (true, st) (sample_world_link _ _ _) h0 hloop
  obtain ⟨hf, hpr⟩ := htrue rfl
  exact ⟨st, r, hloop, hr, hf, by rw [hpr]; exact hp⟩

/-- C24, as amended: in every run of `perform_windows_login` that enters the
wake loop, no 3000 ms probe is made before the loop has ended; when the loop
ends without a successful probe (the budget expired), exactly one final
reachability probe with a 3000 ms timeout is performed right after the loop,
before the decision to type or abort (a false result gives `ESP_FAIL`); when
the loop ends because a probe succeeded, no final probe is performed and the
run goes on to type. -/
theorem final_probe_only_after_failed_loop (w : World) (fuel : Nat) (l : Bool × St)
    (hwifi : wifi_manager_check_connection w.s_wifi_connected w.check_netif = ESP_OK)
    (h0 : w.reach 0 600 = false)
    (hloop : wake_loop w w.start_time fuel (St.at_loop w) = some l) :
    ∃ r, perform_windows_login w fuel = some r ∧ final_probes l.2.trace = 0 ∧
      (l.1 = true → final_probes r.2.trace = 0 ∧ r.2.probes = l.2.probes) ∧
      (l.1 = false →
        final_probes r.2.trace = 1 ∧ r.2.probes = l.2.probes + 1 ∧
        ∃ tail, r.2.trace =
            l.2.trace ++ Event.reachable_call 3000 (w.reach l.2.probes 3000) :: tail ∧
          final_probes tail = 0 ∧ (w.reach l.2.probes 3000 = false → r.1 = ESP_FAIL)) :=
  final_probe_after_loop w fuel l hwifi h0 hloop

/-- No probe is answered in a sample world whose probes are all silent. -/
theorem silent_world_reach (b : Bool) (clock : Nat → Int) (ready : Nat → Bool)
    (j timeout_ms : Nat) :
    (sample_world b (fun _ => probe_env_silent) clock ready).reach j timeout_ms = false :=
  wol_check_host_reachable_all_time_out (fun _ => probe_env_silent) sample_ip timeout_ms
    (fun _ _ => by simp [ProbeEnv.times_out, ProbeEnv.in_progress, probe_env_silent])

theorem final_probe_only_after_failed_loop_witness :
    wifi_manager_check_connection dead_world.s_wifi_connected dead_world.check_netif = ESP_OK ∧
    dead_world.reach 0 600 = false ∧
    ∃ l, wake_loop dead_world dead_world.start_time 1 (St.at_loop dead_world) = some l ∧
      l.1 = false ∧
      ∃ r, perform_windows_login dead_world 1 = some r ∧ final_probes r.2.trace = 1 ∧
        r.1 = ESP_FAIL := by
  have h1 : wifi_manager_check_connection dead_world.s_wifi_connected
      dead_world.check_netif = ESP_OK := rfl
  have h2 : ∀ j timeout_ms, dead_world.reach j timeout_ms = false :=
    fun j t => silent_world_reach true _ _ j t
  obtain ⟨-, -, a3, -, -⟩ := at_loop_facts dead_world (h2 0 600)
  obtain ⟨m, st, hloop, -⟩ :=
    wake_loop_all_fail dead_world dead_world.start_time (fun j => h2 j 1000) 1
      (St.at_loop dead_world) ⟨1, by decide, by
        rw [a3]
        unfold World.start_time
        decide⟩
  obtain ⟨r, hr, -, -, hfalse⟩ :=
    final_probe_only_after_failed_loop dead_world 1 (false, st) h1 (h2 0 600) hloop
  obtain ⟨hf, -, tail, -, -, hfail⟩ := hfalse rfl
  exact ⟨h1, h2 0 600, (false, st), hloop, rfl, r, hr, hf, hfail (h2 _ 3000)⟩

/-! ## Theorems: the start time after a long uptime (C25) -/

/-- The conversion to `int` of a millisecond count of `2^31` or more lies at
least `2^32` below it. -/
theorem to_int32_of_large (x : Int) (h : 2 ^ 31 ≤ x) : to_int32 x + 2 ^ 32 ≤ x := by
  unfold to_int32
  omega

/-- When the uptime at entry is `2^31` ms or more and the clock does not go
backwards, the budget test fails at the first evaluation of the loop
condition: the wake loop ends at once, without a wake broadcast and without
a probe. -/
theorem wake_loop_skipped (w : World) (fuel : Nat) (st : St)
    (h0 : 2 ^ 31 ≤ Int.tdiv (w.clock 0) 1000)
    (hmono : Int.tdiv (w.clock 0) 1000 ≤ Int.tdiv (w.clock st.reads) 1000) :
    wake_loop w w.start_time (fuel + 1) st = some (false, (st.now_ms w).2) := by
  rw [wake_loop_succ]
  have hs := to_int32_of_large _ h0
  have hn : (st.now_ms w).1 = Int.tdiv (w.clock st.reads) 1000 := rfl
  have hc : ¬ ((st.now_ms w).1 - w.start_time < 30000) := by
    rw [hn]
    unfold World.start_time
    omega
  simp only [hc, if_false]

/-- C25, the code at the failing input: in `long_uptime_world` the uptime at
entry is `2^31` ms, so that `start_time` is stored as `-2^31`; the link check
passes and the initial probe reports the host unreachable; the run makes no
wake broadcast at all (no wake event is in its trace): after the 600 ms probe
it goes straight to the final 3000 ms probe and returns `ESP_FAIL`. -/
theorem perform_windows_login_skips_wake_after_long_uptime :
    Int.tdiv (long_uptime_world.clock 0) 1000 = 2 ^ 31 ∧
    long_uptime_world.start_time = -2 ^ 31 ∧
    wifi_manager_check_connection long_uptime_world.s_wifi_connected
      long_uptime_world.check_netif = ESP_OK ∧
    long_uptime_world.reach 0 600 = false ∧
    ∃ st, perform_windows_login long_uptime_world 1 = some (ESP_FAIL, st) ∧
      st.wakes = 0 ∧ (∀ e ∈ st.trace, e.is_wake = false) ∧
      outline st.trace = [Event.reachable_call 600 false, Event.reachable_call 3000 false] := by
  have h1 : wifi_manager_check_connection long_uptime_world.s_wifi_connected
      long_uptime_world.check_netif = ESP_OK := rfl
  have h2 : ∀ j timeout_ms, long_uptime_world.reach j timeout_ms = false :=
    fun j t => silent_world_reach true _ _ j t
  have hc0 : Int.tdiv (long_uptime_world.clock 0) 1000 = 2 ^ 31 := by decide
  have hst : long_uptime_world.start_time = -2 ^ 31 := by
    unfold World.start_time
    rw [hc0]
    decide
  obtain ⟨a1, a2, a3, a4, a5⟩ := at_loop_facts long_uptime_world (h2 0 600)
  have hloop := wake_loop_skipped long_uptime_world 0 (St.at_loop long_uptime_world)
    (by rw [hc0]) (by rw [a3]; decide)
  obtain ⟨-, n2, n3, n4, n5, n6⟩ := now_ms_step long_uptime_world (St.at_loop long_uptime_world)
  obtain ⟨c1, c2, c3, c4, c5, c6⟩ := check_host_step long_uptime_world
    ((St.at_loop long_uptime_world).now_ms long_uptime_world).2 3000
  have hrun : perform_windows_login long_uptime_world 1 =
      some (ESP_FAIL, ((((St.at_loop long_uptime_world).now_ms long_uptime_world).2).check_host
        long_uptime_world 3000).2) := by
    rw [perform_windows_login_wake_path long_uptime_world 1 h1 (h2 0 600), hloop]
    simp only [if_true, c1, h2, Bool.false_eq_true, if_false]
  refine ⟨hc0, hst, h1, h2 0 600, _, hrun, ?_, ?_, ?_⟩
  · rw [c3, n3, a2]
  · intro e he
    have htr : ((((St.at_loop long_uptime_world).now_ms long_uptime_world).2).check_host
        long_uptime_world 3000).2.trace =
        (Event.reachable_call 600 (long_uptime_world.reach 0 600) ::
          (wol_check_host_reachable (long_uptime_world.probe 0)
            (some long_uptime_world.cfg.PC_IP_ADDRESS) 600).2) ++
        Event.reachable_call 3000 (long_uptime_world.reach 1 3000) ::
          (wol_check_host_reachable (long_uptime_world.probe 1)
            (some long_uptime_world.cfg.PC_IP_ADDRESS) 3000).2 := rfl
    rw [htr] at he
    simp only [List.mem_append, List.mem_cons] at he
    rcases he with (rfl | he) | rfl | he
    · rfl
    · exact (wol_check_host_reachable_events _ _ _ e he).2
    · rfl
    · exact (wol_check_host_reachable_events _ _ _ e he).2
  · rw [c6, n6, a5, n2, a1, h2]
    rfl

/-! ## Theorems: a typing error ends the login (C28) -/

/-- The shared typing sequence when `hid_keyboard_type_string` fails: it
returns the error in the state reached by that call. -/
theorem type_and_submit_error (w : World) (st : St) (h : (st.typing w).1 ≠ ESP_OK) :
    type_and_submit w st = ((st.typing w).1, st.after_typing w) := by
  rw [type_and_submit_eq]
  simp only [St.typing, St.after_typing] at h ⊢
  rw [if_pos h]

/-- The typing that starts on a channel that is ready for the first Enter
and for none of the 4000 evaluations after it: the initial wait of
`hid_keyboard_type_string` expires. -/
theorem typing_expires (w : World) (st : St) (h1 : w.ready st.polls = true)
    (h2 : ∀ k, k < 4000 → w.ready (st.polls + 1 + k) = false) :
    (st.typing w).1 = ESP_ERR_TIMEOUT ∧ (st.typing w).2.1 = st.polls + 1 + 4000 ∧
    reports (st.typing w).2.2 = [] := by
  have he : (hid_keyboard_press_enter w.ready st.polls).2.1 = st.polls + 1 := by
    simp only [hid_keyboard_press_enter, hid_keyboard_press_key,
      hid_wait_ready_of_ready w.ready 2000 st.polls h1, Bool.true_eq_false, if_false]
  have hx := hid_wait_ready_expires w.ready 4000 (st.polls + 1) (by decide) h2
  have hr := hid_wait_ready_reports w.ready 4000 (st.polls + 1)
  have hty : st.typing w =
      (ESP_ERR_TIMEOUT, (hid_wait_ready w.ready 4000 (st.polls + 1)).2.1,
        (hid_wait_ready w.ready 4000 (st.polls + 1)).2.2) := by
    have h1' : (hid_wait_ready w.ready 4000 (st.polls + 1)).1 = false := by rw [hx]
    simp only [St.typing, he, hid_keyboard_type_string, h1', if_true]
  rw [hty]
  refine ⟨rfl, ?_, hr⟩
  show (hid_wait_ready w.ready 4000 (st.polls + 1)).2.1 = _
  rw [hx]

/-- C28: on both the quick-login path and the wake path of
`perform_windows_login`, whenever `hid_keyboard_type_string` returns a value
other than `ESP_OK`, `perform_windows_login` returns exactly that value, in
the state reached when `hid_keyboard_type_string` returned: the submit Enter
is not pressed and nothing else follows. -/
theorem typing_error_is_returned (w : World) (fuel : Nat)
    (hwifi : wifi_manager_check_connection w.s_wifi_connected w.check_netif = ESP_OK) :
    (w.reach 0 600 = true →
      ((St.init.check_host w 600).2.led_pc_connect.typing w).1 ≠ ESP_OK →
      perform_windows_login w fuel =
        some (((St.init.check_host w 600).2.led_pc_connect.typing w).1,
          (St.init.check_host w 600).2.led_pc_connect.after_typing w)) ∧
    (w.reach 0 600 = false →
      ∀ (l : Bool × St) (s : St), wake_loop w w.start_time fuel (St.at_loop w) = some l →
        (l.1 = true ∧ s = l.2 ∨
          l.1 = false ∧ (l.2.check_host w 3000).1 = true ∧ s = (l.2.check_host w 3000).2) →
        (((s.led_pc_connect).delay 7000).typing w).1 ≠ ESP_OK →
        perform_windows_login w fuel =
          some ((((s.led_pc_connect).delay 7000).typing w).1,
            ((s.led_pc_connect).delay 7000).after_typing w)) := by
  constructor
  · intro h0 hne
    rw [perform_windows_login_quick_path w fuel hwifi h0, type_and_submit_error w _ hne]
  · intro h0 l s hloop hs hne
    rw [perform_windows_login_wake_path w fuel hwifi h0, hloop]
    obtain ⟨lb, ls⟩ := l
    rcases hs with ⟨hl, rfl⟩ | ⟨hl, hf, rfl⟩
    · simp only [] at hl
      subst hl
      simp only [Bool.true_eq_false, if_false, if_true]
      rw [type_and_submit_error w _ hne]
    · simp only [] at hl hf
      subst hl
      simp only [if_true, hf]
      rw [type_and_submit_error w _ hne]

theorem typing_error_is_returned_witness :
    wifi_manager_check_connection typing_timeout_world.s_wifi_connected
      typing_timeout_world.check_netif = ESP_OK ∧
    typing_timeout_world.reach 0 600 = true ∧
    ((St.init.check_host typing_timeout_world 600).2.led_pc_connect.typing
      typing_timeout_world).1 = ESP_ERR_TIMEOUT ∧
    perform_windows_login typing_timeout_world 0 =
      some (ESP_ERR_TIMEOUT,
        (St.init.check_host typing_timeout_world 600).2.led_pc_connect.after_typing
          typing_timeout_world) ∧
    reports ((St.init.check_host typing_timeout_world 600).2.led_pc_connect.after_typing
      typing_timeout_world).trace = reports enter_events ∧
    waking_typing_timeout_world.reach 0 600 = false ∧
    ∃ st, wake_loop waking_typing_timeout_world waking_typing_timeout_world.start_time 2
        (St.at_loop waking_typing_timeout_world) = some (true, st) ∧
      perform_windows_login waking_typing_timeout_world 2 =
        some (ESP_ERR_TIMEOUT,
          ((st.led_pc_connect).delay 7000).after_typing waking_typing_timeout_world) := by
  have hready0 : ready_first 1 0 = true := by decide
  have hready : ∀ k, k < 4000 → ready_first 1 (0 + 1 + k) = false := by
    intro k _
    simp [ready_first]
  have h1 : wifi_manager_check_connection typing_timeout_world.s_wifi_connected
      typing_timeout_world.check_netif = ESP_OK := rfl
  have h2 : typing_timeout_world.reach 0 600 = true := by decide
  obtain ⟨q1, q2, q3⟩ := typing_expires typing_timeout_world
    (St.init.check_host typing_timeout_world 600).2.led_pc_connect hready0 hready
  have hq := (typing_error_is_returned typing_timeout_world 0 h1).1 h2 (by rw [q1]; decide)
  rw [q1] at hq
  obtain ⟨h0, st, hloop, -, -, hpolls⟩ := waking_loop (ready_first 1)
  have hp0 : ((st.led_pc_connect).delay 7000).polls = 0 := hpolls
  obtain ⟨w1, w2, w3⟩ := typing_expires waking_typing_timeout_world
    ((st.led_pc_connect).delay 7000) (by rw [hp0]; exact hready0) (by rw [hp0]; exact hready)
  have hw := (typing_error_is_returned waking_typing_timeout_world 2 (sample_world_link _ _ _)).2
    h0 (true, st) st hloop (Or.inl ⟨rfl, rfl⟩) (by rw [w1]; decide)
  rw [w1] at hw
  refine ⟨h1, h2, q1, hq, ?_, h0, st, hloop, hw⟩
  have hent : (hid_keyboard_press_enter typing_timeout_world.ready 0).2.2 = enter_events := by
    decide
  have htr : ((St.init.check_host typing_timeout_world 600).2.led_pc_connect.after_typing
      typing_timeout_world).trace =
      ((St.init.check_host typing_timeout_world 600).2.trace ++ [Event.led_pc_connect]) ++
        (hid_keyboard_press_enter typing_timeout_world.ready 0).2.2 ++ [Event.delay 500] ++
        ((St.init.check_host typing_timeout_world 600).2.led_pc_connect.typing
          typing_timeout_world).2.2 := rfl
  have hprobe : reports (St.init.check_host typing_timeout_world 600).2.trace = [] := by
    decide
  rw [htr, hent, reports_append, reports_append, reports_append, reports_append, q3, hprobe]
  rfl

/-! ## Theorems: order of the wake broadcast and the subnet broadcast address (C26, C27) -/

/-- C26: for a non-null MAC, whatever the single sends return,
`wol_send_magic_packet_all` calls `wol_send_magic_packet` for the
destinations (host, 9), (host, 7), (subnet broadcast, 9),
(subnet broadcast, 7), (255.255.255.255, 9), (255.255.255.255, 7), in this
order; the two directed sends are omitted exactly when the host is null or
empty, and the two subnet sends exactly when the interface handle or its
address information is unavailable. -/
theorem wake_broadcast_order (send : Nat → SendEnv) (netif : NetifEnv) (mac : CStr)
    (ip : Option CStr) :
    ∃ directed subnet,
      send_records (wol_send_magic_packet_all send netif (some mac) ip).2 =
        directed ++ subnet ++ [(some bcast_any, 9), (some bcast_any, 7)] ∧
      (directed = [] ↔ ip = none ∨ ip = some []) ∧
      (∀ host, ip = some host → host ≠ [] → directed = [(some host, 9), (some host, 7)]) ∧
      (subnet = [] ↔ netif.handle = false ∨ netif.ip_info = none) ∧
      (∀ info, netif.handle = true → netif.ip_info = some info →
        ∃ bcast_str, inet_ntoa_r (bcast_addr info.ip info.netmask) 16 = some bcast_str ∧
          subnet = [(some bcast_str, 9), (some bcast_str, 7)]) := by
  rw [wol_send_magic_packet_all_records]
  unfold wake_destinations
  refine ⟨_, _, rfl, ?_, ?_, ?_, ?_⟩
  · cases ip with
    | none => simp
    | some host =>
      cases host with
      | nil => simp
      | cons c rest => simp
  · intro host hip hne
    subst hip
    have : host.length > 0 := List.length_pos.2 hne
    simp [this]
  · cases netif.handle with
    | false => simp
    | true =>
      cases netif.ip_info with
      | none => simp
      | some info =>
        obtain ⟨b, hb⟩ := inet_ntoa_r_16 (bcast_addr info.ip info.netmask)
        simp [hb]
  · intro info hh hinfo
    obtain ⟨b, hb⟩ := inet_ntoa_r_16 (bcast_addr info.ip info.netmask)
    exact ⟨b, hb, by simp [hh, hinfo, hb]⟩

/-- The complement of a 32-bit value, written as exclusive or with
`0xFFFFFFFF`. -/
theorem xor_ones_eq (mask : Nat) (h : mask < 2 ^ 32) :
    mask ^^^ 0xFFFFFFFF = 2 ^ 32 - 1 - mask := by
  apply Nat.eq_of_testBit_eq
  intro i
  have h1 : (0xFFFFFFFF : Nat) = 2 ^ 32 - 1 := by norm_num
  have h2 : 2 ^ 32 - 1 - mask = 2 ^ 32 - (mask + 1) := by omega
  rw [h2, Nat.testBit_two_pow_sub_succ h, Nat.testBit_xor, h1, Nat.testBit_two_pow_sub_one]
  by_cases hi : i < 32
  · simp [hi]
  · have : mask.testBit i = false :=
      Nat.testBit_lt_two_pow (lt_of_lt_of_le h (Nat.pow_le_pow_right (by decide) (by omega)))
    simp [hi, this]

/-- C27: for every 32-bit netmask `mask` and every local address `ip`, the
subnet broadcast address computed by `wol_send_magic_packet_all` is
`(ip AND mask) OR (NOT mask)` taken modulo `2^32`, where `NOT mask` is the
32-bit complement `2^32 - 1 - mask`; it keeps the network part of the local
address and has every host bit set. -/
theorem bcast_addr_bits (ip mask : Nat) (hmask : mask < 2 ^ 32) :
    bcast_addr ip mask = ((ip &&& mask) ||| (2 ^ 32 - 1 - mask)) % 2 ^ 32 ∧
    bcast_addr ip mask < 2 ^ 32 ∧
    bcast_addr ip mask &&& mask = ip &&& mask ∧
    bcast_addr ip mask &&& (2 ^ 32 - 1 - mask) = 2 ^ 32 - 1 - mask := by
  have hx := xor_ones_eq mask hmask
  have hbit : ∀ i, (2 ^ 32 - 1 - mask).testBit i = (decide (i < 32) && !mask.testBit i) := by
    intro i
    rw [show 2 ^ 32 - 1 - mask = 2 ^ 32 - (mask + 1) by omega,
      Nat.testBit_two_pow_sub_succ hmask]
  have hhigh : ∀ i, 32 ≤ i → mask.testBit i = false := fun i hi =>
    Nat.testBit_lt_two_pow (lt_of_lt_of_le hmask (Nat.pow_le_pow_right (by decide) hi))
  unfold bcast_addr
  rw [hx]
  refine ⟨rfl, Nat.mod_lt _ (by decide), ?_, ?_⟩
  · apply Nat.eq_of_testBit_eq
    intro i
    simp only [Nat.testBit_and, Nat.testBit_mod_two_pow, Nat.testBit_or, hbit]
    by_cases hi : i < 32
    · cases mask.testBit i <;> cases ip.testBit i <;> simp [hi]
    · simp [hi, hhigh i (by omega)]
  · apply Nat.eq_of_testBit_eq
    intro i
    simp only [Nat.testBit_and, Nat.testBit_mod_two_pow, Nat.testBit_or, hbit]
    by_cases hi : i < 32
    · cases mask.testBit i <;> cases ip.testBit i <;> simp [hi]
    · simp [hi]

theorem bcast_addr_bits_witness :
    (0x00FFFFFF : Nat) < 2 ^ 32 ∧
    bcast_addr 0x6400A8C0 0x00FFFFFF = 0xFF00A8C0 ∧
    bcast_addr 0x6400A8C0 0x00FFFFFF &&& 0x00FFFFFF = 0x6400A8C0 &&& 0x00FFFFFF ∧
    bcast_addr 0x6400A8C0 0x00FFFFFF &&& (2 ^ 32 - 1 - 0x00FFFFFF) = 2 ^ 32 - 1 - 0x00FFFFFF :=
  ⟨by decide, by decide,
    (bcast_addr_bits 0x6400A8C0 0x00FFFFFF (by decide)).2.2.1,
    (bcast_addr_bits 0x6400A8C0 0x00FFFFFF (by decide)).2.2.2⟩

/-! ## Theorems: the initial wait of `hid_keyboard_type_string` (C29) -/

/-- The character loop only adds events and never goes back in the
readiness evaluations. -/
theorem type_loop_extends (lib : HidLib) (ready : Nat → Bool) (delay_ms : Nat) :
    ∀ (text : CStr) (t : Nat) (evs : List Event),
      (∃ rest, (type_loop lib ready delay_ms text t evs).2.2 = evs ++ rest) ∧
      t ≤ (type_loop lib ready delay_ms text t evs).2.1 := by
  intro text
  induction text with
  | nil => intro t evs; exact ⟨⟨[], by simp [type_loop]⟩, Nat.le_refl _⟩
  | cons ch rest ih =>
    intro t evs
    have hb := hid_wait_ready_loop_spec ready 2000 (max 1 2000) 0 t (by simp)
    have hge : t ≤ (hid_wait_ready ready 2000 t).2.1 := by
      rcases hb with ⟨k, -, -, -, heq⟩ | ⟨-, heq⟩
      · rw [show hid_wait_ready ready 2000 t = _ from heq]
        simp only []
        omega
      · rw [show hid_wait_ready ready 2000 t = _ from heq]
        simp only []
        omega
    simp only [type_loop]
    split_ifs with h1 h2 h3
    · exact ih t evs
    · exact ⟨⟨_, rfl⟩, hge⟩
    · obtain ⟨⟨r, hr⟩, hle⟩ := ih (hid_wait_ready ready 2000 t).2.1
        (evs ++ (hid_wait_ready ready 2000 t).2.2 ++
          [.report (lookup_key lib ch).1 [(lookup_key lib ch).2, 0, 0, 0, 0, 0], .delay 30,
           .report 0 no_keys] ++ [.delay delay_ms])
      refine ⟨⟨(hid_wait_ready ready 2000 t).2.2 ++
          [.report (lookup_key lib ch).1 [(lookup_key lib ch).2, 0, 0, 0, 0, 0], .delay 30,
           .report 0 no_keys] ++ [.delay delay_ms] ++ r, ?_⟩, by omega⟩
      rw [hr]
      simp only [List.append_assoc]
    · obtain ⟨⟨r, hr⟩, hle⟩ := ih (hid_wait_ready ready 2000 t).2.1
        (evs ++ (hid_wait_ready ready 2000 t).2.2 ++
          [.report (lookup_key lib ch).1 [(lookup_key lib ch).2, 0, 0, 0, 0, 0], .delay 30,
           .report 0 no_keys])
      refine ⟨⟨(hid_wait_ready ready 2000 t).2.2 ++
          [.report (lookup_key lib ch).1 [(lookup_key lib ch).2, 0, 0, 0, 0, 0], .delay 30,
           .report 0 no_keys] ++ r, ?_⟩, by omega⟩
      rw [hr]
      simp only [List.append_assoc]

/-- C29: for every non-null text (the empty text and texts made only of
unsupported characters included), `hid_keyboard_type_string` first performs
the readiness wait bounded by 4000 evaluations, before it looks at any
character: the events of that wait come first and at least one evaluation is
made; if the wait expires, which it does exactly when the channel is ready at
none of the 4000 evaluations, the function returns `ESP_ERR_TIMEOUT` after
these 4000 evaluations having emitted no report; for a null text it returns
`ESP_ERR_INVALID_ARG` having emitted nothing and performed no evaluation. -/
theorem hid_keyboard_type_string_initial_wait (lib : HidLib) (ready : Nat → Bool) (text : CStr)
    (delay_ms t : Nat) :
    hid_keyboard_type_string lib ready none delay_ms t = (ESP_ERR_INVALID_ARG, t, []) ∧
    (∃ rest, (hid_keyboard_type_string lib ready (some text) delay_ms t).2.2 =
      (hid_wait_ready ready 4000 t).2.2 ++ rest) ∧
    t + 1 ≤ (hid_keyboard_type_string lib ready (some text) delay_ms t).2.1 ∧
    (hid_wait_ready ready 4000 t).2.1 ≤ t + 4000 ∧
    ((hid_wait_ready ready 4000 t).1 = false ↔ ∀ k, k < 4000 → ready (t + k) = false) ∧
    ((hid_wait_ready ready 4000 t).1 = false →
      hid_keyboard_type_string lib ready (some text) delay_ms t =
        (ESP_ERR_TIMEOUT, t + 4000, List.replicate 4000 (Event.delay 1)) ∧
      reports (hid_keyboard_type_string lib ready (some text) delay_ms t).2.2 = []) := by
  have hrun : hid_wait_ready ready 4000 t =
      hid_wait_ready_loop ready 4000 (max 1 4000) 0 t := rfl
  have hspec := hid_wait_ready_loop_spec ready 4000 (max 1 4000) 0 t (by simp)
  rw [← hrun] at hspec
  have hm : max 1 (4000 - 0) = 4000 := by decide
  rw [hm] at hspec
  have hdef : hid_keyboard_type_string lib ready (some text) delay_ms t =
      if (hid_wait_ready ready 4000 t).1 = false then
        (ESP_ERR_TIMEOUT, (hid_wait_ready ready 4000 t).2.1, (hid_wait_ready ready 4000 t).2.2)
      else type_loop lib ready delay_ms text (hid_wait_ready ready 4000 t).2.1
        (hid_wait_ready ready 4000 t).2.2 := rfl
  have hext := type_loop_extends lib ready delay_ms text (hid_wait_ready ready 4000 t).2.1
    (hid_wait_ready ready 4000 t).2.2
  rcases hspec with ⟨k, hk, hready, -, heq⟩ | ⟨hnever, heq⟩
  · have h1 : (hid_wait_ready ready 4000 t).1 = true := by rw [heq]
    have h2 : (hid_wait_ready ready 4000 t).2.1 = t + k + 1 := by rw [heq]
    have hne : ¬ ((hid_wait_ready ready 4000 t).1 = false) := by rw [h1]; decide
    rw [hdef, if_neg hne]
    refine ⟨rfl, hext.1, ?_, by omega, ?_, fun h => absurd h hne⟩
    · have := hext.2
      omega
    · constructor
      · intro h
        exact absurd h hne
      · intro h
        have := h k hk
        rw [hready] at this
        exact absurd this (by decide)
  · have h1 : (hid_wait_ready ready 4000 t).1 = false := by rw [heq]
    have h2 : (hid_wait_ready ready 4000 t).2.1 = t + 4000 := by rw [heq]
    have h3 : (hid_wait_ready ready 4000 t).2.2 = List.replicate 4000 (Event.delay 1) := by
      rw [heq]
    have hrep := hid_wait_ready_reports ready 4000 t
    rw [hdef, if_pos h1]
    refine ⟨rfl, ⟨[], by simp⟩, ?_, by omega, ⟨fun _ => hnever, fun _ => h1⟩, fun _ => ⟨?_, hrep⟩⟩
    · show t + 1 ≤ (hid_wait_ready ready 4000 t).2.1
      omega
    · rw [h2, h3]

/-! ## Theorems: `extract_url_from_ndef` (C30) -/

/-- Inside the buffer the chain of comparisons reads no byte outside it and
says whether the expected bytes stand at the index. -/
theorem bytes_match_checked_eq (data : List Nat) :
    ∀ (hdr : List Nat) (i : Nat), i + hdr.length ≤ data.length →
      bytes_match_checked data i hdr = some (decide ((data.drop i).take hdr.length = hdr)) := by
  intro hdr
  induction hdr with
  | nil => intro i _; simp [bytes_match_checked]
  | cons b rest ih =>
    intro i hi
    simp only [List.length_cons] at hi
    have hlt : i < data.length := by omega
    rw [List.drop_eq_getElem_cons hlt]
    simp only [bytes_match_checked, List.getElem?_eq_getElem hlt, List.length_cons,
      List.take_succ_cons, List.cons.injEq]
    by_cases hx : data[i] = b
    · rw [if_pos hx, ih (i + 1) (by omega)]
      simp [hx]
    · rw [if_neg hx]
      simp [hx]

theorem header_checked_eq (data : List Nat) (i : Nat) (hi : i + 6 ≤ data.length) :
    bytes_match_checked data i ndef_header = some (decide (header_occurs data i)) :=
  bytes_match_checked_eq data ndef_header i hi

/-- The outer loop inside the buffer: it finds the first index with the
header, or none, and reads no byte outside the buffer. -/
theorem find_header_checked_spec (data : List Nat) :
    ∀ (n i : Nat), i + n + 5 ≤ data.length ∨ n = 0 →
      (∃ k, i ≤ k ∧ k < i + n ∧ header_occurs data k ∧
        (∀ m, i ≤ m → m < k → ¬ header_occurs data m) ∧
        find_header_checked data n i = some (some k)) ∨
      ((∀ m, i ≤ m → m < i + n → ¬ header_occurs data m) ∧
        find_header_checked data n i = some none) := by
  intro n
  induction n with
  | zero =>
    intro i _
    exact Or.inr ⟨fun m h1 h2 => by omega, rfl⟩
  | succ n ih =>
    intro i hb
    have hi : i + 6 ≤ data.length := by omega
    simp only [find_header_checked, header_checked_eq data i hi]
    by_cases ho : header_occurs data i
    · left
      refine ⟨i, Nat.le_refl _, by omega, ho, fun m h1 h2 => by omega, ?_⟩
      simp [ho]
    · simp only [ho, decide_False]
      rcases ih (i + 1) (by omega) with ⟨k, h1, h2, h3, h4, h5⟩ | ⟨h1, h2⟩
      · left
        refine ⟨k, by omega, by omega, h3, fun m hm1 hm2 => ?_, h5⟩
        rcases Nat.eq_or_lt_of_le hm1 with rfl | hlt
        · exact ho
        · exact h4 m hlt hm2
      · right
        refine ⟨fun m hm1 hm2 => ?_, h2⟩
        rcases Nat.eq_or_lt_of_le hm1 with rfl | hlt
        · exact ho
        · exact h1 m hlt (by omega)

/-- The inner loop: with `pre` written so far and `rest` the remainder of
the buffer `url`, it appends the bytes up to the first `0xFE`, the end of the
data or the limit `url_max_len - 1`, and stays inside both buffers. -/
theorem copy_url_checked_spec (data : List Nat) (url_max_len : Nat) :
    ∀ (n j : Nat) (pre rest : List Nat), j + n = data.length →
      pre.length + rest.length = url_max_len → pre.length ≤ url_max_len - 1 →
      copy_url_checked data url_max_len n j pre.length (pre ++ rest) =
        some (pre.length +
            (((data.drop j).takeWhile (· ≠ 0xfe)).take (url_max_len - 1 - pre.length)).length,
          pre ++ ((data.drop j).takeWhile (· ≠ 0xfe)).take (url_max_len - 1 - pre.length) ++
            rest.drop
              (((data.drop j).takeWhile (· ≠ 0xfe)).take (url_max_len - 1 - pre.length)).length)
    := by
  intro n
  induction n with
  | zero =>
    intro j pre rest hj _ _
    have : data.drop j = [] := List.drop_eq_nil_of_le (by omega)
    simp [copy_url_checked, this]
  | succ n ih =>
    intro j pre rest hj hlen hpre
    have hlt : j < data.length := by omega
    rw [List.drop_eq_getElem_cons hlt]
    by_cases hroom : (pre.length : Int) < (url_max_len : Int) - 1
    · have hroom' : pre.length < url_max_len - 1 := by omega
      obtain ⟨m, hm⟩ : ∃ m, url_max_len - 1 - pre.length = m + 1 :=
        ⟨url_max_len - 1 - pre.length - 1, by omega⟩
      simp only [copy_url_checked, hroom, if_true, List.getElem?_eq_getElem hlt]
      by_cases hfe : data[j] = 0xfe
      · simp [hfe]
      · have htw : List.takeWhile (fun x : Nat => decide (x ≠ 0xfe))
            (data[j] :: List.drop (j + 1) data) =
            data[j] :: List.takeWhile (fun x : Nat => decide (x ≠ 0xfe))
              (List.drop (j + 1) data) := by
          rw [List.takeWhile_cons]
          simp only [ne_eq, hfe, not_false_eq_true, decide_True, if_true]
        rw [if_neg hfe, htw, hm, List.take_succ_cons]
        obtain ⟨r, rs, rfl⟩ : ∃ r rs, rest = r :: rs := by
          cases rest with
          | nil => simp at hlen; omega
          | cons r rs => exact ⟨r, rs, rfl⟩
        have hw : write_byte (pre ++ r :: rs) pre.length data[j] =
            some ((pre ++ [data[j]]) ++ rs) := by
          simp [write_byte]
        rw [hw]
        have hih := ih (j + 1) (pre ++ [data[j]]) rs (by omega)
          (by simp only [List.length_append, List.length_cons, List.length_nil] at hlen ⊢; omega)
          (by simp only [List.length_append, List.length_cons, List.length_nil]; omega)
        have hm' : url_max_len - 1 - (pre ++ [data[j]]).length = m := by
          simp only [List.length_append, List.length_cons, List.length_nil]
          omega
        rw [hm'] at hih
        have hl : (pre ++ [data[j]]).length = pre.length + 1 := by simp
        rw [hl] at hih
        simp only [] at hih ⊢
        rw [hih]
        simp only [List.length_cons, List.drop_succ_cons, List.append_assoc, List.singleton_append,
          Option.some.injEq, Prod.mk.injEq, and_true]
        omega
    · have hz : url_max_len - 1 - pre.length = 0 := by omega
      simp [copy_url_checked, hroom, hz]

/-- Inside the buffer the header test of the plain model agrees with the
checked one. -/
theorem header_at_eq (data : List Nat) (i : Nat) (hi : i + 6 ≤ data.length) :
    header_at data i = decide (header_occurs data i) := by
  have h := header_checked_eq data i hi
  simp only [ndef_header, bytes_match_checked,
    List.getElem?_eq_getElem (show i < data.length by omega),
    List.getElem?_eq_getElem (show i + 1 < data.length by omega),
    List.getElem?_eq_getElem (show i + 1 + 1 < data.length by omega),
    List.getElem?_eq_getElem (show i + 1 + 1 + 1 < data.length by omega),
    List.getElem?_eq_getElem (show i + 1 + 1 + 1 + 1 < data.length by omega),
    List.getElem?_eq_getElem (show i + 1 + 1 + 1 + 1 + 1 < data.length by omega)] at h
  simp only [header_at, List.getD_eq_getElem?_getD,
    List.getElem?_eq_getElem (show i < data.length by omega),
    List.getElem?_eq_getElem (show i + 1 < data.length by omega),
    List.getElem?_eq_getElem (show i + 2 < data.length by omega),
    List.getElem?_eq_getElem (show i + 3 < data.length by omega),
    List.getElem?_eq_getElem (show i + 4 < data.length by omega),
    List.getElem?_eq_getElem (show i + 5 < data.length by omega), Option.getD_some]
  split_ifs at h <;> simp_all

theorem find_header_eq (data : List Nat) :
    ∀ (n i : Nat), i + n + 5 ≤ data.length ∨ n = 0 →
      find_header_checked data n i = some (find_header data n i) := by
  intro n
  induction n with
  | zero => intro i _; rfl
  | succ n ih =>
    intro i hb
    have hi : i + 6 ≤ data.length := by omega
    simp only [find_header_checked, find_header, header_checked_eq data i hi,
      header_at_eq data i hi]
    by_cases ho : header_occurs data i
    · simp [ho]
    · simp only [ho, decide_False, Bool.false_eq_true, if_false]
      exact ih (i + 1) (by omega)

theorem copy_url_eq (data : List Nat) (url_max_len : Nat) :
    ∀ (n j : Nat) (url : List Nat), j + n = data.length →
      copy_url data url_max_len n j url =
        url ++ ((data.drop j).takeWhile (· ≠ 0xfe)).take (url_max_len - 1 - url.length) := by
  intro n
  induction n with
  | zero =>
    intro j url hj
    have : data.drop j = [] := List.drop_eq_nil_of_le (by omega)
    simp [copy_url, this]
  | succ n ih =>
    intro j url hj
    have hlt : j < data.length := by omega
    rw [List.drop_eq_getElem_cons hlt]
    simp only [copy_url, List.getD_eq_getElem?_getD, List.getElem?_eq_getElem hlt,
      Option.getD_some]
    by_cases hroom : url.length < url_max_len - 1
    · obtain ⟨m, hm⟩ : ∃ m, url_max_len - 1 - url.length = m + 1 :=
        ⟨url_max_len - 1 - url.length - 1, by omega⟩
      rw [if_pos hroom, List.takeWhile_cons]
      by_cases hfe : data[j] = 0xfe
      · simp [hfe]
      · simp only [ne_eq, hfe, not_false_eq_true, decide_True, if_true, if_false, hm,
          List.take_succ_cons]
        rw [ih (j + 1) (url ++ [data[j]]) (by omega)]
        have hm' : url_max_len - 1 - (url ++ [data[j]]).length = m := by
          simp only [List.length_append, List.length_cons, List.length_nil]
          omega
        rw [hm']
        simp
    · have hz : url_max_len - 1 - url.length = 0 := by omega
      simp [hroom, hz]

/-- A write right behind the part `pre` of a buffer. -/
theorem write_byte_append (pre : List Nat) (r : Nat) (rs : List Nat) (v : Nat) :
    write_byte (pre ++ r :: rs) pre.length v = some (pre ++ v :: rs) := by
  simp [write_byte]

/-- The function on a data buffer of `data_len` bytes and a `url` buffer of
`url_max_len` bytes: the two outcomes. -/
theorem extract_url_from_ndef_cases (data url : List Nat) (url_max_len : Nat)
    (hdata : 0 < data.length) (hmax : 1 < url_max_len) (hurl : url.length = url_max_len) :
    ((∀ m, m + 8 < data.length → ¬ header_occurs data m) →
      extract_url_from_ndef_checked (some data) data.length (some url) url_max_len = some none ∧
      extract_url_from_ndef (some data) data.length true url_max_len = none) ∧
    (∀ i, i + 8 < data.length → header_occurs data i →
      (∀ m, m < i → ¬ header_occurs data m) →
      extract_url_from_ndef_checked (some data) data.length (some url) url_max_len =
        some (some (url_bytes data i url_max_len ++
          0 :: url.drop ((url_bytes data i url_max_len).length + 1))) ∧
      extract_url_from_ndef (some data) data.length true url_max_len =
        some (url_bytes data i url_max_len)) := by
  have hn : ((data.length : Int) - 8).toNat = data.length - 8 := by omega
  have hg : ¬ ((data.length : Int) ≤ 0 ∨ (url_max_len : Int) ≤ 1) := by omega
  have hg' : ¬ ((data.length : Int) ≤ 0 ∨ true = false ∨ (url_max_len : Int) ≤ 1) := by
    simp only [Bool.true_eq_false, false_or]
    omega
  have hb : 0 + (data.length - 8) + 5 ≤ data.length ∨ data.length - 8 = 0 := by omega
  have hfe := find_header_eq data (data.length - 8) 0 hb
  have hspec := find_header_checked_spec data (data.length - 8) 0 hb
  constructor
  · intro hno
    rcases hspec with ⟨k, -, hk, ho, -, -⟩ | ⟨-, hres⟩
    · exact absurd ho (hno k (by omega))
    · have hold : find_header data (data.length - 8) 0 = none := by
        rw [hres] at hfe
        exact (Option.some.inj hfe).symm
      simp only [extract_url_from_ndef_checked, extract_url_from_ndef, hg, hg', if_false, hn,
        hres, hold, and_self]
  · intro i hi ho hfirst
    rcases hspec with ⟨k, -, hk, hok, hkfirst, hres⟩ | ⟨hnone, -⟩
    · have hki : k = i := by
        rcases Nat.lt_trichotomy k i with h | h | h
        · exact absurd hok (hfirst k h)
        · exact h
        · exact absurd ho (hkfirst i (Nat.zero_le _) h)
      subst hki
      have hold : find_header data (data.length - 8) 0 = some k := by
        rw [hres] at hfe
        exact (Option.some.inj hfe).symm
      have hc := copy_url_checked_spec data url_max_len (data.length - (k + 7)) (k + 7) [] url
        (by omega) (by simpa using hurl) (by simp)
      have hc' := copy_url_eq data url_max_len (data.length - (k + 7)) (k + 7) [] (by omega)
      simp only [List.length_nil, Nat.sub_zero, Nat.zero_add, List.nil_append] at hc hc'
      have hlen : (url_bytes data k url_max_len).length ≤ url_max_len - 1 := by
        unfold url_bytes
        exact List.length_take_le _ _
      have hw : write_byte (url_bytes data k url_max_len ++
            url.drop (url_bytes data k url_max_len).length)
          (url_bytes data k url_max_len).length 0 =
          some (url_bytes data k url_max_len ++
            0 :: url.drop ((url_bytes data k url_max_len).length + 1)) := by
        have hd : url.drop (url_bytes data k url_max_len).length =
            url[(url_bytes data k url_max_len).length] ::
              url.drop ((url_bytes data k url_max_len).length + 1) :=
          List.drop_eq_getElem_cons (by omega)
        rw [hd, write_byte_append]
      constructor
      · simp only [extract_url_from_ndef_checked, hg, if_false, hn, hres, Int.toNat_ofNat]
        rw [hc]
        simp only []
        exact (by rw [show (List.take (url_max_len - 1)
            (List.takeWhile (fun x => decide (x ≠ 0xfe)) (List.drop (k + 7) data))) =
            url_bytes data k url_max_len from rfl, hw])
      · simp only [extract_url_from_ndef, hg', if_false, hn, hold, Int.toNat_ofNat]
        rw [hc']
        rfl
    · exact absurd ho (hnone i (Nat.zero_le _) (by omega))

/-- C30: for every data buffer of `data_len > 0` bytes and every `url`
buffer of `url_max_len > 1` bytes, `extract_url_from_ndef` reads and writes
inside the two buffers only; it returns true if and only if the 6-byte
header `03 13 D1 01 0F 55` occurs at some index `i < data_len - 8`; in that
case, for the smallest such `i`, the buffer `url` then holds the bytes from
the index `i + 7` up to but not including the first `0xFE` byte (or the end
of the data), at most `url_max_len - 1` of them, followed by a terminating
zero; otherwise it returns false.  The plain model of the function used for
the card loop gives the same bytes. -/
theorem extract_url_from_ndef_spec (data url : List Nat) (url_max_len : Nat)
    (hdata : 0 < data.length) (hmax : 1 < url_max_len) (hurl : url.length = url_max_len) :
    extract_url_from_ndef_checked (some data) data.length (some url) url_max_len ≠ none ∧
    ((∃ u, extract_url_from_ndef_checked (some data) data.length (some url) url_max_len =
        some (some u)) ↔
      ∃ i, i + 8 < data.length ∧ header_occurs data i) ∧
    (∀ i, i + 8 < data.length → header_occurs data i →
      (∀ m, m < i → ¬ header_occurs data m) →
      extract_url_from_ndef_checked (some data) data.length (some url) url_max_len =
        some (some (url_bytes data i url_max_len ++
          0 :: url.drop ((url_bytes data i url_max_len).length + 1))) ∧
      (url_bytes data i url_max_len).length + 1 ≤ url_max_len ∧
      extract_url_from_ndef (some data) data.length true url_max_len =
        some (url_bytes data i url_max_len)) ∧
    ((¬ ∃ i, i + 8 < data.length ∧ header_occurs data i) →
      extract_url_from_ndef_checked (some data) data.length (some url) url_max_len = some none ∧
      extract_url_from_ndef (some data) data.length true url_max_len = none) := by
  obtain ⟨hA, hB⟩ := extract_url_from_ndef_cases data url url_max_len hdata hmax hurl
  have hlen : ∀ i, (url_bytes data i url_max_len).length + 1 ≤ url_max_len := by
    intro i
    have : (url_bytes data i url_max_len).length ≤ url_max_len - 1 := by
      unfold url_bytes
      exact List.length_take_le _ _
    omega
  by_cases hex : ∃ i, i + 8 < data.length ∧ header_occurs data i
  · have hs := Nat.find_spec hex
    have hmin : ∀ m, m < Nat.find hex → ¬ header_occurs data m := by
      intro m hm ho
      exact Nat.find_min hex hm ⟨by omega, ho⟩
    obtain ⟨r1, r2⟩ := hB (Nat.find hex) hs.1 hs.2 hmin
    refine ⟨by rw [r1]; simp, ⟨fun _ => hex, fun _ => ⟨_, r1⟩⟩, ?_, fun h => absurd hex h⟩
    intro i hi ho hfirst
    obtain ⟨q1, q2⟩ := hB i hi ho hfirst
    exact ⟨q1, hlen i, q2⟩
  · have hno : ∀ m, m + 8 < data.length → ¬ header_occurs data m :=
      fun m hm ho => hex ⟨m, hm, ho⟩
    obtain ⟨r1, r2⟩ := hA hno
    refine ⟨by rw [r1]; simp, ⟨?_, fun h => absurd h hex⟩, ?_, fun _ => ⟨r1, r2⟩⟩
    · rintro ⟨u, hu⟩
      rw [r1] at hu
      exact absurd hu (by simp)
    · intro i hi ho _
      exact absurd ho (hno i hi)

theorem extract_url_from_ndef_spec_witness :
    0 < sample_ndef.length ∧ 1 < 8 ∧ [1, 1, 1, 1, 1, 1, 1, 1].length = 8 ∧
    4 + 8 < sample_ndef.length ∧ header_occurs sample_ndef 4 ∧
    (∀ m, m < 4 → ¬ header_occurs sample_ndef m) ∧
    extract_url_from_ndef_checked (some sample_ndef) (sample_ndef.length : Nat)
        (some [1, 1, 1, 1, 1, 1, 1, 1]) (8 : Nat) =
      some (some [97, 98, 99, 0, 1, 1, 1, 1]) :=
  ⟨by decide, by decide, rfl, by decide, by decide, by decide,
    ((extract_url_from_ndef_spec sample_ndef [1, 1, 1, 1, 1, 1, 1, 1] 8 (by decide) (by decide)
      rfl).2.2.1 4 (by decide) (by decide) (by decide)).1.trans (by decide)⟩

end PN532WoL
